import Mathlib

/-! EfficientPngLoading: chunk readers, integrity check and stream driver.

A shallow embedding of `src/main.cpp` and `src/EPL/parsing_chunks.cpp`.

* Bytes are `Fin 256`; `uint32_t` values are natural numbers, reduced modulo `2^32`
  wherever the C++ arithmetic can wrap.
* A `std::ifstream` is the list of bytes not yet extracted together with its
  `eofbit` and `failbit`.
* A C++ function with reference parameters becomes a function returning the
  `Status` with which it stopped and the final value of every object it may write.
* `assert` is taken as active (no `NDEBUG`): a failed assertion stops the process.
* Text printed on `std::cout` / `std::cerr` is not modelled.
-/

namespace EPL

/-! ## Machine values -/

/-- One octet (`uint8_t`, `char`). -/
abbrev Byte := Fin 256

/-- The character constant `c` as a byte. -/
def ch (c : Char) : Byte := Fin.ofNat c.toNat

/-- The expression `(b0 << 24) | (b1 << 16) | (b2 << 8) | b3`, converted to `uint32_t`. -/
def be32 (b0 b1 b2 b3 : Byte) : Nat :=
  ((b0.val <<< 24) ||| (b1.val <<< 16) ||| (b2.val <<< 8) ||| b3.val) % 2 ^ 32

/-- How a run of a function stopped. -/
inductive Status where
  /-- The function returned the given `bool`. -/
  | returned (b : Bool)
  /-- An `assert` failed: the process is terminated, nothing is returned. -/
  | assert_failed
  /-- The run read an array element that is out of bounds or was never written. -/
  | undefined
  /-- The model ran out of fuel (the C++ loop had not finished yet). -/
  | out_of_fuel
  deriving DecidableEq, Repr

/-! ## `std::ifstream` -/

/-- Input file stream: the bytes still to be extracted and two state bits. -/
structure ifstream where
  data : List Byte
  eofbit : Bool
  failbit : Bool
  deriving DecidableEq, Repr

/-- A freshly opened stream over `bytes`. -/
def ifstream.opened (bytes : List Byte) : ifstream := ⟨bytes, false, false⟩

/-- The member `eof()`. -/
def ifstream.eof (s : ifstream) : Bool := s.eofbit

/-- The member `read(dst, n)`: the extracted characters and the stream afterwards.
A stream that is not good extracts nothing and sets `failbit`; a stream that ends
before `n` characters hands out what is left and sets `eofbit` and `failbit`. -/
def ifstream.read (s : ifstream) (n : Nat) : List Byte × ifstream :=
  if s.eofbit || s.failbit then ([], { s with failbit := true })
  else if n ≤ s.data.length then (s.data.take n, { s with data := s.data.drop n })
  else (s.data, { data := [], eofbit := true, failbit := true })

/-- A value-initialised `std::vector<uint8_t> buffer(n)` after `read` stored `got` at its
front: positions not written keep their zero. -/
def vector_filled (n : Nat) (got : List Byte) : List Byte :=
  got ++ List.replicate (n - got.length) 0

/-- The four-byte big-endian value assembled from `buffer[i0]`, `buffer[i1]`, `buffer[i2]`,
`buffer[i3]`; `none` when one of the indices is outside the defined part of the buffer. -/
def be32_at (buffer : List Byte) (i0 i1 i2 i3 : Nat) : Option Nat :=
  match buffer[i0]?, buffer[i1]?, buffer[i2]?, buffer[i3]? with
  | some b0, some b1, some b2, some b3 => some (be32 b0 b1 b2 b3)
  | _, _, _, _ => none

/-! ## zlib `crc32` -/

/-- One step of the bit-serial CRC register with the reflected polynomial `0xEDB88320`. -/
def crc_shift (c : Nat) : Nat :=
  if c % 2 = 1 then 0xEDB88320 ^^^ (c >>> 1) else c >>> 1

/-- Modelled from the spec: zlib is not part of the repository; the spec names "the standard
CRC-32 polynomial (same table/algorithm as the well-known deflate-family checksum)".
Entry `n` of zlib's byte table, built as its table generator does: eight register steps
starting from `n`. -/
def crc_table_entry (n : Nat) : Nat := crc_shift^[8] n

/-- Modelled from the spec: zlib's 256-entry CRC table. -/
def crc_table : List Nat := (List.range 256).map crc_table_entry

/-- Modelled from the spec: zlib's `crc32(crc, buf, len)` with `buf[0..len)` given as a list:
the running value is complemented, every byte is folded in by one table look-up
(`crc_table[(c ^ b) & 0xff] ^ (c >> 8)`), and the result is complemented again. -/
def crc32 (crc : Nat) (buf : List Byte) : Nat :=
  (buf.foldl (fun c b => crc_table.getD ((c ^^^ b.val) % 256) 0 ^^^ (c >>> 8))
    (crc ^^^ 0xFFFFFFFF)) ^^^ 0xFFFFFFFF

/-- The standard CRC-32 of a byte string, as the spec words it: register initialised to
`0xFFFFFFFF`, each byte XORed into the low bits and shifted out bit by bit with the
reflected polynomial `0xEDB88320`, final XOR with `0xFFFFFFFF`. -/
def crc32_standard (data : List Byte) : Nat :=
  (data.foldl (fun c b => crc_shift^[8] (c ^^^ b.val)) 0xFFFFFFFF) ^^^ 0xFFFFFFFF

/-! ## Records of `png_properties.h` -/

/-- The record `IHDR_t`. -/
structure IHDR_t where
  width : Nat
  height : Nat
  channels : Nat
  bit_depth : Byte
  color_type : Byte
  compression_method : Byte
  filter_method : Byte
  interlace_method : Byte
  deriving DecidableEq, Repr

/-- The record `RGB_t`, built by its three-argument constructor. -/
structure RGB_t where
  red : Byte
  green : Byte
  blue : Byte
  deriving DecidableEq, Repr

/-- The record `pHYs_t`. -/
structure pHYs_t where
  pixels_per_unit_x : Nat
  pixels_per_unit_y : Nat
  unit_specifier : Byte
  deriving DecidableEq, Repr

/-- The record `bKGD_t`. -/
structure bKGD_t where
  red : Byte
  green : Byte
  blue : Byte
  index : Byte
  is_indexed : Bool
  deriving DecidableEq, Repr

/-- The record `cHRM_t`. -/
structure cHRM_t where
  red_x : Nat
  red_y : Nat
  green_x : Nat
  green_y : Nat
  blue_x : Nat
  blue_y : Nat
  white_x : Nat
  white_y : Nat
  deriving DecidableEq, Repr

/-- The aggregate `png_properties_t`. -/
structure png_properties_t where
  ihdr : IHDR_t
  phys : pHYs_t
  bkgd : bKGD_t
  chrm : cHRM_t
  palette : List RGB_t
  compressed_data : List Byte
  decompressed_data : List Byte
  deriving DecidableEq, Repr

/-! ## Chunk readers of `parsing_chunks.cpp`

Every reader returns the status with which it stopped, the stream afterwards and,
where it has one, the record it writes.  When the status is `Status.undefined` the other
components only record how far the model got. -/

/-- The `uint32_t` sum `chunk_length + k`. -/
def u32_add (chunk_length k : Nat) : Nat := (chunk_length + k) % 2 ^ 32

/-- The trailer expression
`(buffer[chunk_length] << 24) | (buffer[chunk_length + 1] << 16) | (buffer[chunk_length + 2] << 8) | buffer[chunk_length + 3]`. -/
def crc_value_at (buffer : List Byte) (chunk_length : Nat) : Option Nat :=
  be32_at buffer chunk_length (u32_add chunk_length 1) (u32_add chunk_length 2)
    (u32_add chunk_length 3)

/-- The `switch (ihdr.color_type)` of `parse_ihdr_chunk`. -/
def ihdr_channels (color_type : Byte) : Nat :=
  match color_type.val with
  | 0 => 1
  | 2 => 3
  | 3 => 1
  | 4 => 2
  | 6 => 4
  | _ => 0

/-- The function `parse_ihdr_chunk`.  Its buffer is a local array that is not initialised, so
only the characters `read` extracted are defined. -/
def parse_ihdr_chunk (stream : ifstream) (chunk_length : Nat) (ihdr : IHDR_t) :
    Status × ifstream × IHDR_t :=
  if chunk_length ≠ 13 then (.assert_failed, stream, ihdr) else
  let (buffer, stream) := stream.read (u32_add chunk_length 4)
  match be32_at buffer 0 1 2 3, be32_at buffer 4 5 6 7,
      buffer[8]?, buffer[9]?, buffer[10]?, buffer[11]?, buffer[12]? with
  | some width, some height, some bit_depth, some color_type, some compression_method,
      some filter_method, some interlace_method =>
    let ihdr : IHDR_t :=
      { width := width, height := height, channels := ihdr_channels color_type,
        bit_depth := bit_depth, color_type := color_type,
        compression_method := compression_method, filter_method := filter_method,
        interlace_method := interlace_method }
    if ihdr.channels = 0 then (.assert_failed, stream, ihdr) else
    match crc_value_at buffer chunk_length with
    | none => (.undefined, stream, ihdr)
    | some crc_value =>
      let crc_integrity := crc32 0 [ch 'I', ch 'H', ch 'D', ch 'R'] % 2 ^ 32
      let crc_integrity := crc32 crc_integrity (buffer.take chunk_length) % 2 ^ 32
      if crc_integrity ≠ crc_value then (.returned false, stream, ihdr)
      else (.returned true, stream, ihdr)
  | _, _, _, _, _, _, _ => (.undefined, stream, ihdr)

/-- The loop `for (uint32_t i = 0; i < chunk_length; i += 3) palette.emplace_back(...)` of
`parse_plte_chunk`, started at `i`, on the palette of the caller.  A round that indexes the
buffer outside its elements stops the model as undefined; the palette then holds the entries
emplaced in the rounds before. -/
def plte_loop (buffer : List Byte) (chunk_length : Nat) :
    Nat → Nat → List RGB_t → Except (Status × List RGB_t) (List RGB_t)
  | 0, _, palette => .error (.out_of_fuel, palette)
  | fuel + 1, i, palette =>
    if i < chunk_length then
      match buffer[i]?, buffer[u32_add i 1]?, buffer[u32_add i 2]? with
      | some r, some g, some b =>
        plte_loop buffer chunk_length fuel (u32_add i 3) (palette ++ [⟨r, g, b⟩])
      | _, _, _ => .error (.undefined, palette)
    else .ok palette

/-- The function `parse_plte_chunk`.  The palette is a reference parameter: the entries the
loop has emplaced stay in it however the run ends. -/
def parse_plte_chunk (stream : ifstream) (chunk_length : Nat) (palette : List RGB_t) :
    Status × ifstream × List RGB_t :=
  if chunk_length % 3 ≠ 0 then (.assert_failed, stream, palette) else
  let (got, stream) := stream.read (u32_add chunk_length 4)
  let buffer := vector_filled (u32_add chunk_length 4) got
  match plte_loop buffer chunk_length (chunk_length + 1) 0 palette with
  | .error (e, palette) => (e, stream, palette)
  | .ok palette =>
    match crc_value_at buffer chunk_length with
    | none => (.undefined, stream, palette)
    | some crc_value =>
      let calculated_crc := crc32 0 [ch 'P', ch 'L', ch 'T', ch 'E'] % 2 ^ 32
      let calculated_crc := crc32 calculated_crc (buffer.take chunk_length) % 2 ^ 32
      if calculated_crc ≠ crc_value then (.returned false, stream, palette)
      else (.returned true, stream, palette)

/-- The function `parse_idat_chunk`.  The range `buffer.begin() .. buffer.end() - 4` exists
only when the buffer holds at least four elements. -/
def parse_idat_chunk (stream : ifstream) (chunk_length : Nat) (compressed_data : List Byte) :
    Status × ifstream × List Byte :=
  if ¬ chunk_length > 0 then (.assert_failed, stream, compressed_data) else
  let (got, stream) := stream.read (u32_add chunk_length 4)
  let buffer := vector_filled (u32_add chunk_length 4) got
  if buffer.length < 4 then (.undefined, stream, compressed_data) else
  let compressed_data := compressed_data ++ buffer.take (buffer.length - 4)
  match crc_value_at buffer chunk_length with
  | none => (.undefined, stream, compressed_data)
  | some crc_value =>
    let calculated_crc := crc32 0 [ch 'I', ch 'D', ch 'A', ch 'T'] % 2 ^ 32
    let calculated_crc := crc32 calculated_crc (buffer.take chunk_length) % 2 ^ 32
    if calculated_crc ≠ crc_value then (.returned false, stream, compressed_data)
    else (.returned true, stream, compressed_data)

/-- The function `parse_iend_chunk`: the checksum covers the four type characters only. -/
def parse_iend_chunk (stream : ifstream) (chunk_length : Nat) : Status × ifstream :=
  if chunk_length ≠ 0 then (.assert_failed, stream) else
  let (got, stream) := stream.read (u32_add chunk_length 4)
  let buffer := vector_filled (u32_add chunk_length 4) got
  match crc_value_at buffer chunk_length with
  | none => (.undefined, stream)
  | some crc_value =>
    let calculated_crc := crc32 0 [ch 'I', ch 'E', ch 'N', ch 'D'] % 2 ^ 32
    if calculated_crc ≠ crc_value then (.returned false, stream)
    else (.returned true, stream)

/-- The function `parse_bkgd_chunk`. -/
def parse_bkgd_chunk (stream : ifstream) (chunk_length : Nat) (bkgd_color : bKGD_t) :
    Status × ifstream × bKGD_t :=
  if ¬ (chunk_length = 1 ∨ chunk_length = 6) then (.assert_failed, stream, bkgd_color) else
  let (got, stream) := stream.read (u32_add chunk_length 4)
  let buffer := vector_filled (u32_add chunk_length 4) got
  match crc_value_at buffer chunk_length with
  | none => (.undefined, stream, bkgd_color)
  | some crc_value =>
    let calculated_crc := crc32 0 [ch 'b', ch 'K', ch 'G', ch 'D'] % 2 ^ 32
    let calculated_crc := crc32 calculated_crc (buffer.take chunk_length) % 2 ^ 32
    if calculated_crc ≠ crc_value then (.returned false, stream, bkgd_color)
    else if chunk_length = 1 then
      match buffer[0]? with
      | some b0 => (.returned true, stream, { bkgd_color with index := b0, is_indexed := true })
      | none => (.undefined, stream, bkgd_color)
    else if chunk_length = 6 then
      match buffer[0]?, buffer[1]?, buffer[2]? with
      | some b0, some b1, some b2 =>
        (.returned true, stream,
          { bkgd_color with red := b0, green := b1, blue := b2, is_indexed := false })
      | _, _, _ => (.undefined, stream, bkgd_color)
    else (.returned false, stream, bkgd_color)

/-- The function `parse_chrm_chunk`. -/
def parse_chrm_chunk (stream : ifstream) (chunk_length : Nat) (chrm : cHRM_t) :
    Status × ifstream × cHRM_t :=
  if chunk_length ≠ 32 then (.assert_failed, stream, chrm) else
  let (got, stream) := stream.read (u32_add chunk_length 4)
  let buffer := vector_filled (u32_add chunk_length 4) got
  match crc_value_at buffer chunk_length with
  | none => (.undefined, stream, chrm)
  | some crc_value =>
    let calculated_crc := crc32 0 [ch 'c', ch 'H', ch 'R', ch 'M'] % 2 ^ 32
    let calculated_crc := crc32 calculated_crc (buffer.take chunk_length) % 2 ^ 32
    if calculated_crc ≠ crc_value then (.returned false, stream, chrm)
    else
      match be32_at buffer 0 1 2 3, be32_at buffer 4 5 6 7, be32_at buffer 8 9 10 11,
          be32_at buffer 12 13 14 15, be32_at buffer 16 17 18 19, be32_at buffer 20 21 22 23,
          be32_at buffer 24 25 26 27, be32_at buffer 28 29 30 31 with
      | some red_x, some red_y, some green_x, some green_y, some blue_x, some blue_y,
          some white_x, some white_y =>
        (.returned true, stream,
          { red_x := red_x, red_y := red_y, green_x := green_x, green_y := green_y,
            blue_x := blue_x, blue_y := blue_y, white_x := white_x, white_y := white_y })
      | _, _, _, _, _, _, _, _ => (.undefined, stream, chrm)

/-- The function `parse_phys_chunk`. -/
def parse_phys_chunk (stream : ifstream) (chunk_length : Nat) (phys : pHYs_t) :
    Status × ifstream × pHYs_t :=
  if chunk_length ≠ 9 then (.assert_failed, stream, phys) else
  let (got, stream) := stream.read (u32_add chunk_length 4)
  let buffer := vector_filled (u32_add chunk_length 4) got
  match be32_at buffer 0 1 2 3, be32_at buffer 4 5 6 7, buffer[8]? with
  | some x, some y, some unit =>
    let phys : pHYs_t := { pixels_per_unit_x := x, pixels_per_unit_y := y, unit_specifier := unit }
    match crc_value_at buffer chunk_length with
    | none => (.undefined, stream, phys)
    | some crc_value =>
      let calculated_crc := crc32 0 [ch 'p', ch 'H', ch 'Y', ch 's'] % 2 ^ 32
      let calculated_crc := crc32 calculated_crc (buffer.take chunk_length) % 2 ^ 32
      if calculated_crc ≠ crc_value then (.returned false, stream, phys)
      else (.returned true, stream, phys)
  | _, _, _ => (.undefined, stream, phys)

/-! ### The fifteen readers that verify a chunk and keep nothing of it -/

/-- The function `parse_cicp_chunk`. -/
def parse_cicp_chunk (stream : ifstream) (chunk_length : Nat) : Status × ifstream :=
  let (got, stream) := stream.read (u32_add chunk_length 4)
  let buffer := vector_filled (u32_add chunk_length 4) got
  match crc_value_at buffer chunk_length with
  | none => (.undefined, stream)
  | some crc_value =>
    let calculated_crc := crc32 0 [ch 'c', ch 'I', ch 'C', ch 'P'] % 2 ^ 32
    let calculated_crc := crc32 calculated_crc (buffer.take chunk_length) % 2 ^ 32
    if calculated_crc ≠ crc_value then (.returned false, stream)
    else (.returned true, stream)

/-- The function `parse_dsig_chunk`. -/
def parse_dsig_chunk (stream : ifstream) (chunk_length : Nat) : Status × ifstream :=
  let (got, stream) := stream.read (u32_add chunk_length 4)
  let buffer := vector_filled (u32_add chunk_length 4) got
  match crc_value_at buffer chunk_length with
  | none => (.undefined, stream)
  | some crc_value =>
    let calculated_crc := crc32 0 [ch 'd', ch 'S', ch 'I', ch 'G'] % 2 ^ 32
    let calculated_crc := crc32 calculated_crc (buffer.take chunk_length) % 2 ^ 32
    if calculated_crc ≠ crc_value then (.returned false, stream)
    else (.returned true, stream)

/-- The function `parse_exif_chunk`. -/
def parse_exif_chunk (stream : ifstream) (chunk_length : Nat) : Status × ifstream :=
  let (got, stream) := stream.read (u32_add chunk_length 4)
  let buffer := vector_filled (u32_add chunk_length 4) got
  match crc_value_at buffer chunk_length with
  | none => (.undefined, stream)
  | some crc_value =>
    let calculated_crc := crc32 0 [ch 'e', ch 'X', ch 'I', ch 'f'] % 2 ^ 32
    let calculated_crc := crc32 calculated_crc (buffer.take chunk_length) % 2 ^ 32
    if calculated_crc ≠ crc_value then (.returned false, stream)
    else (.returned true, stream)

/-- The function `parse_gama_chunk`. -/
def parse_gama_chunk (stream : ifstream) (chunk_length : Nat) : Status × ifstream :=
  let (got, stream) := stream.read (u32_add chunk_length 4)
  let buffer := vector_filled (u32_add chunk_length 4) got
  match crc_value_at buffer chunk_length with
  | none => (.undefined, stream)
  | some crc_value =>
    let calculated_crc := crc32 0 [ch 'g', ch 'A', ch 'M', ch 'A'] % 2 ^ 32
    let calculated_crc := crc32 calculated_crc (buffer.take chunk_length) % 2 ^ 32
    if calculated_crc ≠ crc_value then (.returned false, stream)
    else (.returned true, stream)

/-- The function `parse_hist_chunk`. -/
def parse_hist_chunk (stream : ifstream) (chunk_length : Nat) : Status × ifstream :=
  let (got, stream) := stream.read (u32_add chunk_length 4)
  let buffer := vector_filled (u32_add chunk_length 4) got
  match crc_value_at buffer chunk_length with
  | none => (.undefined, stream)
  | some crc_value =>
    let calculated_crc := crc32 0 [ch 'h', ch 'I', ch 'S', ch 'T'] % 2 ^ 32
    let calculated_crc := crc32 calculated_crc (buffer.take chunk_length) % 2 ^ 32
    if calculated_crc ≠ crc_value then (.returned false, stream)
    else (.returned true, stream)

/-- The function `parse_iccp_chunk`. -/
def parse_iccp_chunk (stream : ifstream) (chunk_length : Nat) : Status × ifstream :=
  let (got, stream) := stream.read (u32_add chunk_length 4)
  let buffer := vector_filled (u32_add chunk_length 4) got
  match crc_value_at buffer chunk_length with
  | none => (.undefined, stream)
  | some crc_value =>
    let calculated_crc := crc32 0 [ch 'i', ch 'C', ch 'C', ch 'P'] % 2 ^ 32
    let calculated_crc := crc32 calculated_crc (buffer.take chunk_length) % 2 ^ 32
    if calculated_crc ≠ crc_value then (.returned false, stream)
    else (.returned true, stream)

/-- The function `parse_itxt_chunk`. -/
def parse_itxt_chunk (stream : ifstream) (chunk_length : Nat) : Status × ifstream :=
  let (got, stream) := stream.read (u32_add chunk_length 4)
  let buffer := vector_filled (u32_add chunk_length 4) got
  match crc_value_at buffer chunk_length with
  | none => (.undefined, stream)
  | some crc_value =>
    let calculated_crc := crc32 0 [ch 'i', ch 'T', ch 'X', ch 't'] % 2 ^ 32
    let calculated_crc := crc32 calculated_crc (buffer.take chunk_length) % 2 ^ 32
    if calculated_crc ≠ crc_value then (.returned false, stream)
    else (.returned true, stream)

/-- The function `parse_sbit_chunk`. -/
def parse_sbit_chunk (stream : ifstream) (chunk_length : Nat) : Status × ifstream :=
  let (got, stream) := stream.read (u32_add chunk_length 4)
  let buffer := vector_filled (u32_add chunk_length 4) got
  match crc_value_at buffer chunk_length with
  | none => (.undefined, stream)
  | some crc_value =>
    let calculated_crc := crc32 0 [ch 's', ch 'B', ch 'I', ch 'T'] % 2 ^ 32
    let calculated_crc := crc32 calculated_crc (buffer.take chunk_length) % 2 ^ 32
    if calculated_crc ≠ crc_value then (.returned false, stream)
    else (.returned true, stream)

/-- The function `parse_splt_chunk`. -/
def parse_splt_chunk (stream : ifstream) (chunk_length : Nat) : Status × ifstream :=
  let (got, stream) := stream.read (u32_add chunk_length 4)
  let buffer := vector_filled (u32_add chunk_length 4) got
  match crc_value_at buffer chunk_length with
  | none => (.undefined, stream)
  | some crc_value =>
    let calculated_crc := crc32 0 [ch 's', ch 'P', ch 'L', ch 'T'] % 2 ^ 32
    let calculated_crc := crc32 calculated_crc (buffer.take chunk_length) % 2 ^ 32
    if calculated_crc ≠ crc_value then (.returned false, stream)
    else (.returned true, stream)

/-- The function `parse_srgb_chunk`. -/
def parse_srgb_chunk (stream : ifstream) (chunk_length : Nat) : Status × ifstream :=
  let (got, stream) := stream.read (u32_add chunk_length 4)
  let buffer := vector_filled (u32_add chunk_length 4) got
  match crc_value_at buffer chunk_length with
  | none => (.undefined, stream)
  | some crc_value =>
    let calculated_crc := crc32 0 [ch 's', ch 'R', ch 'G', ch 'B'] % 2 ^ 32
    let calculated_crc := crc32 calculated_crc (buffer.take chunk_length) % 2 ^ 32
    if calculated_crc ≠ crc_value then (.returned false, stream)
    else (.returned true, stream)

/-- The function `parse_ster_chunk`. -/
def parse_ster_chunk (stream : ifstream) (chunk_length : Nat) : Status × ifstream :=
  let (got, stream) := stream.read (u32_add chunk_length 4)
  let buffer := vector_filled (u32_add chunk_length 4) got
  match crc_value_at buffer chunk_length with
  | none => (.undefined, stream)
  | some crc_value =>
    let calculated_crc := crc32 0 [ch 's', ch 'T', ch 'E', ch 'R'] % 2 ^ 32
    let calculated_crc := crc32 calculated_crc (buffer.take chunk_length) % 2 ^ 32
    if calculated_crc ≠ crc_value then (.returned false, stream)
    else (.returned true, stream)

/-- The function `parse_text_chunk`. -/
def parse_text_chunk (stream : ifstream) (chunk_length : Nat) : Status × ifstream :=
  let (got, stream) := stream.read (u32_add chunk_length 4)
  let buffer := vector_filled (u32_add chunk_length 4) got
  match crc_value_at buffer chunk_length with
  | none => (.undefined, stream)
  | some crc_value =>
    let calculated_crc := crc32 0 [ch 't', ch 'E', ch 'X', ch 't'] % 2 ^ 32
    let calculated_crc := crc32 calculated_crc (buffer.take chunk_length) % 2 ^ 32
    if calculated_crc ≠ crc_value then (.returned false, stream)
    else (.returned true, stream)

/-- The function `parse_time_chunk`. -/
def parse_time_chunk (stream : ifstream) (chunk_length : Nat) : Status × ifstream :=
  let (got, stream) := stream.read (u32_add chunk_length 4)
  let buffer := vector_filled (u32_add chunk_length 4) got
  match crc_value_at buffer chunk_length with
  | none => (.undefined, stream)
  | some crc_value =>
    let calculated_crc := crc32 0 [ch 't', ch 'I', ch 'M', ch 'E'] % 2 ^ 32
    let calculated_crc := crc32 calculated_crc (buffer.take chunk_length) % 2 ^ 32
    if calculated_crc ≠ crc_value then (.returned false, stream)
    else (.returned true, stream)

/-- The function `parse_trns_chunk`. -/
def parse_trns_chunk (stream : ifstream) (chunk_length : Nat) : Status × ifstream :=
  let (got, stream) := stream.read (u32_add chunk_length 4)
  let buffer := vector_filled (u32_add chunk_length 4) got
  match crc_value_at buffer chunk_length with
  | none => (.undefined, stream)
  | some crc_value =>
    let calculated_crc := crc32 0 [ch 't', ch 'R', ch 'N', ch 'S'] % 2 ^ 32
    let calculated_crc := crc32 calculated_crc (buffer.take chunk_length) % 2 ^ 32
    if calculated_crc ≠ crc_value then (.returned false, stream)
    else (.returned true, stream)

/-- The function `parse_ztxt_chunk`. -/
def parse_ztxt_chunk (stream : ifstream) (chunk_length : Nat) : Status × ifstream :=
  let (got, stream) := stream.read (u32_add chunk_length 4)
  let buffer := vector_filled (u32_add chunk_length 4) got
  match crc_value_at buffer chunk_length with
  | none => (.undefined, stream)
  | some crc_value =>
    let calculated_crc := crc32 0 [ch 'z', ch 'T', ch 'X', ch 't'] % 2 ^ 32
    let calculated_crc := crc32 calculated_crc (buffer.take chunk_length) % 2 ^ 32
    if calculated_crc ≠ crc_value then (.returned false, stream)
    else (.returned true, stream)

/-- The generic routine the spec describes for the kinds that are validated and discarded:
one framed read of `chunk_length + 4` bytes, then the trailer is compared with the standard
CRC-32 of `type_tag ‖ payload`; nothing else is kept. -/
def verify_and_discard (type_tag : List Byte) (stream : ifstream) (chunk_length : Nat) :
    Status × ifstream :=
  let (got, stream) := stream.read (chunk_length + 4)
  let payload := got.take chunk_length
  match got.drop chunk_length with
  | [t0, t1, t2, t3] =>
    (.returned (decide (be32 t0 t1 t2 t3 = crc32_standard (type_tag ++ payload))), stream)
  | _ => (.returned false, stream)

/-! ## zlib inflater and `decompress_idat_data` -/

/-- Return codes of zlib. -/
inductive ZRet where
  | Z_OK
  | Z_STREAM_END
  | Z_NEED_DICT
  | Z_ERRNO
  | Z_STREAM_ERROR
  | Z_DATA_ERROR
  | Z_MEM_ERROR
  | Z_BUF_ERROR
  | Z_VERSION_ERROR
  deriving DecidableEq, Repr

/-- The inflater of zlib, which is not part of the repository, as an interface:
`inflateInit` on the input bytes (`next_in`, `avail_in`) and `inflate` called with
`avail_out` free bytes, giving the return code, the new state and the bytes it stored. -/
structure Zlib where
  State : Type
  inflateInit : List Byte → ZRet × State
  inflate : State → Nat → ZRet × State × List Byte

/-- The `do ... while (ret != Z_STREAM_END && ret != Z_MEM_ERROR)` loop of
`decompress_idat_data`: `size` is `decompressed_data.size()`, `out` the `total_out` bytes
stored so far.  The field `avail_out` of zlib's stream record is a 32-bit `uInt`, so the
free space is stored modulo `2^32`.  `none` when the fuel is used up. -/
def inflate_loop (z : Zlib) : Nat → z.State → Nat → List Byte → Option (ZRet × List Byte)
  | 0, _, _, _ => none
  | fuel + 1, st, size, out =>
    let avail_out := (size - out.length) % 2 ^ 32
    let (ret, st, stored) := z.inflate st avail_out
    let out := out ++ stored
    let size := if ret = .Z_BUF_ERROR then size * 2 else size
    if ret ≠ .Z_STREAM_END ∧ ret ≠ .Z_MEM_ERROR then inflate_loop z fuel st size out
    else some (ret, out)

/-- The function `decompress_idat_data`; `none` when its loop does not finish within the
fuel.  The field `avail_in` is a 32-bit `uInt` as well. -/
def decompress_idat_data (z : Zlib) (fuel : Nat) (compressed_data : List Byte) :
    Option (List Byte) :=
  let avail_in := compressed_data.length % 2 ^ 32
  let (r, st) := z.inflateInit (compressed_data.take avail_in)
  if r ≠ .Z_OK then some [] else
  match inflate_loop z fuel st (1024 * 1024) [] with
  | none => none
  | some (ret, decompressed_data) =>
    if ret ≠ .Z_STREAM_END then some [] else some decompressed_data

/-! ## The stream driver of `main.cpp` -/

/-- The chunk kinds the driver has a branch for, in the order of its `if / else if` chain. -/
inductive ChunkKind where
  | IHDR
  | PLTE
  | IDAT
  | IEND
  | bKGD
  | cHRM
  | cICP
  | dSIG
  | eXIf
  | gAMA
  | hIST
  | iCCP
  | iTXt
  | pHYs
  | sBIT
  | sPLT
  | sRGB
  | sTER
  | tEXt
  | tIME
  | tRNS
  | zTXt
  deriving DecidableEq, Repr

/-- The string literal each branch of the driver compares the type field with. -/
def ChunkKind.tag : ChunkKind → List Byte
  | .IHDR => [ch 'I', ch 'H', ch 'D', ch 'R']
  | .PLTE => [ch 'P', ch 'L', ch 'T', ch 'E']
  | .IDAT => [ch 'I', ch 'D', ch 'A', ch 'T']
  | .IEND => [ch 'I', ch 'E', ch 'N', ch 'D']
  | .bKGD => [ch 'b', ch 'K', ch 'G', ch 'D']
  | .cHRM => [ch 'c', ch 'H', ch 'R', ch 'M']
  | .cICP => [ch 'c', ch 'I', ch 'C', ch 'P']
  | .dSIG => [ch 'd', ch 'S', ch 'I', ch 'G']
  | .eXIf => [ch 'e', ch 'X', ch 'I', ch 'f']
  | .gAMA => [ch 'g', ch 'A', ch 'M', ch 'A']
  | .hIST => [ch 'h', ch 'I', ch 'S', ch 'T']
  | .iCCP => [ch 'i', ch 'C', ch 'C', ch 'P']
  | .iTXt => [ch 'i', ch 'T', ch 'X', ch 't']
  | .pHYs => [ch 'p', ch 'H', ch 'Y', ch 's']
  | .sBIT => [ch 's', ch 'B', ch 'I', ch 'T']
  | .sPLT => [ch 's', ch 'P', ch 'L', ch 'T']
  | .sRGB => [ch 's', ch 'R', ch 'G', ch 'B']
  | .sTER => [ch 's', ch 'T', ch 'E', ch 'R']
  | .tEXt => [ch 't', ch 'E', ch 'X', ch 't']
  | .tIME => [ch 't', ch 'I', ch 'M', ch 'E']
  | .tRNS => [ch 't', ch 'R', ch 'N', ch 'S']
  | .zTXt => [ch 'z', ch 'T', ch 'X', ch 't']

/-- The branches of the driver in source order. -/
def chunk_kinds : List ChunkKind :=
  [.IHDR, .PLTE, .IDAT, .IEND, .bKGD, .cHRM, .cICP, .dSIG, .eXIf, .gAMA, .hIST, .iCCP, .iTXt, .pHYs, .sBIT, .sPLT, .sRGB, .sTER, .tEXt, .tIME, .tRNS, .zTXt]

/-- Whether `std::strncmp(chunk_type, tag, 4) == 0`, comparing from position `i` on.  The
literals hold no zero character, so the comparison ends at the first difference or after
the last character of `tag`.  `none` when the comparison reaches a character of the local
array `chunk_type` that `read` did not store. -/
def strncmp_is_zero (chunk_type : List Byte) : List Byte → Nat → Option Bool
  | [], _ => some true
  | t :: tag, i =>
    match chunk_type[i]? with
    | none => none
    | some c => if c ≠ t then some false else strncmp_is_zero chunk_type tag (i + 1)

/-- The `if / else if` chain over the type field: the first branch whose literal compares
equal, `none` when no branch is taken (the chain has no final `else`). -/
def dispatch (chunk_type : List Byte) : List ChunkKind → Except Status (Option ChunkKind)
  | [] => .ok none
  | k :: ks =>
    match strncmp_is_zero chunk_type k.tag 0 with
    | none => .error .undefined
    | some true => .ok (some k)
    | some false => dispatch chunk_type ks

/-- The macro `EXIT_FAILURE` of `<cstdlib>`. -/
def EXIT_FAILURE : Nat := 1

/-- Conversion of an `int` to `bool` in a `return` statement of a `bool` function. -/
def int_to_bool (n : Nat) : Bool := n != 0

/-- What a run of `decode_png_file` leaves behind: how it stopped, the stream, the
properties aggregate of the caller, and the contents last written to
`decompressed_image.bin` (`none` when the file was never written). -/
structure Decoded where
  status : Status
  stream : ifstream
  properties : png_properties_t
  output_file : Option (List Byte)
  deriving DecidableEq, Repr

/-- The condition of the branch the driver takes for `kind`: the call of the reader on its
part of the properties.  The status is that of the reader; `returned true` means that the
`if` of the branch succeeded.  In the branch of `IEND` a successful reader is followed by
`decompress_idat_data`, whose result is a local vector that is written to
`decompressed_image.bin`; the field `decompressed_data` of the properties is not assigned. -/
def run_branch (z : Zlib) (zfuel : Nat) (kind : ChunkKind) (stream : ifstream)
    (chunk_length : Nat) (properties : png_properties_t) (output_file : Option (List Byte)) :
    Status × ifstream × png_properties_t × Option (List Byte) :=
  match kind with
  | .IHDR =>
    let (st, stream, ihdr) := parse_ihdr_chunk stream chunk_length properties.ihdr
    (st, stream, { properties with ihdr := ihdr }, output_file)
  | .PLTE =>
    let (st, stream, palette) := parse_plte_chunk stream chunk_length properties.palette
    (st, stream, { properties with palette := palette }, output_file)
  | .IDAT =>
    let (st, stream, compressed_data) :=
      parse_idat_chunk stream chunk_length properties.compressed_data
    (st, stream, { properties with compressed_data := compressed_data }, output_file)
  | .IEND =>
    let (st, stream) := parse_iend_chunk stream chunk_length
    if st = .returned true then
      match decompress_idat_data z zfuel properties.compressed_data with
      | none => (.out_of_fuel, stream, properties, output_file)
      | some decompressed_data => (.returned true, stream, properties, some decompressed_data)
    else (st, stream, properties, output_file)
  | .bKGD =>
    let (st, stream, bkgd) := parse_bkgd_chunk stream chunk_length properties.bkgd
    (st, stream, { properties with bkgd := bkgd }, output_file)
  | .cHRM =>
    let (st, stream, chrm) := parse_chrm_chunk stream chunk_length properties.chrm
    (st, stream, { properties with chrm := chrm }, output_file)
  | .cICP =>
    let (st, stream) := parse_cicp_chunk stream chunk_length
    (st, stream, properties, output_file)
  | .dSIG =>
    let (st, stream) := parse_dsig_chunk stream chunk_length
    (st, stream, properties, output_file)
  | .eXIf =>
    let (st, stream) := parse_exif_chunk stream chunk_length
    (st, stream, properties, output_file)
  | .gAMA =>
    let (st, stream) := parse_gama_chunk stream chunk_length
    (st, stream, properties, output_file)
  | .hIST =>
    let (st, stream) := parse_hist_chunk stream chunk_length
    (st, stream, properties, output_file)
  | .iCCP =>
    let (st, stream) := parse_iccp_chunk stream chunk_length
    (st, stream, properties, output_file)
  | .iTXt =>
    let (st, stream) := parse_itxt_chunk stream chunk_length
    (st, stream, properties, output_file)
  | .pHYs =>
    let (st, stream, phys) := parse_phys_chunk stream chunk_length properties.phys
    (st, stream, { properties with phys := phys }, output_file)
  | .sBIT =>
    let (st, stream) := parse_sbit_chunk stream chunk_length
    (st, stream, properties, output_file)
  | .sPLT =>
    let (st, stream) := parse_splt_chunk stream chunk_length
    (st, stream, properties, output_file)
  | .sRGB =>
    let (st, stream) := parse_srgb_chunk stream chunk_length
    (st, stream, properties, output_file)
  | .sTER =>
    let (st, stream) := parse_ster_chunk stream chunk_length
    (st, stream, properties, output_file)
  | .tEXt =>
    let (st, stream) := parse_text_chunk stream chunk_length
    (st, stream, properties, output_file)
  | .tIME =>
    let (st, stream) := parse_time_chunk stream chunk_length
    (st, stream, properties, output_file)
  | .tRNS =>
    let (st, stream) := parse_trns_chunk stream chunk_length
    (st, stream, properties, output_file)
  | .zTXt =>
    let (st, stream) := parse_ztxt_chunk stream chunk_length
    (st, stream, properties, output_file)

/-- The `while (true)` loop of `decode_png_file`, one iteration per unit of fuel.
`sizeof(4)` is the size of an `int`, four bytes.  A branch whose reader succeeded falls
through to the next iteration (none of them leaves the loop, the one of `IEND` included);
a reader that returned `false` makes the branch `return false`; when no branch is taken
nothing more is read in this iteration. -/
def decode_loop (z : Zlib) (zfuel : Nat) :
    Nat → ifstream → png_properties_t → Option (List Byte) → Decoded
  | 0, stream, properties, output_file => ⟨.out_of_fuel, stream, properties, output_file⟩
  | fuel + 1, stream, properties, output_file =>
    let (chunk_length_c, stream) := stream.read 4
    if stream.eof then ⟨.returned true, stream, properties, output_file⟩ else
    match be32_at chunk_length_c 0 1 2 3 with
    | none => ⟨.undefined, stream, properties, output_file⟩
    | some chunk_length =>
      let (chunk_type, stream) := stream.read 4
      match dispatch chunk_type chunk_kinds with
      | .error e => ⟨e, stream, properties, output_file⟩
      | .ok none => decode_loop z zfuel fuel stream properties output_file
      | .ok (some kind) =>
        match run_branch z zfuel kind stream chunk_length properties output_file with
        | (st, stream, properties, output_file) =>
          if st = .returned true then decode_loop z zfuel fuel stream properties output_file
          else ⟨st, stream, properties, output_file⟩

/-- The eight characters the driver compares the start of the file with. -/
def png_signature : List Byte := [0x89, ch 'P', ch 'N', ch 'G', 0x0d, 0x0a, 0x1a, 0x0a]

/-- The function `decode_png_file`.  `fuel` bounds the iterations of its loop and of the
inflate loop. -/
def decode_png_file (z : Zlib) (fuel : Nat) (stream : ifstream) (properties : png_properties_t) :
    Decoded :=
  let (got, stream) := stream.read 8
  let png_header := vector_filled 8 got
  if png_header[0]? ≠ some 0x89 ∨ png_header[1]? ≠ some (ch 'P') ∨
      png_header[2]? ≠ some (ch 'N') ∨ png_header[3]? ≠ some (ch 'G') ∨
      png_header[4]? ≠ some 0x0d ∨ png_header[5]? ≠ some 0x0a ∨
      png_header[6]? ≠ some 0x1a ∨ png_header[7]? ≠ some 0x0a then
    ⟨.returned (int_to_bool EXIT_FAILURE), stream, properties, none⟩
  else decode_loop z fuel fuel stream properties none

/-! ## Notions used to state the properties -/

/-- The common body of the fifteen verify-only readers, with the type literal as argument. -/
def framed_check (type_tag : List Byte) (stream : ifstream) (chunk_length : Nat) :
    Status × ifstream :=
  let (got, stream) := stream.read (u32_add chunk_length 4)
  let buffer := vector_filled (u32_add chunk_length 4) got
  match crc_value_at buffer chunk_length with
  | none => (.undefined, stream)
  | some crc_value =>
    let calculated_crc := crc32 0 type_tag % 2 ^ 32
    let calculated_crc := crc32 calculated_crc (buffer.take chunk_length) % 2 ^ 32
    if calculated_crc ≠ crc_value then (.returned false, stream)
    else (.returned true, stream)

/-- The fifteen verify-only readers, each with the type literal of the driver branch that
calls it. -/
def discard_readers : List (List Byte × (ifstream → Nat → Status × ifstream)) :=
  [(ChunkKind.cICP.tag, parse_cicp_chunk), (ChunkKind.dSIG.tag, parse_dsig_chunk),
   (ChunkKind.eXIf.tag, parse_exif_chunk), (ChunkKind.gAMA.tag, parse_gama_chunk),
   (ChunkKind.hIST.tag, parse_hist_chunk), (ChunkKind.iCCP.tag, parse_iccp_chunk),
   (ChunkKind.iTXt.tag, parse_itxt_chunk), (ChunkKind.sBIT.tag, parse_sbit_chunk),
   (ChunkKind.sPLT.tag, parse_splt_chunk), (ChunkKind.sRGB.tag, parse_srgb_chunk),
   (ChunkKind.sTER.tag, parse_ster_chunk), (ChunkKind.tEXt.tag, parse_text_chunk),
   (ChunkKind.tIME.tag, parse_time_chunk), (ChunkKind.tRNS.tag, parse_trns_chunk),
   (ChunkKind.zTXt.tag, parse_ztxt_chunk)]

/-- The four bytes of a `u32` on the wire, most significant first. -/
def u32_be (n : Nat) : List Byte :=
  [Fin.ofNat (n / 2 ^ 24), Fin.ofNat (n / 2 ^ 16), Fin.ofNat (n / 2 ^ 8), Fin.ofNat n]

/-- One chunk on the wire: length, type, payload, trailer. -/
def chunk_bytes (type_tag payload trailer : List Byte) : List Byte :=
  u32_be payload.length ++ (type_tag ++ (payload ++ trailer))

/-- A payload the reader of `kind` takes past its assertions: the declared length passes
the length assertion, and for `IHDR` the colour type passes the assertion on the channel
count. -/
def passes_assertions : ChunkKind → List Byte → Prop
  | .IHDR, p => p.length = 13 ∧ ihdr_channels (p.getD 9 0) ≠ 0
  | .PLTE, p => p.length % 3 = 0
  | .IDAT, p => 0 < p.length
  | .IEND, p => p.length = 0
  | .bKGD, p => p.length = 1 ∨ p.length = 6
  | .cHRM, p => p.length = 32
  | .pHYs, p => p.length = 9
  | _, _ => True

/-- A properties aggregate with every scalar zero and every vector empty. -/
def zero_properties : png_properties_t :=
  { ihdr := ⟨0, 0, 0, 0, 0, 0, 0, 0⟩, phys := ⟨0, 0, 0⟩, bkgd := ⟨0, 0, 0, 0, false⟩,
    chrm := ⟨0, 0, 0, 0, 0, 0, 0, 0⟩, palette := [], compressed_data := [],
    decompressed_data := [] }

/-- An inflater on which `inflateInit` reports `Z_MEM_ERROR`; it stands for zlib in
concrete runs that never reach the decompression. -/
def no_memory_zlib : Zlib :=
  { State := Unit
    inflateInit := fun _ => (.Z_MEM_ERROR, ())
    inflate := fun _ _ => (.Z_MEM_ERROR, (), []) }

/-! ## Chunk sequences -/

/-- A chunk as the spec describes it on the wire: its kind and its payload; the trailer is
the CRC-32 of type and payload. -/
structure Chunk where
  kind : ChunkKind
  payload : List Byte
  deriving DecidableEq, Repr

/-- The bytes of a chunk with the correct trailer. -/
def Chunk.bytes (c : Chunk) : List Byte :=
  chunk_bytes c.kind.tag c.payload (u32_be (crc32_standard (c.kind.tag ++ c.payload)))

/-- A chunk its reader takes past its assertions and whose frame of `length + 4` bytes fits
the 32-bit buffer size. -/
def Chunk.well_formed (c : Chunk) : Prop :=
  passes_assertions c.kind c.payload ∧ c.payload.length + 4 < 2 ^ 32

/-- The bytes of a sequence of chunks, in order. -/
def chunks_bytes : List Chunk → List Byte
  | [] => []
  | c :: cs => c.bytes ++ chunks_bytes cs

/-- The payloads of the data chunks of a sequence, in order. -/
def idat_payloads : List Chunk → List Byte
  | [] => []
  | c :: cs => (if c.kind = .IDAT then c.payload else []) ++ idat_payloads cs

/-! ## An inflater for concrete runs -/

/-- Modelled from the spec: zlib is not part of the repository.  The streaming behaviour of
`inflate` on an input whose complete output is `decode input`: the output is handed out in
pieces of at most `avail_out` bytes; a call that delivers the last piece returns
`Z_STREAM_END`, a call that delivers a piece and leaves output behind returns `Z_OK`, a call
that has no room for the output left returns `Z_BUF_ERROR`, and on an input that is no
stream at all every call returns `Z_DATA_ERROR`.  The state is the output still to be
delivered, `none` for a corrupt input. -/
def Zlib.of_decoder (decode : List Byte → Option (List Byte)) : Zlib :=
  { State := Option (List Byte)
    inflateInit := fun input => (.Z_OK, decode input)
    inflate := fun st avail_out =>
      match st with
      | none => (.Z_DATA_ERROR, none, [])
      | some r =>
        if r.length ≤ avail_out then (.Z_STREAM_END, some [], r)
        else if avail_out = 0 then (.Z_BUF_ERROR, some r, [])
        else (.Z_OK, some (r.drop avail_out), r.take avail_out) }

/-- Modelled from the spec: the Adler-32 checksum that ends a zlib stream. -/
def adler32 (data : List Byte) : Nat :=
  let s := data.foldl
    (fun (s : Nat × Nat) (x : Byte) => ((s.1 + x.val) % 65521, (s.2 + (s.1 + x.val) % 65521) % 65521))
    (1, 0)
  s.2 * 65536 + s.1

/-- Modelled from the spec: a run of stored deflate blocks (block type 00), each starting on
a byte boundary: header byte, `LEN` and its complement in little-endian order, `LEN` bytes.
The result is the data and the input behind the final block. -/
def stored_blocks : Nat → List Byte → Option (List Byte × List Byte)
  | 0, _ => none
  | fuel + 1, hdr :: l0 :: l1 :: n0 :: n1 :: rest =>
    if (hdr.val / 2) % 4 ≠ 0 then none
    else if (l0.val + 256 * l1.val) + (n0.val + 256 * n1.val) ≠ 65535 then none
    else if rest.length < l0.val + 256 * l1.val then none
    else if hdr.val % 2 = 1 then
      some (rest.take (l0.val + 256 * l1.val), rest.drop (l0.val + 256 * l1.val))
    else
      match stored_blocks fuel (rest.drop (l0.val + 256 * l1.val)) with
      | some (data, behind) => some (rest.take (l0.val + 256 * l1.val) ++ data, behind)
      | none => none
  | _ + 1, _ => none

/-- Modelled from the spec: the output of a zlib stream whose deflate blocks are all stored
blocks (what zlib writes at compression level 0): two header bytes (method 8, window at most
32 KiB, header check, no preset dictionary), the blocks, and the big-endian Adler-32 of the
data.  Every other input counts as corrupt. -/
def zlib_stored_decode (input : List Byte) : Option (List Byte) :=
  match input with
  | cmf :: flg :: body =>
    if cmf.val % 16 = 8 ∧ cmf.val / 16 ≤ 7 ∧ (cmf.val * 256 + flg.val) % 31 = 0 ∧
        (flg.val / 32) % 2 = 0 then
      match stored_blocks body.length body with
      | some (data, a0 :: a1 :: a2 :: a3 :: _) =>
        if be32 a0 a1 a2 a3 = adler32 data then some data else none
      | _ => none
    else none
  | _ => none

/-- An inflater for zlib streams made of stored blocks; it stands for zlib in concrete
runs. -/
def stored_inflater : Zlib := Zlib.of_decoder zlib_stored_decode

/-- Modelled from the spec: zlib is not part of the repository; the spec names "a standard
streaming inflate algorithm" that is resumed after the output buffer has been enlarged.
The streaming contract of zlib on a compressed input `c` of the bytes `b`: `inflateInit`
succeeds, and while `r` is the output still to come a call of `inflate` with `n` free bytes
delivers all of `r` and returns `Z_STREAM_END` when `r` fits, returns `Z_BUF_ERROR` without
output when there is no room at all, and otherwise delivers the first `n` bytes of `r` and
returns `Z_OK`. -/
def Zlib.inflates (z : Zlib) (c b : List Byte) : Prop :=
  ∃ R : z.State → List Byte → Prop,
    (z.inflateInit c).1 = .Z_OK ∧ R (z.inflateInit c).2 b ∧
    ∀ (s : z.State) (r : List Byte) (n : Nat), R s r →
      (r.length ≤ n → (z.inflate s n).1 = .Z_STREAM_END ∧ (z.inflate s n).2.2 = r) ∧
      (n < r.length → n = 0 →
        (z.inflate s n).1 = .Z_BUF_ERROR ∧ (z.inflate s n).2.2 = [] ∧
          R (z.inflate s n).2.1 r) ∧
      (n < r.length → 0 < n →
        (z.inflate s n).1 = .Z_OK ∧ (z.inflate s n).2.2 = r.take n ∧
          R (z.inflate s n).2.1 (r.drop n))

/-! ## Concrete inputs -/

/-- The zlib stream of the single byte `0xFF` as one stored block (what zlib writes at
compression level 0): header `78 01`, a final stored block of length 1 with the data `FF`,
and the Adler-32 `0x01000100` in big-endian order. -/
def zlib_of_ff : List Byte :=
  [0x78, 0x01, 0x01, 0x01, 0x00, 0xFE, 0xFF, 0xFF, 0x01, 0x00, 0x01, 0x00]

/-- The chunks of the concrete scenario of the spec: the header of the 1x1 image (bit depth
8, colour type 2), one data chunk with the zlib stream of the byte `0xFF`, and the terminal
chunk. -/
def scenario_chunks : List Chunk :=
  [⟨.IHDR, [0, 0, 0, 1, 0, 0, 0, 1, 8, 2, 0, 0, 0]⟩, ⟨.IDAT, zlib_of_ff⟩, ⟨.IEND, []⟩]

/-! ## CRC-32: the table look-up against the bit-serial register -/

theorem shiftRight_xor (x y k : Nat) : (x ^^^ y) >>> k = (x >>> k) ^^^ (y >>> k) := by
  apply Nat.eq_of_testBit_eq
  intro i
  simp only [Nat.testBit_shiftRight, Nat.testBit_xor]

theorem crc_shift_eq (c : Nat) : crc_shift c = (c >>> 1) ^^^ (if c % 2 = 1 then 0xEDB88320 else 0) := by
  unfold crc_shift
  split
  · exact Nat.xor_comm _ _
  · simp

theorem crc_shift_xor (x y : Nat) : crc_shift (x ^^^ y) = crc_shift x ^^^ crc_shift y := by
  rw [crc_shift_eq, crc_shift_eq x, crc_shift_eq y, shiftRight_xor]
  have hx : x % 2 = 0 ∨ x % 2 = 1 := by omega
  have hy : y % 2 = 0 ∨ y % 2 = 1 := by omega
  have hxy : (x ^^^ y) % 2 = (x + y) % 2 := Nat.xor_mod_two_eq
  rcases hx with hx | hx <;> rcases hy with hy | hy
  · have : (x ^^^ y) % 2 = 0 := by omega
    simp [hx, hy, this]
  · have : (x ^^^ y) % 2 = 1 := by omega
    simp [hx, hy, this, Nat.xor_assoc]
  · have : (x ^^^ y) % 2 = 1 := by omega
    simp only [hx, hy, this]
    simp
    rw [Nat.xor_assoc, Nat.xor_comm (y >>> 1), ← Nat.xor_assoc]
  · have : (x ^^^ y) % 2 = 0 := by omega
    simp only [hx, hy, this]
    simp
    rw [Nat.xor_assoc, ← Nat.xor_assoc 3988292384, Nat.xor_comm 3988292384 (y >>> 1), Nat.xor_assoc (y >>> 1),
      Nat.xor_self, Nat.xor_zero]

theorem crc_shift_iterate_xor (n x y : Nat) :
    crc_shift^[n] (x ^^^ y) = crc_shift^[n] x ^^^ crc_shift^[n] y := by
  induction n generalizing x y with
  | zero => rfl
  | succ n ih => simp only [Function.iterate_succ, Function.comp_apply, crc_shift_xor, ih]

theorem crc_shift_lt (c : Nat) (h : c < 2 ^ 32) : crc_shift c < 2 ^ 32 := by
  rw [crc_shift_eq]
  apply Nat.xor_lt_two_pow
  · rw [Nat.shiftRight_eq_div_pow]; omega
  · split <;> decide

theorem crc_shift_iterate_lt (n c : Nat) (h : c < 2 ^ 32) : crc_shift^[n] c < 2 ^ 32 := by
  induction n generalizing c with
  | zero => exact h
  | succ n ih => exact ih _ (crc_shift_lt c h)

theorem crc_shift_iterate_shiftLeft (n h : Nat) : crc_shift^[n] (h <<< n) = h := by
  induction n with
  | zero => simp
  | succ n ih =>
    rw [Function.iterate_succ, Function.comp_apply]
    have : crc_shift (h <<< (n + 1)) = h <<< n := by
      unfold crc_shift
      rw [Nat.shiftLeft_eq, Nat.shiftRight_eq_div_pow, Nat.shiftLeft_eq, Nat.pow_succ]
      have h2 : h * (2 ^ n * 2) % 2 = 0 := by
        rw [← Nat.mul_assoc]; exact Nat.mul_mod_left _ _
      rw [if_neg (by omega)]
      rw [← Nat.mul_assoc]; simp
    rw [this, ih]

theorem crc_table_getD (i : Nat) (h : i < 256) : crc_table.getD i 0 = crc_shift^[8] i := by
  unfold crc_table
  rw [List.getD_eq_getElem?_getD, List.getElem?_map, List.getElem?_range h]
  rfl

theorem split_low_byte (x : Nat) : x = (x % 256) ^^^ ((x >>> 8) <<< 8) := by
  apply Nat.eq_of_testBit_eq
  intro i
  have h256 : (256 : Nat) = 2 ^ 8 := by norm_num
  rw [h256, Nat.testBit_xor, Nat.testBit_mod_two_pow, Nat.testBit_shiftLeft,
    Nat.testBit_shiftRight]
  by_cases hi : i < 8
  · simp [hi, Nat.not_le.mpr hi]
  · have hge : 8 ≤ i := Nat.le_of_not_lt hi
    have : 8 + (i - 8) = i := by omega
    simp [hi, hge, this]

/-- The table look-up of zlib performs eight shifts of the bit-serial register at once. -/
theorem crc_table_step (c : Nat) (b : Byte) :
    crc_table.getD ((c ^^^ b.val) % 256) 0 ^^^ (c >>> 8) = crc_shift^[8] (c ^^^ b.val) := by
  have hb : b.val >>> 8 = 0 := by
    rw [Nat.shiftRight_eq_div_pow]
    have := b.isLt
    omega
  have hs : (c ^^^ b.val) >>> 8 = c >>> 8 := by rw [shiftRight_xor, hb, Nat.xor_zero]
  rw [crc_table_getD _ (Nat.mod_lt _ (by norm_num))]
  conv_rhs => rw [split_low_byte (c ^^^ b.val)]
  rw [crc_shift_iterate_xor, crc_shift_iterate_shiftLeft, hs]

theorem crc32_eq_fold (crc : Nat) (buf : List Byte) :
    crc32 crc buf =
      (buf.foldl (fun c b => crc_shift^[8] (c ^^^ b.val)) (crc ^^^ 0xFFFFFFFF)) ^^^ 0xFFFFFFFF := by
  unfold crc32
  congr 2
  funext c b
  exact crc_table_step c b

theorem crc_fold_lt (buf : List Byte) (c : Nat) (h : c < 2 ^ 32) :
    buf.foldl (fun c b => crc_shift^[8] (c ^^^ b.val)) c < 2 ^ 32 := by
  induction buf generalizing c with
  | nil => exact h
  | cons b bs ih =>
    apply ih
    apply crc_shift_iterate_lt
    apply Nat.xor_lt_two_pow h
    have := b.isLt
    omega

theorem crc32_lt (crc : Nat) (buf : List Byte) (h : crc < 2 ^ 32) : crc32 crc buf < 2 ^ 32 := by
  rw [crc32_eq_fold]
  apply Nat.xor_lt_two_pow _ (by norm_num)
  apply crc_fold_lt
  exact Nat.xor_lt_two_pow h (by norm_num)

theorem crc32_standard_lt (data : List Byte) : crc32_standard data < 2 ^ 32 := by
  unfold crc32_standard
  apply Nat.xor_lt_two_pow _ (by norm_num)
  exact crc_fold_lt _ _ (by norm_num)

theorem crc32_zero_eq_standard (data : List Byte) : crc32 0 data = crc32_standard data := by
  rw [crc32_eq_fold, crc32_standard, Nat.zero_xor]

/-- Two chained calls of `crc32`, the first seeded with zero, give the standard CRC-32 of the
concatenation. -/
theorem crc32_chain (t p : List Byte) : crc32 (crc32 0 t) p = crc32_standard (t ++ p) := by
  rw [crc32_eq_fold (crc32 0 t), crc32_eq_fold 0 t, Nat.xor_cancel_right, Nat.zero_xor,
    crc32_standard, List.foldl_append]

theorem crc32_chain_u32 (t p : List Byte) :
    crc32 (crc32 0 t % 2 ^ 32) p % 2 ^ 32 = crc32_standard (t ++ p) := by
  rw [Nat.mod_eq_of_lt (crc32_lt 0 t (by norm_num)), crc32_chain,
    Nat.mod_eq_of_lt (crc32_standard_lt _)]

theorem crc_shift_testBit_31 (x : Nat) (hx : x < 2 ^ 32) :
    (crc_shift x).testBit 31 = decide (x % 2 = 1) := by
  rw [crc_shift_eq, Nat.testBit_xor, Nat.testBit_shiftRight]
  have h32 : x.testBit (1 + 31) = false := Nat.testBit_lt_two_pow hx
  rw [h32]
  by_cases h : x % 2 = 1
  · simp only [h, if_true]; decide
  · simp only [h, if_false]; simp

theorem crc_shift_injective (x y : Nat) (hx : x < 2 ^ 32) (hy : y < 2 ^ 32)
    (h : crc_shift x = crc_shift y) : x = y := by
  have hbit := crc_shift_testBit_31 x hx
  rw [h, crc_shift_testBit_31 y hy] at hbit
  have hpar : (x % 2 = 1) ↔ (y % 2 = 1) := by
    constructor
    · intro h1
      have : decide (x % 2 = 1) = true := decide_eq_true h1
      rw [← hbit] at this
      exact of_decide_eq_true this
    · intro h1
      have : decide (y % 2 = 1) = true := decide_eq_true h1
      rw [hbit] at this
      exact of_decide_eq_true this
  rw [crc_shift_eq, crc_shift_eq y] at h
  have hsh : x >>> 1 = y >>> 1 := by
    by_cases h1 : x % 2 = 1
    · have h2 := hpar.mp h1
      rw [if_pos h1, if_pos h2] at h
      exact Nat.xor_left_inj.mp h
    · have h2 : ¬ y % 2 = 1 := fun h2 => h1 (hpar.mpr h2)
      rw [if_neg h1, if_neg h2] at h
      simpa using h
  rw [Nat.shiftRight_eq_div_pow, Nat.shiftRight_eq_div_pow] at hsh
  omega

theorem crc_shift_iterate_injective (n x y : Nat) (hx : x < 2 ^ 32) (hy : y < 2 ^ 32)
    (h : crc_shift^[n] x = crc_shift^[n] y) : x = y := by
  induction n generalizing x y with
  | zero => exact h
  | succ n ih =>
    simp only [Function.iterate_succ, Function.comp_apply] at h
    exact crc_shift_injective x y hx hy (ih _ _ (crc_shift_lt x hx) (crc_shift_lt y hy) h)

theorem byte_lt_two_pow_32 (b : Byte) : b.val < 2 ^ 32 := by
  have := b.isLt
  omega

/-- Feeding the same bytes into two different registers keeps them different. -/
theorem crc_fold_ne_of_ne (buf : List Byte) (c d : Nat) (hc : c < 2 ^ 32) (hd : d < 2 ^ 32)
    (h : c ≠ d) :
    buf.foldl (fun c b => crc_shift^[8] (c ^^^ b.val)) c ≠
      buf.foldl (fun c b => crc_shift^[8] (c ^^^ b.val)) d := by
  induction buf generalizing c d with
  | nil => exact h
  | cons b bs ih =>
    have hcb := Nat.xor_lt_two_pow hc (byte_lt_two_pow_32 b)
    have hdb := Nat.xor_lt_two_pow hd (byte_lt_two_pow_32 b)
    apply ih _ _ (crc_shift_iterate_lt 8 _ hcb) (crc_shift_iterate_lt 8 _ hdb)
    intro heq
    exact h (Nat.xor_left_inj.mp (crc_shift_iterate_injective 8 _ _ hcb hdb heq))

/-- Replacing one byte of the input by a different byte changes the register at the end. -/
theorem crc_fold_set_ne (p : List Byte) (c : Nat) (hc : c < 2 ^ 32) (i : Nat) (b : Byte)
    (hi : i < p.length) (hb : b ≠ p.get ⟨i, hi⟩) :
    (p.set i b).foldl (fun c b => crc_shift^[8] (c ^^^ b.val)) c ≠
      p.foldl (fun c b => crc_shift^[8] (c ^^^ b.val)) c := by
  induction p generalizing c i with
  | nil => exact absurd hi (Nat.not_lt_zero _)
  | cons a as ih =>
    cases i with
    | zero =>
      simp only [List.set_cons_zero, List.foldl_cons]
      have hca := Nat.xor_lt_two_pow hc (byte_lt_two_pow_32 a)
      have hcb := Nat.xor_lt_two_pow hc (byte_lt_two_pow_32 b)
      apply crc_fold_ne_of_ne _ _ _ (crc_shift_iterate_lt 8 _ hcb) (crc_shift_iterate_lt 8 _ hca)
      intro heq
      have h1 := Nat.xor_right_inj.mp (crc_shift_iterate_injective 8 _ _ hcb hca heq)
      exact hb (Fin.ext h1)
    | succ j =>
      simp only [List.set_cons_succ, List.foldl_cons]
      have hca := Nat.xor_lt_two_pow hc (byte_lt_two_pow_32 a)
      exact ih _ (crc_shift_iterate_lt 8 _ hca) j (Nat.lt_of_succ_lt_succ hi) hb

theorem crc32_standard_set_ne (t p : List Byte) (i : Nat) (b : Byte) (hi : i < p.length)
    (hb : b ≠ p.get ⟨i, hi⟩) :
    crc32_standard (t ++ p.set i b) ≠ crc32_standard (t ++ p) := by
  unfold crc32_standard
  rw [List.foldl_append, List.foldl_append]
  intro h
  exact crc_fold_set_ne p _ (crc_fold_lt t _ (by norm_num)) i b hi hb (Nat.xor_left_inj.mp h)

/-! ## Big-endian fields -/

/-- The shifted-and-ored bytes are the big-endian number they spell. -/
theorem be32_eq (b0 b1 b2 b3 : Byte) :
    be32 b0 b1 b2 b3 = b0.val * 2 ^ 24 + b1.val * 2 ^ 16 + b2.val * 2 ^ 8 + b3.val := by
  have h0 := b0.isLt
  have h1 := b1.isLt
  have h2 := b2.isLt
  have h3 := b3.isLt
  unfold be32
  rw [Nat.shiftLeft_eq, Nat.shiftLeft_eq, Nat.shiftLeft_eq]
  have e1 : b0.val * 2 ^ 24 ||| b1.val * 2 ^ 16 = b0.val * 2 ^ 24 + b1.val * 2 ^ 16 := by
    have := Nat.mul_add_lt_is_or (i := 24) (b := b1.val * 2 ^ 16) (by omega) b0.val
    rw [Nat.mul_comm (2 ^ 24)] at this
    exact this.symm
  have e2 : (b0.val * 2 ^ 24 + b1.val * 2 ^ 16) ||| b2.val * 2 ^ 8 =
      b0.val * 2 ^ 24 + b1.val * 2 ^ 16 + b2.val * 2 ^ 8 := by
    have := Nat.mul_add_lt_is_or (i := 16) (b := b2.val * 2 ^ 8) (by omega)
      (b0.val * 2 ^ 8 + b1.val)
    have e : 2 ^ 16 * (b0.val * 2 ^ 8 + b1.val) = b0.val * 2 ^ 24 + b1.val * 2 ^ 16 := by omega
    rw [e] at this
    exact this.symm
  have e3 : (b0.val * 2 ^ 24 + b1.val * 2 ^ 16 + b2.val * 2 ^ 8) ||| b3.val =
      b0.val * 2 ^ 24 + b1.val * 2 ^ 16 + b2.val * 2 ^ 8 + b3.val := by
    have := Nat.mul_add_lt_is_or (i := 8) (b := b3.val) (by omega)
      (b0.val * 2 ^ 16 + b1.val * 2 ^ 8 + b2.val)
    have e : 2 ^ 8 * (b0.val * 2 ^ 16 + b1.val * 2 ^ 8 + b2.val) =
        b0.val * 2 ^ 24 + b1.val * 2 ^ 16 + b2.val * 2 ^ 8 := by omega
    rw [e] at this
    exact this.symm
  rw [e1, e2, e3]
  omega

theorem be32_lt (b0 b1 b2 b3 : Byte) : be32 b0 b1 b2 b3 < 2 ^ 32 :=
  Nat.mod_lt _ (by norm_num)

/-! ## Framed reads -/

theorem u32_add_eq (n k : Nat) (h : n + k < 2 ^ 32) : u32_add n k = n + k :=
  Nat.mod_eq_of_lt h

theorem read_opened (a rest : List Byte) (n : Nat) (h : a.length = n) :
    (ifstream.opened (a ++ rest)).read n = (a, ifstream.opened rest) := by
  subst h
  simp [ifstream.read, ifstream.opened]

theorem vector_filled_full (n : Nat) (got : List Byte) (h : got.length = n) :
    vector_filled n got = got := by
  subst h
  simp [vector_filled]

theorem be32_at_append (p : List Byte) (t0 t1 t2 t3 : Byte) (n : Nat) (h : p.length = n) :
    be32_at (p ++ [t0, t1, t2, t3]) n (n + 1) (n + 2) (n + 3) = some (be32 t0 t1 t2 t3) := by
  subst h
  have h0 : (p ++ [t0, t1, t2, t3])[p.length]? = some t0 := by
    rw [List.getElem?_append_right (Nat.le_refl _)]; simp
  have h1 : (p ++ [t0, t1, t2, t3])[p.length + 1]? = some t1 := by
    rw [List.getElem?_append_right (by omega)]; simp
  have h2 : (p ++ [t0, t1, t2, t3])[p.length + 2]? = some t2 := by
    rw [List.getElem?_append_right (by omega)]; simp
  have h3 : (p ++ [t0, t1, t2, t3])[p.length + 3]? = some t3 := by
    rw [List.getElem?_append_right (by omega)]; simp
  unfold be32_at
  rw [h0, h1, h2, h3]

theorem crc_value_at_frame (p : List Byte) (t0 t1 t2 t3 : Byte) (n : Nat) (h : p.length = n)
    (hn : n + 4 < 2 ^ 32) :
    crc_value_at (p ++ [t0, t1, t2, t3]) n = some (be32 t0 t1 t2 t3) := by
  unfold crc_value_at
  rw [u32_add_eq n 1 (by omega), u32_add_eq n 2 (by omega), u32_add_eq n 3 (by omega)]
  exact be32_at_append p t0 t1 t2 t3 n h

theorem take_frame (p q : List Byte) (n : Nat) (h : p.length = n) : (p ++ q).take n = p := by
  subst h
  simp

theorem framed_check_spec (tag p : List Byte) (t0 t1 t2 t3 : Byte) (rest : List Byte)
    (n : Nat) (h : p.length = n) (hn : n + 4 < 2 ^ 32) :
    framed_check tag (ifstream.opened (p ++ [t0, t1, t2, t3] ++ rest)) n =
      (.returned (decide (be32 t0 t1 t2 t3 = crc32_standard (tag ++ p))),
        ifstream.opened rest) := by
  unfold framed_check
  rw [u32_add_eq n 4 hn, read_opened (p ++ [t0, t1, t2, t3]) rest (n + 4) (by simp [h])]
  simp only
  rw [vector_filled_full _ _ (by simp [h]), crc_value_at_frame p t0 t1 t2 t3 n h hn]
  simp only
  rw [take_frame p _ n h, crc32_chain_u32]
  by_cases hc : be32 t0 t1 t2 t3 = crc32_standard (tag ++ p)
  · simp [hc]
  · have hc2 : crc32_standard (tag ++ p) ≠ be32 t0 t1 t2 t3 := fun e => hc e.symm
    simp [hc, hc2]

theorem verify_and_discard_spec (tag p : List Byte) (t0 t1 t2 t3 : Byte) (rest : List Byte)
    (n : Nat) (h : p.length = n) :
    verify_and_discard tag (ifstream.opened (p ++ [t0, t1, t2, t3] ++ rest)) n =
      (.returned (decide (be32 t0 t1 t2 t3 = crc32_standard (tag ++ p))),
        ifstream.opened rest) := by
  unfold verify_and_discard
  rw [read_opened (p ++ [t0, t1, t2, t3]) rest (n + 4) (by simp [h])]
  subst h
  simp

/-! ## The typed readers on a complete frame -/

theorem parse_ihdr_chunk_framed (p0 p1 p2 p3 p4 p5 p6 p7 p8 p9 p10 p11 p12 t0 t1 t2 t3 : Byte)
    (rest : List Byte) (ihdr0 : IHDR_t) :
    parse_ihdr_chunk
        (ifstream.opened ([p0, p1, p2, p3, p4, p5, p6, p7, p8, p9, p10, p11, p12] ++
          [t0, t1, t2, t3] ++ rest)) 13 ihdr0 =
      (if ihdr_channels p9 = 0 then Status.assert_failed
        else Status.returned (decide (be32 t0 t1 t2 t3 =
          crc32_standard ([ch 'I', ch 'H', ch 'D', ch 'R'] ++
            [p0, p1, p2, p3, p4, p5, p6, p7, p8, p9, p10, p11, p12]))),
       ifstream.opened rest,
       { width := be32 p0 p1 p2 p3, height := be32 p4 p5 p6 p7,
         channels := ihdr_channels p9, bit_depth := p8, color_type := p9,
         compression_method := p10, filter_method := p11, interlace_method := p12 }) := by
  unfold parse_ihdr_chunk
  rw [if_neg (by simp), u32_add_eq 13 4 (by norm_num),
    read_opened ([p0, p1, p2, p3, p4, p5, p6, p7, p8, p9, p10, p11, p12] ++ [t0, t1, t2, t3])
      rest (13 + 4) rfl]
  have hb : ([p0, p1, p2, p3, p4, p5, p6, p7, p8, p9, p10, p11, p12] ++ [t0, t1, t2, t3]).take 13
      = [p0, p1, p2, p3, p4, p5, p6, p7, p8, p9, p10, p11, p12] := rfl
  have hcrc := crc_value_at_frame [p0, p1, p2, p3, p4, p5, p6, p7, p8, p9, p10, p11, p12]
    t0 t1 t2 t3 13 rfl (by norm_num)
  have h03 : be32_at ([p0, p1, p2, p3, p4, p5, p6, p7, p8, p9, p10, p11, p12] ++
      [t0, t1, t2, t3]) 0 1 2 3 = some (be32 p0 p1 p2 p3) := rfl
  have h47 : be32_at ([p0, p1, p2, p3, p4, p5, p6, p7, p8, p9, p10, p11, p12] ++
      [t0, t1, t2, t3]) 4 5 6 7 = some (be32 p4 p5 p6 p7) := rfl
  simp only [h03, h47, hcrc, hb, crc32_chain_u32]
  generalize crc32_standard ([ch 'I', ch 'H', ch 'D', ch 'R'] ++
    [p0, p1, p2, p3, p4, p5, p6, p7, p8, p9, p10, p11, p12]) = v
  by_cases hch : ihdr_channels p9 = 0
  · simp [hch]
  · by_cases hc : v = be32 t0 t1 t2 t3
    · simp [hch, hc]
    · have hc2 : ¬ be32 t0 t1 t2 t3 = v := fun e => hc e.symm
      simp [hch, hc, hc2]

theorem decide_eq_swap (a b : Nat) : decide (a = b) = decide (b = a) := by
  by_cases h : a = b
  · simp [h]
  · have h2 : ¬ b = a := fun e => h e.symm
    simp [h, h2]

theorem parse_bkgd_chunk_framed (p : List Byte) (t0 t1 t2 t3 : Byte) (rest : List Byte)
    (n : Nat) (h : p.length = n) (hn : n = 1 ∨ n = 6) (bkgd_color : bKGD_t) :
    parse_bkgd_chunk (ifstream.opened (p ++ [t0, t1, t2, t3] ++ rest)) n bkgd_color =
      if be32 t0 t1 t2 t3 = crc32_standard ([ch 'b', ch 'K', ch 'G', ch 'D'] ++ p) then
        (if n = 1 then
          (.returned true, ifstream.opened rest,
            { bkgd_color with index := p.getD 0 0, is_indexed := true })
        else
          (.returned true, ifstream.opened rest,
            { bkgd_color with red := p.getD 0 0, green := p.getD 1 0, blue := p.getD 2 0,
                              is_indexed := false }))
      else (.returned false, ifstream.opened rest, bkgd_color) := by
  have hn4 : n + 4 < 2 ^ 32 := by omega
  unfold parse_bkgd_chunk
  rw [if_neg (not_not_intro hn), u32_add_eq n 4 hn4,
    read_opened (p ++ [t0, t1, t2, t3]) rest (n + 4) (by simp [h])]
  simp only
  rw [vector_filled_full _ _ (by simp [h]), crc_value_at_frame p t0 t1 t2 t3 n h hn4]
  simp only
  rw [take_frame p _ n h, crc32_chain_u32]
  generalize crc32_standard ([ch 'b', ch 'K', ch 'G', ch 'D'] ++ p) = v
  by_cases hc : be32 t0 t1 t2 t3 = v
  · subst hc
    rcases hn with h1 | h6
    · subst h1
      match p, h with
      | [a], _ => simp
    · subst h6
      match p, h with
      | [a0, a1, a2, a3, a4, a5], _ => simp
  · have hc2 : ¬ v = be32 t0 t1 t2 t3 := fun e => hc e.symm
    simp [hc, hc2]

theorem parse_bkgd_chunk_assert (stream : ifstream) (n : Nat) (h1 : n ≠ 1) (h6 : n ≠ 6)
    (bkgd_color : bKGD_t) :
    parse_bkgd_chunk stream n bkgd_color = (.assert_failed, stream, bkgd_color) := by
  unfold parse_bkgd_chunk
  rw [if_pos (fun h => h.elim h1 h6)]

theorem parse_idat_chunk_framed (p : List Byte) (t0 t1 t2 t3 : Byte) (rest : List Byte)
    (n : Nat) (h : p.length = n) (hpos : 0 < n) (hn : n + 4 < 2 ^ 32)
    (compressed_data : List Byte) :
    parse_idat_chunk (ifstream.opened (p ++ [t0, t1, t2, t3] ++ rest)) n compressed_data =
      (.returned (decide (be32 t0 t1 t2 t3 =
          crc32_standard ([ch 'I', ch 'D', ch 'A', ch 'T'] ++ p))),
        ifstream.opened rest, compressed_data ++ p) := by
  unfold parse_idat_chunk
  rw [if_neg (not_not_intro hpos), u32_add_eq n 4 hn,
    read_opened (p ++ [t0, t1, t2, t3]) rest (n + 4) (by simp [h])]
  simp only
  rw [vector_filled_full _ _ (by simp [h])]
  have hlen : (p ++ [t0, t1, t2, t3]).length = n + 4 := by simp [h]
  rw [hlen, if_neg (by omega), crc_value_at_frame p t0 t1 t2 t3 n h hn]
  simp only
  rw [Nat.add_sub_cancel, take_frame p _ n h, crc32_chain_u32]
  generalize crc32_standard ([ch 'I', ch 'D', ch 'A', ch 'T'] ++ p) = v
  by_cases hc : be32 t0 t1 t2 t3 = v
  · subst hc; simp
  · have hc2 : ¬ v = be32 t0 t1 t2 t3 := fun e => hc e.symm
    simp [hc, hc2]

theorem parse_iend_chunk_framed (t0 t1 t2 t3 : Byte) (rest : List Byte) :
    parse_iend_chunk (ifstream.opened ([t0, t1, t2, t3] ++ rest)) 0 =
      (.returned (decide (be32 t0 t1 t2 t3 = crc32_standard [ch 'I', ch 'E', ch 'N', ch 'D'])),
        ifstream.opened rest) := by
  unfold parse_iend_chunk
  rw [if_neg (by simp), u32_add_eq 0 4 (by norm_num),
    read_opened [t0, t1, t2, t3] rest (0 + 4) rfl]
  simp only
  rw [vector_filled_full (0 + 4) [t0, t1, t2, t3] rfl]
  have hcrc := crc_value_at_frame [] t0 t1 t2 t3 0 rfl (by norm_num)
  rw [List.nil_append] at hcrc
  rw [hcrc]
  simp only
  rw [crc32_zero_eq_standard, Nat.mod_eq_of_lt (crc32_standard_lt _)]
  generalize crc32_standard [ch 'I', ch 'E', ch 'N', ch 'D'] = v
  by_cases hc : be32 t0 t1 t2 t3 = v
  · subst hc; simp
  · have hc2 : ¬ v = be32 t0 t1 t2 t3 := fun e => hc e.symm
    simp [hc, hc2]

theorem parse_chrm_chunk_mismatch (p : List Byte) (t0 t1 t2 t3 : Byte) (rest : List Byte)
    (h : p.length = 32) (chrm : cHRM_t)
    (hc : be32 t0 t1 t2 t3 ≠ crc32_standard ([ch 'c', ch 'H', ch 'R', ch 'M'] ++ p)) :
    parse_chrm_chunk (ifstream.opened (p ++ [t0, t1, t2, t3] ++ rest)) 32 chrm =
      (.returned false, ifstream.opened rest, chrm) := by
  unfold parse_chrm_chunk
  rw [if_neg (by simp), u32_add_eq 32 4 (by norm_num),
    read_opened (p ++ [t0, t1, t2, t3]) rest (32 + 4) (by simp [h])]
  simp only
  rw [vector_filled_full _ _ (by simp [h]),
    crc_value_at_frame p t0 t1 t2 t3 32 h (by norm_num)]
  simp only
  rw [take_frame p _ 32 h, crc32_chain_u32, if_pos (fun e => hc e.symm)]

theorem parse_phys_chunk_framed (p0 p1 p2 p3 p4 p5 p6 p7 p8 t0 t1 t2 t3 : Byte)
    (rest : List Byte) (phys : pHYs_t) :
    parse_phys_chunk
        (ifstream.opened ([p0, p1, p2, p3, p4, p5, p6, p7, p8] ++ [t0, t1, t2, t3] ++ rest))
        9 phys =
      (.returned (decide (be32 t0 t1 t2 t3 =
          crc32_standard ([ch 'p', ch 'H', ch 'Y', ch 's'] ++
            [p0, p1, p2, p3, p4, p5, p6, p7, p8]))),
       ifstream.opened rest,
       { pixels_per_unit_x := be32 p0 p1 p2 p3, pixels_per_unit_y := be32 p4 p5 p6 p7,
         unit_specifier := p8 }) := by
  unfold parse_phys_chunk
  rw [if_neg (by simp), u32_add_eq 9 4 (by norm_num),
    read_opened ([p0, p1, p2, p3, p4, p5, p6, p7, p8] ++ [t0, t1, t2, t3]) rest (9 + 4) rfl]
  simp only
  rw [vector_filled_full (9 + 4) ([p0, p1, p2, p3, p4, p5, p6, p7, p8] ++ [t0, t1, t2, t3]) rfl]
  have hb : ([p0, p1, p2, p3, p4, p5, p6, p7, p8] ++ [t0, t1, t2, t3]).take 9
      = [p0, p1, p2, p3, p4, p5, p6, p7, p8] := rfl
  have hcrc := crc_value_at_frame [p0, p1, p2, p3, p4, p5, p6, p7, p8]
    t0 t1 t2 t3 9 rfl (by norm_num)
  have h03 : be32_at ([p0, p1, p2, p3, p4, p5, p6, p7, p8] ++ [t0, t1, t2, t3]) 0 1 2 3 =
      some (be32 p0 p1 p2 p3) := rfl
  have h47 : be32_at ([p0, p1, p2, p3, p4, p5, p6, p7, p8] ++ [t0, t1, t2, t3]) 4 5 6 7 =
      some (be32 p4 p5 p6 p7) := rfl
  simp only [h03, h47, hcrc, hb, crc32_chain_u32]
  generalize crc32_standard ([ch 'p', ch 'H', ch 'Y', ch 's'] ++
    [p0, p1, p2, p3, p4, p5, p6, p7, p8]) = v
  by_cases hc : v = be32 t0 t1 t2 t3
  · simp [hc]
  · have hc2 : ¬ be32 t0 t1 t2 t3 = v := fun e => hc e.symm
    simp [hc, hc2]

/-- On a buffer that holds the whole declared payload the palette loop runs to its end. -/
theorem plte_loop_ok (buffer : List Byte) (n : Nat) (hn : n < 2 ^ 32) (h3 : n % 3 = 0)
    (hb : n ≤ buffer.length) (fuel i : Nat) (hi : i % 3 = 0) (hin : i ≤ n)
    (hfuel : n < i + 3 * fuel)
    (palette : List RGB_t) :
    ∃ palette', plte_loop buffer n fuel i palette = .ok palette' := by
  induction fuel generalizing i palette with
  | zero => omega
  | succ fuel ih =>
    unfold plte_loop
    by_cases hlt : i < n
    · rw [if_pos hlt]
      have h0 : i < buffer.length := by omega
      have h1 : i + 1 < buffer.length := by omega
      have h2 : i + 2 < buffer.length := by omega
      rw [u32_add_eq i 1 (by omega), u32_add_eq i 2 (by omega), List.getElem?_eq_getElem h0,
        List.getElem?_eq_getElem h1, List.getElem?_eq_getElem h2]
      simp only
      rw [u32_add_eq i 3 (by omega)]
      exact ih (i + 3) (by omega) (by omega) (by omega) _
    · rw [if_neg hlt]
      exact ⟨palette, rfl⟩

theorem parse_plte_chunk_framed (p : List Byte) (t0 t1 t2 t3 : Byte) (rest : List Byte)
    (n : Nat) (h : p.length = n) (h3 : n % 3 = 0) (hn : n + 4 < 2 ^ 32)
    (palette : List RGB_t) :
    ∃ palette', parse_plte_chunk (ifstream.opened (p ++ [t0, t1, t2, t3] ++ rest)) n palette =
      (.returned (decide (be32 t0 t1 t2 t3 =
          crc32_standard ([ch 'P', ch 'L', ch 'T', ch 'E'] ++ p))),
        ifstream.opened rest, palette') := by
  unfold parse_plte_chunk
  rw [if_neg (not_not_intro h3), u32_add_eq n 4 hn,
    read_opened (p ++ [t0, t1, t2, t3]) rest (n + 4) (by simp [h])]
  simp only
  rw [vector_filled_full _ _ (by simp [h])]
  obtain ⟨palette', hloop⟩ := plte_loop_ok (p ++ [t0, t1, t2, t3]) n (by omega) h3
    (by simp [h]) (n + 1) 0 rfl (Nat.zero_le _) (by omega) palette
  rw [hloop]
  simp only
  rw [crc_value_at_frame p t0 t1 t2 t3 n h hn]
  simp only
  rw [take_frame p _ n h, crc32_chain_u32]
  refine ⟨palette', ?_⟩
  generalize crc32_standard ([ch 'P', ch 'L', ch 'T', ch 'E'] ++ p) = v
  by_cases hc : be32 t0 t1 t2 t3 = v
  · subst hc; simp
  · have hc2 : ¬ v = be32 t0 t1 t2 t3 := fun e => hc e.symm
    simp [hc, hc2]

/-! ## The driver on a well-framed chunk -/

theorem be32_at_u32_be (n : Nat) (h : n < 2 ^ 32) : be32_at (u32_be n) 0 1 2 3 = some n := by
  have e : be32_at (u32_be n) 0 1 2 3 =
      some (be32 (Fin.ofNat (n / 2 ^ 24)) (Fin.ofNat (n / 2 ^ 16)) (Fin.ofNat (n / 2 ^ 8))
        (Fin.ofNat n)) := rfl
  rw [e, be32_eq]
  have v0 : (Fin.ofNat (n / 2 ^ 24) : Byte).val = n / 2 ^ 24 % 256 := rfl
  have v1 : (Fin.ofNat (n / 2 ^ 16) : Byte).val = n / 2 ^ 16 % 256 := rfl
  have v2 : (Fin.ofNat (n / 2 ^ 8) : Byte).val = n / 2 ^ 8 % 256 := rfl
  have v3 : (Fin.ofNat n : Byte).val = n % 256 := rfl
  rw [v0, v1, v2, v3]
  congr 1
  omega

theorem tag_length (k : ChunkKind) : k.tag.length = 4 := by
  cases k <;> rfl

theorem dispatch_tag (k : ChunkKind) : dispatch k.tag chunk_kinds = .ok (some k) := by
  cases k <;> rfl

/-- After a matching signature the driver enters its loop on the rest of the stream. -/
theorem decode_png_file_signature (z : Zlib) (fuel : Nat) (body : List Byte)
    (properties : png_properties_t) :
    decode_png_file z fuel (ifstream.opened (png_signature ++ body)) properties =
      decode_loop z fuel fuel (ifstream.opened body) properties none := by
  unfold decode_png_file
  rw [read_opened png_signature body 8 rfl]
  simp only
  rw [vector_filled_full 8 png_signature rfl, if_neg (by decide)]

/-- One iteration of the loop on a chunk header whose type has a branch. -/
theorem decode_loop_chunk (z : Zlib) (zfuel fuel : Nat) (properties : png_properties_t)
    (output_file : Option (List Byte)) (k : ChunkKind) (n : Nat) (hn : n < 2 ^ 32)
    (body : List Byte) :
    decode_loop z zfuel (fuel + 1) (ifstream.opened (u32_be n ++ (k.tag ++ body))) properties
        output_file =
      match run_branch z zfuel k (ifstream.opened body) n properties output_file with
      | (st, stream, properties, output_file) =>
        if st = .returned true then decode_loop z zfuel fuel stream properties output_file
        else ⟨st, stream, properties, output_file⟩ := by
  rw [decode_loop, read_opened (u32_be n) (k.tag ++ body) 4 rfl]
  simp only
  rw [if_neg (by simp [ifstream.eof, ifstream.opened]), be32_at_u32_be n hn]
  simp only
  rw [read_opened k.tag body 4 (tag_length k)]
  simp only
  rw [dispatch_tag k]

/-- One iteration of the loop on a chunk header whose type has no branch: nothing after the
type field is consumed. -/
theorem decode_loop_no_branch (z : Zlib) (zfuel fuel : Nat) (properties : png_properties_t)
    (output_file : Option (List Byte)) (type_tag : List Byte) (n : Nat) (hn : n < 2 ^ 32)
    (body : List Byte) (hlen : type_tag.length = 4)
    (hno : dispatch type_tag chunk_kinds = .ok none) :
    decode_loop z zfuel (fuel + 1) (ifstream.opened (u32_be n ++ (type_tag ++ body)))
        properties output_file =
      decode_loop z zfuel fuel (ifstream.opened body) properties output_file := by
  rw [decode_loop, read_opened (u32_be n) (type_tag ++ body) 4 rfl]
  simp only
  rw [if_neg (by simp [ifstream.eof, ifstream.opened]), be32_at_u32_be n hn]
  simp only
  rw [read_opened type_tag body 4 hlen]
  simp only
  rw [hno]

/-! ## The verify-only readers are one routine -/

/-- Each verify-only reader is the common body instantiated with its own type literal. -/
theorem discard_readers_framed_check :
    ∀ r ∈ discard_readers, r.2 = framed_check r.1 := by
  intro r hr
  simp only [discard_readers, List.mem_cons, List.mem_singleton, List.not_mem_nil,
    or_false] at hr
  rcases hr with h | h | h | h | h | h | h | h | h | h | h | h | h | h | h <;>
    (subst h; rfl)

theorem run_branch_plain (z : Zlib) (zfuel : Nat) (k : ChunkKind) (stream : ifstream)
    (n : Nat) (properties : png_properties_t) (output_file : Option (List Byte))
    (hk : k ≠ .IHDR ∧ k ≠ .PLTE ∧ k ≠ .IDAT ∧ k ≠ .IEND ∧ k ≠ .bKGD ∧ k ≠ .cHRM ∧ k ≠ .pHYs) :
    run_branch z zfuel k stream n properties output_file =
      ((framed_check k.tag stream n).1, (framed_check k.tag stream n).2, properties,
        output_file) := by
  obtain ⟨h1, h2, h3, h4, h5, h6, h7⟩ := hk
  cases k <;> first
    | exact absurd rfl h1
    | exact absurd rfl h2
    | exact absurd rfl h3
    | exact absurd rfl h4
    | exact absurd rfl h5
    | exact absurd rfl h6
    | exact absurd rfl h7
    | rfl

theorem list_length_9 (p : List Byte) (h : p.length = 9) :
    ∃ p0 p1 p2 p3 p4 p5 p6 p7 p8, p = [p0, p1, p2, p3, p4, p5, p6, p7, p8] := by
  match p, h with
  | [p0, p1, p2, p3, p4, p5, p6, p7, p8], _ => exact ⟨_, _, _, _, _, _, _, _, _, rfl⟩

theorem list_length_13 (p : List Byte) (h : p.length = 13) :
    ∃ p0 p1 p2 p3 p4 p5 p6 p7 p8 p9 p10 p11 p12,
      p = [p0, p1, p2, p3, p4, p5, p6, p7, p8, p9, p10, p11, p12] := by
  match p, h with
  | [p0, p1, p2, p3, p4, p5, p6, p7, p8, p9, p10, p11, p12], _ =>
    exact ⟨_, _, _, _, _, _, _, _, _, _, _, _, _, rfl⟩

theorem run_branch_ihdr (z : Zlib) (zfuel : Nat) (stream : ifstream) (n : Nat)
    (properties : png_properties_t) (output_file : Option (List Byte)) :
    run_branch z zfuel .IHDR stream n properties output_file =
      ((parse_ihdr_chunk stream n properties.ihdr).1,
        (parse_ihdr_chunk stream n properties.ihdr).2.1,
        { properties with ihdr := (parse_ihdr_chunk stream n properties.ihdr).2.2 },
        output_file) := rfl

theorem run_branch_plte (z : Zlib) (zfuel : Nat) (stream : ifstream) (n : Nat)
    (properties : png_properties_t) (output_file : Option (List Byte)) :
    run_branch z zfuel .PLTE stream n properties output_file =
      ((parse_plte_chunk stream n properties.palette).1,
        (parse_plte_chunk stream n properties.palette).2.1,
        { properties with palette := (parse_plte_chunk stream n properties.palette).2.2 },
        output_file) := rfl

theorem run_branch_idat (z : Zlib) (zfuel : Nat) (stream : ifstream) (n : Nat)
    (properties : png_properties_t) (output_file : Option (List Byte)) :
    run_branch z zfuel .IDAT stream n properties output_file =
      ((parse_idat_chunk stream n properties.compressed_data).1,
        (parse_idat_chunk stream n properties.compressed_data).2.1,
        { properties with
          compressed_data := (parse_idat_chunk stream n properties.compressed_data).2.2 },
        output_file) := rfl

theorem run_branch_iend (z : Zlib) (zfuel : Nat) (stream : ifstream) (n : Nat)
    (properties : png_properties_t) (output_file : Option (List Byte)) :
    run_branch z zfuel .IEND stream n properties output_file =
      if (parse_iend_chunk stream n).1 = .returned true then
        match decompress_idat_data z zfuel properties.compressed_data with
        | none => (.out_of_fuel, (parse_iend_chunk stream n).2, properties, output_file)
        | some decompressed_data =>
          (.returned true, (parse_iend_chunk stream n).2, properties, some decompressed_data)
      else ((parse_iend_chunk stream n).1, (parse_iend_chunk stream n).2, properties,
        output_file) := rfl

theorem run_branch_bkgd (z : Zlib) (zfuel : Nat) (stream : ifstream) (n : Nat)
    (properties : png_properties_t) (output_file : Option (List Byte)) :
    run_branch z zfuel .bKGD stream n properties output_file =
      ((parse_bkgd_chunk stream n properties.bkgd).1,
        (parse_bkgd_chunk stream n properties.bkgd).2.1,
        { properties with bkgd := (parse_bkgd_chunk stream n properties.bkgd).2.2 },
        output_file) := rfl

theorem run_branch_chrm (z : Zlib) (zfuel : Nat) (stream : ifstream) (n : Nat)
    (properties : png_properties_t) (output_file : Option (List Byte)) :
    run_branch z zfuel .cHRM stream n properties output_file =
      ((parse_chrm_chunk stream n properties.chrm).1,
        (parse_chrm_chunk stream n properties.chrm).2.1,
        { properties with chrm := (parse_chrm_chunk stream n properties.chrm).2.2 },
        output_file) := rfl

theorem run_branch_phys (z : Zlib) (zfuel : Nat) (stream : ifstream) (n : Nat)
    (properties : png_properties_t) (output_file : Option (List Byte)) :
    run_branch z zfuel .pHYs stream n properties output_file =
      ((parse_phys_chunk stream n properties.phys).1,
        (parse_phys_chunk stream n properties.phys).2.1,
        { properties with phys := (parse_phys_chunk stream n properties.phys).2.2 },
        output_file) := rfl

/-- On a complete frame whose trailer is not the checksum of type and payload, the branch of
every kind ends with a reader that returned `false`, the stream standing right behind the
trailer. -/
theorem run_branch_mismatch (z : Zlib) (zfuel : Nat) (k : ChunkKind) (p : List Byte)
    (t0 t1 t2 t3 : Byte) (rest : List Byte) (properties : png_properties_t)
    (output_file : Option (List Byte)) (hlegal : passes_assertions k p)
    (hlen : p.length + 4 < 2 ^ 32)
    (hcrc : be32 t0 t1 t2 t3 ≠ crc32_standard (k.tag ++ p)) :
    ∃ properties', run_branch z zfuel k (ifstream.opened (p ++ [t0, t1, t2, t3] ++ rest))
        p.length properties output_file =
      (.returned false, ifstream.opened rest, properties', output_file) := by
  by_cases hk : k ≠ .IHDR ∧ k ≠ .PLTE ∧ k ≠ .IDAT ∧ k ≠ .IEND ∧ k ≠ .bKGD ∧ k ≠ .cHRM ∧
      k ≠ .pHYs
  · rw [run_branch_plain z zfuel k _ _ _ _ hk,
      framed_check_spec k.tag p t0 t1 t2 t3 rest p.length rfl hlen, decide_eq_false hcrc]
    exact ⟨properties, rfl⟩
  · cases k <;> simp only [ne_eq, not_true_eq_false, reduceCtorEq, not_false_eq_true,
      and_true, true_and, and_self, and_false, false_and] at hk
    · -- IHDR
      simp only [ChunkKind.tag] at hcrc
      obtain ⟨h13, hch⟩ := hlegal
      obtain ⟨p0, p1, p2, p3, p4, p5, p6, p7, p8, p9, p10, p11, p12, rfl⟩ :=
        list_length_13 p h13
      have hch2 : ihdr_channels p9 ≠ 0 := hch
      rw [run_branch_ihdr, h13, parse_ihdr_chunk_framed, if_neg hch2, decide_eq_false hcrc]
      exact ⟨_, rfl⟩
    · -- PLTE
      simp only [ChunkKind.tag] at hcrc
      obtain ⟨palette', hp⟩ := parse_plte_chunk_framed p t0 t1 t2 t3 rest p.length rfl hlegal
        hlen properties.palette
      rw [run_branch_plte, hp, decide_eq_false hcrc]
      exact ⟨_, rfl⟩
    · -- IDAT
      simp only [ChunkKind.tag] at hcrc
      rw [run_branch_idat, parse_idat_chunk_framed p t0 t1 t2 t3 rest p.length rfl hlegal hlen,
        decide_eq_false hcrc]
      exact ⟨_, rfl⟩
    · -- IEND
      have h0 : p = [] := List.length_eq_zero.mp hlegal
      subst h0
      have hcrc2 : be32 t0 t1 t2 t3 ≠ crc32_standard [ch 'I', ch 'E', ch 'N', ch 'D'] := by
        simpa [ChunkKind.tag] using hcrc
      rw [run_branch_iend, List.nil_append, List.length_nil, parse_iend_chunk_framed,
        decide_eq_false hcrc2, if_neg (by simp)]
      exact ⟨_, rfl⟩
    · -- bKGD
      simp only [ChunkKind.tag] at hcrc
      rw [run_branch_bkgd, parse_bkgd_chunk_framed p t0 t1 t2 t3 rest p.length rfl hlegal,
        if_neg hcrc]
      exact ⟨_, rfl⟩
    · -- cHRM
      simp only [ChunkKind.tag] at hcrc
      have h32 : p.length = 32 := hlegal
      rw [run_branch_chrm, h32, parse_chrm_chunk_mismatch p t0 t1 t2 t3 rest h32 _ hcrc]
      exact ⟨_, rfl⟩
    · -- pHYs
      simp only [ChunkKind.tag] at hcrc
      have h9 : p.length = 9 := hlegal
      obtain ⟨p0, p1, p2, p3, p4, p5, p6, p7, p8, rfl⟩ := list_length_9 p h9
      rw [run_branch_phys, h9, parse_phys_chunk_framed, decide_eq_false hcrc]
      exact ⟨_, rfl⟩

/-! ## The claims -/

set_option maxRecDepth 100000

theorem eq_png_signature (hdr : List Byte) (hlen : hdr.length = 8)
    (h0 : hdr[0]? = some 0x89) (h1 : hdr[1]? = some (ch 'P')) (h2 : hdr[2]? = some (ch 'N'))
    (h3 : hdr[3]? = some (ch 'G')) (h4 : hdr[4]? = some 0x0d) (h5 : hdr[5]? = some 0x0a)
    (h6 : hdr[6]? = some 0x1a) (h7 : hdr[7]? = some 0x0a) : hdr = png_signature := by
  match hdr, hlen with
  | [a0, a1, a2, a3, a4, a5, a6, a7], _ =>
    simp only [List.getElem?_cons_zero, List.getElem?_cons_succ, Option.some.injEq] at h0 h1 h2 h3 h4 h5 h6 h7
    subst h0 h1 h2 h3 h4 h5 h6 h7
    rfl

theorem signature_check_fails (bytes : List Byte) (h : bytes.take 8 ≠ png_signature) :
    let png_header := vector_filled 8 ((ifstream.opened bytes).read 8).1
    png_header[0]? ≠ some 0x89 ∨ png_header[1]? ≠ some (ch 'P') ∨
      png_header[2]? ≠ some (ch 'N') ∨ png_header[3]? ≠ some (ch 'G') ∨
      png_header[4]? ≠ some 0x0d ∨ png_header[5]? ≠ some 0x0a ∨
      png_header[6]? ≠ some 0x1a ∨ png_header[7]? ≠ some 0x0a := by
  intro png_header
  by_contra hc
  simp only [not_or, not_not] at hc
  obtain ⟨h0, h1, h2, h3, h4, h5, h6, h7⟩ := hc
  by_cases hl : 8 ≤ bytes.length
  · have hg : ((ifstream.opened bytes).read 8).1 = bytes.take 8 := by
      simp [ifstream.read, ifstream.opened, hl]
    have hv : png_header = bytes.take 8 := by
      show vector_filled 8 _ = _
      rw [hg, vector_filled_full 8 _ (by simp [hl])]
    rw [hv] at h0 h1 h2 h3 h4 h5 h6 h7
    exact h (eq_png_signature _ (by simp [hl]) h0 h1 h2 h3 h4 h5 h6 h7)
  · have hg : ((ifstream.opened bytes).read 8).1 = bytes := by
      simp [ifstream.read, ifstream.opened, hl]
    have hv : png_header = bytes ++ List.replicate (8 - bytes.length) 0 := by
      show vector_filled 8 _ = _
      rw [hg]; rfl
    rw [hv, List.getElem?_append_right (by omega)] at h7
    rw [List.getElem?_replicate] at h7
    split at h7
    · exact absurd (Option.some.inj h7) (by decide)
    · exact absurd h7 (by simp)

/-- C1 (defect): on every stream whose first eight bytes are not the PNG signature (shorter
streams included) the statement `return EXIT_FAILURE;` of `decode_png_file` hands the
caller the `bool` value `true`, not `false`. -/
theorem decode_png_file_bad_signature (z : Zlib) (fuel : Nat) (bytes : List Byte)
    (properties : png_properties_t) (h : bytes.take 8 ≠ png_signature) :
    (decode_png_file z fuel (ifstream.opened bytes) properties).status = .returned true := by
  have hc := signature_check_fails bytes h
  unfold decode_png_file
  generalize (ifstream.opened bytes).read 8 = r at hc ⊢
  obtain ⟨got, stream⟩ := r
  simp only at hc ⊢
  rw [if_pos hc]
  rfl

/-- Witness of C1: the first four bytes of a JPEG file. -/
theorem decode_png_file_bad_signature_witness :
    ([0xFF, 0xD8, 0xFF, 0xE0] : List Byte).take 8 ≠ png_signature ∧
      (decode_png_file no_memory_zlib 5 (ifstream.opened [0xFF, 0xD8, 0xFF, 0xE0])
        zero_properties).status = .returned true :=
  ⟨by decide, decode_png_file_bad_signature no_memory_zlib 5 [0xFF, 0xD8, 0xFF, 0xE0]
    zero_properties (by decide)⟩

/-- C2: each of the fifteen verify-only readers (with the type literal of its driver branch),
called with a declared length `L < 2^32 - 4` on a stream that holds the `L` payload bytes,
four trailer bytes and anything after them, is the generic verify-and-discard routine
instantiated with that type; it returns `true` exactly when the big-endian value of the
trailer is the CRC-32 of type and payload, and otherwise returns `false`. -/
theorem discard_readers_verify_and_discard :
    ∀ r ∈ discard_readers, ∀ (p : List Byte) (t0 t1 t2 t3 : Byte) (rest : List Byte),
      p.length < 2 ^ 32 - 4 →
      r.2 (ifstream.opened (p ++ [t0, t1, t2, t3] ++ rest)) p.length =
          verify_and_discard r.1 (ifstream.opened (p ++ [t0, t1, t2, t3] ++ rest)) p.length ∧
        ((r.2 (ifstream.opened (p ++ [t0, t1, t2, t3] ++ rest)) p.length).1 = .returned true ↔
          be32 t0 t1 t2 t3 = crc32_standard (r.1 ++ p)) ∧
        ((r.2 (ifstream.opened (p ++ [t0, t1, t2, t3] ++ rest)) p.length).1 = .returned false ↔
          be32 t0 t1 t2 t3 ≠ crc32_standard (r.1 ++ p)) := by
  intro r hr p t0 t1 t2 t3 rest hL
  rw [discard_readers_framed_check r hr,
    framed_check_spec r.1 p t0 t1 t2 t3 rest p.length rfl (by omega),
    verify_and_discard_spec r.1 p t0 t1 t2 t3 rest p.length rfl]
  refine ⟨rfl, ?_, ?_⟩
  · simp
  · simp

/-- Witness of C2: the reader of `gAMA` on the chunk of gamma 45455 and its checksum
`0x0BFC6105`. -/
theorem discard_readers_verify_and_discard_witness :
    (ChunkKind.gAMA.tag, parse_gama_chunk) ∈ discard_readers ∧
      ([0x00, 0x00, 0xB1, 0x8F] : List Byte).length < 2 ^ 32 - 4 ∧
      (parse_gama_chunk
          (ifstream.opened ([0x00, 0x00, 0xB1, 0x8F] ++ [0x0B, 0xFC, 0x61, 0x05] ++ [0x2A]))
          4).1 = .returned true :=
  ⟨by simp [discard_readers], by norm_num,
    ((discard_readers_verify_and_discard (ChunkKind.gAMA.tag, parse_gama_chunk)
      (by simp [discard_readers]) [0x00, 0x00, 0xB1, 0x8F] 0x0B 0xFC 0x61 0x05 [0x2A]
      (by norm_num)).2.1).mpr (by decide)⟩

/-- C3: the checksum a chunk reader computes, `crc32` seeded with `0` over the type
characters and continued over the payload (each result stored in a `uint32_t`), is the
standard CRC-32 of the concatenation of type and payload; it is therefore determined by
these two byte strings alone. -/
theorem crc32_of_tag_then_payload (t p : List Byte) :
    crc32 (crc32 0 t % 2 ^ 32) p % 2 ^ 32 = crc32_standard (t ++ p) ∧
      crc32 (crc32 0 t) p = crc32_standard (t ++ p) ∧
      crc32_standard (t ++ p) < 2 ^ 32 :=
  ⟨crc32_chain_u32 t p, crc32_chain t p, crc32_standard_lt _⟩

/-- C4: replacing one payload byte by a different byte changes the CRC-32 of type and
payload; hence the reader of `IDAT` and each of the fifteen verify-only readers, having
accepted a chunk, returns `false` on the same chunk with that one byte changed and the
trailer kept.  The same holds for the reader call in the driver branch of every kind, as
long as the changed payload still passes the assertions of the reader. -/
theorem single_byte_mutation_rejected (t p : List Byte) (i : Nat) (b : Byte)
    (hi : i < p.length) (hb : b ≠ p.get ⟨i, hi⟩) :
    crc32_standard (t ++ p.set i b) ≠ crc32_standard (t ++ p) ∧
      (∀ (t0 t1 t2 t3 : Byte) (rest compressed_data : List Byte), p.length < 2 ^ 32 - 4 →
        (parse_idat_chunk (ifstream.opened (p ++ [t0, t1, t2, t3] ++ rest)) p.length
          compressed_data).1 = .returned true →
        (parse_idat_chunk (ifstream.opened (p.set i b ++ [t0, t1, t2, t3] ++ rest)) p.length
          compressed_data).1 = .returned false) ∧
      (∀ r ∈ discard_readers, ∀ (t0 t1 t2 t3 : Byte) (rest : List Byte),
        p.length < 2 ^ 32 - 4 →
        (r.2 (ifstream.opened (p ++ [t0, t1, t2, t3] ++ rest)) p.length).1 = .returned true →
        (r.2 (ifstream.opened (p.set i b ++ [t0, t1, t2, t3] ++ rest)) p.length).1 =
          .returned false) ∧
      (∀ (z : Zlib) (zfuel : Nat) (k : ChunkKind) (t0 t1 t2 t3 : Byte) (rest : List Byte)
          (properties : png_properties_t) (output_file : Option (List Byte)),
        passes_assertions k p → passes_assertions k (p.set i b) → p.length < 2 ^ 32 - 4 →
        (run_branch z zfuel k (ifstream.opened (p ++ [t0, t1, t2, t3] ++ rest)) p.length
          properties output_file).1 = .returned true →
        (run_branch z zfuel k (ifstream.opened (p.set i b ++ [t0, t1, t2, t3] ++ rest))
          p.length properties output_file).1 = .returned false) := by
  refine ⟨crc32_standard_set_ne t p i b hi hb, ?_, ?_, ?_⟩
  · intro t0 t1 t2 t3 rest compressed_data hL hacc
    rw [parse_idat_chunk_framed p t0 t1 t2 t3 rest p.length rfl (by omega) (by omega)] at hacc
    rw [parse_idat_chunk_framed (p.set i b) t0 t1 t2 t3 rest p.length (by simp) (by omega)
      (by omega)]
    have he : be32 t0 t1 t2 t3 = crc32_standard ([ch 'I', ch 'D', ch 'A', ch 'T'] ++ p) := by
      simpa using hacc
    have hne := crc32_standard_set_ne [ch 'I', ch 'D', ch 'A', ch 'T'] p i b hi hb
    have : be32 t0 t1 t2 t3 ≠ crc32_standard ([ch 'I', ch 'D', ch 'A', ch 'T'] ++ p.set i b) :=
      fun e => hne (e.symm.trans he)
    rw [decide_eq_false this]
  · intro r hr t0 t1 t2 t3 rest hL hacc
    rw [discard_readers_framed_check r hr] at hacc ⊢
    rw [framed_check_spec r.1 p t0 t1 t2 t3 rest p.length rfl (by omega)] at hacc
    rw [framed_check_spec r.1 (p.set i b) t0 t1 t2 t3 rest p.length (by simp) (by omega)]
    have he : be32 t0 t1 t2 t3 = crc32_standard (r.1 ++ p) := by simpa using hacc
    have hne := crc32_standard_set_ne r.1 p i b hi hb
    have : be32 t0 t1 t2 t3 ≠ crc32_standard (r.1 ++ p.set i b) :=
      fun e => hne (e.symm.trans he)
    rw [decide_eq_false this]
  · intro z zfuel k t0 t1 t2 t3 rest properties output_file hp hp' hL hacc
    have he : be32 t0 t1 t2 t3 = crc32_standard (k.tag ++ p) := by
      by_contra hne
      obtain ⟨properties', hm⟩ := run_branch_mismatch z zfuel k p t0 t1 t2 t3 rest properties
        output_file hp (by omega) hne
      rw [hm] at hacc
      exact absurd hacc (by simp)
    have hne := crc32_standard_set_ne k.tag p i b hi hb
    have hmis : be32 t0 t1 t2 t3 ≠ crc32_standard (k.tag ++ p.set i b) :=
      fun e => hne (e.symm.trans he)
    have hlen : (p.set i b).length = p.length := by simp
    obtain ⟨properties', hm⟩ := run_branch_mismatch z zfuel k (p.set i b) t0 t1 t2 t3 rest
      properties output_file hp' (by omega) hmis
    rw [hlen] at hm
    rw [hm]

/-- Witness of C4: the last byte of the `gAMA` payload `00 00 B1 8F` changed to `90`. -/
theorem single_byte_mutation_rejected_witness :
    ∃ (hi : 3 < ([0x00, 0x00, 0xB1, 0x8F] : List Byte).length),
      (0x90 : Byte) ≠ ([0x00, 0x00, 0xB1, 0x8F] : List Byte).get ⟨3, hi⟩ ∧
      crc32_standard (ChunkKind.gAMA.tag ++ ([0x00, 0x00, 0xB1, 0x8F] : List Byte).set 3 0x90) ≠
        crc32_standard (ChunkKind.gAMA.tag ++ [0x00, 0x00, 0xB1, 0x8F]) :=
  ⟨by decide, by decide,
    (single_byte_mutation_rejected ChunkKind.gAMA.tag [0x00, 0x00, 0xB1, 0x8F] 3 0x90
      (by decide) (by decide)).1⟩

/-- On a declared length of `2^32 - 4` the buffer size `chunk_length + 4` wraps to zero: a
verify-only reader extracts nothing and its trailer index lies outside the buffer. -/
theorem framed_check_wrapped (type_tag : List Byte) (bytes : List Byte) :
    framed_check type_tag (ifstream.opened bytes) (2 ^ 32 - 4) =
      (.undefined, ifstream.opened bytes) := by
  have h0 : u32_add (2 ^ 32 - 4) 4 = 0 := by norm_num [u32_add]
  have hr : (ifstream.opened bytes).read 0 = ([], ifstream.opened bytes) :=
    read_opened [] bytes 0 rfl
  unfold framed_check
  rw [h0, hr]
  rfl

/-- C5 (as stated, refuted): a header chunk of the legal length 13 with colour type 1 and a
trailer that is not its checksum does not make `decode_png_file` return `false`; the run
stops at the assertion on the channel count.  Nor does a `gAMA` chunk of declared length
`2^32 - 4` with all its bytes present: the 32-bit buffer size wraps to zero and the trailer
is read outside the buffer. -/
theorem decode_png_file_mismatch_counterexample :
    (be32 0 0 0 0 ≠
        crc32_standard (ChunkKind.IHDR.tag ++ [0, 0, 0, 1, 0, 0, 0, 1, 8, 1, 0, 0, 0]) ∧
      (decode_png_file no_memory_zlib 5
        (ifstream.opened (png_signature ++
          chunk_bytes ChunkKind.IHDR.tag [0, 0, 0, 1, 0, 0, 0, 1, 8, 1, 0, 0, 0] [0, 0, 0, 0]))
        zero_properties).status = .assert_failed) ∧
      (decode_png_file no_memory_zlib 5
        (ifstream.opened (png_signature ++
          chunk_bytes ChunkKind.gAMA.tag (List.replicate (2 ^ 32 - 4) 0) [0, 0, 0, 0]))
        zero_properties).status = .undefined := by
  refine ⟨⟨by decide, by decide⟩, ?_⟩
  have hb : chunk_bytes ChunkKind.gAMA.tag (List.replicate (2 ^ 32 - 4) 0) [0, 0, 0, 0] =
      u32_be (2 ^ 32 - 4) ++
        (ChunkKind.gAMA.tag ++ (List.replicate (2 ^ 32 - 4) 0 ++ [0, 0, 0, 0])) := by
    unfold chunk_bytes
    rw [List.length_replicate]
  rw [hb, decode_png_file_signature,
    decode_loop_chunk no_memory_zlib 5 4 zero_properties none .gAMA (2 ^ 32 - 4) (by norm_num),
    run_branch_plain _ _ _ _ _ _ _ (by decide), framed_check_wrapped]
  rfl

/-- C5 (amended): for every stream made of the signature and a chunk of a kind the driver
has a branch for, whose payload passes the assertions of its reader (legal declared length
and, for `IHDR`, a colour type among 0, 2, 3, 4, 6), whose declared length `L` has
`L + 4 < 2^32`, whose `L + 4` bytes are all present and whose trailer is not the CRC-32 of
type and payload, `decode_png_file` returns `false` and the stream is left right behind the
trailer: nothing of what follows the chunk is read. -/
theorem decode_png_file_checksum_mismatch (z : Zlib) (fuel : Nat)
    (properties : png_properties_t) (k : ChunkKind) (p : List Byte) (t0 t1 t2 t3 : Byte)
    (rest : List Byte) (hlegal : passes_assertions k p) (hlen : p.length + 4 < 2 ^ 32)
    (hcrc : be32 t0 t1 t2 t3 ≠ crc32_standard (k.tag ++ p)) :
    (decode_png_file z (fuel + 1)
        (ifstream.opened (png_signature ++ (chunk_bytes k.tag p [t0, t1, t2, t3] ++ rest)))
        properties).status = .returned false ∧
      (decode_png_file z (fuel + 1)
        (ifstream.opened (png_signature ++ (chunk_bytes k.tag p [t0, t1, t2, t3] ++ rest)))
        properties).stream = ifstream.opened rest := by
  have hbytes : chunk_bytes k.tag p [t0, t1, t2, t3] ++ rest =
      u32_be p.length ++ (k.tag ++ (p ++ [t0, t1, t2, t3] ++ rest)) := by
    simp [chunk_bytes]
  obtain ⟨properties', hb⟩ := run_branch_mismatch z (fuel + 1) k p t0 t1 t2 t3 rest properties
    none hlegal hlen hcrc
  rw [hbytes, decode_png_file_signature,
    decode_loop_chunk z (fuel + 1) fuel properties none k p.length (by omega), hb]
  simp only
  rw [if_neg (by simp)]
  exact ⟨rfl, rfl⟩

/-- Witness of C5: the header chunk of the 1x1 image (bit depth 8, colour type 2), whose
checksum is `0x907753DE`, with the lowest bit of its trailer flipped, followed by an `IEND`
chunk that is never read. -/
theorem decode_png_file_checksum_mismatch_witness :
    passes_assertions .IHDR [0, 0, 0, 1, 0, 0, 0, 1, 8, 2, 0, 0, 0] ∧
      ([0, 0, 0, 1, 0, 0, 0, 1, 8, 2, 0, 0, 0] : List Byte).length + 4 < 2 ^ 32 ∧
      be32 0x90 0x77 0x53 0xDF ≠
        crc32_standard (ChunkKind.IHDR.tag ++ [0, 0, 0, 1, 0, 0, 0, 1, 8, 2, 0, 0, 0]) ∧
      (decode_png_file no_memory_zlib (4 + 1)
        (ifstream.opened (png_signature ++
          (chunk_bytes ChunkKind.IHDR.tag [0, 0, 0, 1, 0, 0, 0, 1, 8, 2, 0, 0, 0]
            [0x90, 0x77, 0x53, 0xDF] ++ chunk_bytes ChunkKind.IEND.tag [] [0xAE, 0x42, 0x60, 0x82])))
        zero_properties).status = .returned false ∧
      (decode_png_file no_memory_zlib (4 + 1)
        (ifstream.opened (png_signature ++
          (chunk_bytes ChunkKind.IHDR.tag [0, 0, 0, 1, 0, 0, 0, 1, 8, 2, 0, 0, 0]
            [0x90, 0x77, 0x53, 0xDF] ++ chunk_bytes ChunkKind.IEND.tag [] [0xAE, 0x42, 0x60, 0x82])))
        zero_properties).stream =
          ifstream.opened (chunk_bytes ChunkKind.IEND.tag [] [0xAE, 0x42, 0x60, 0x82]) :=
  ⟨⟨rfl, by decide⟩, by norm_num, by decide,
    decode_png_file_checksum_mismatch no_memory_zlib 4 zero_properties .IHDR
      [0, 0, 0, 1, 0, 0, 0, 1, 8, 2, 0, 0, 0] 0x90 0x77 0x53 0xDF
      (chunk_bytes ChunkKind.IEND.tag [] [0xAE, 0x42, 0x60, 0x82]) ⟨rfl, by decide⟩
      (by norm_num) (by decide)⟩

/-- C6 (defect): the `if / else if` chain of the driver has no final `else`, so after a type
it has no branch for nothing is discarded.  On the signature followed by the single,
well-formed chunk of the unknown type `teSt` whose 8-byte payload spells the header of an
empty `gAMA` chunk, the driver takes the payload for the next chunk header and the trailer
for the `gAMA` trailer, and returns `false`; on the signature alone it returns `true`. -/
theorem decode_png_file_unknown_chunk_not_skipped :
    dispatch [ch 't', ch 'e', ch 'S', ch 't'] chunk_kinds = .ok none ∧
      be32 0x11 0xD3 0x81 0x0F =
        crc32_standard ([ch 't', ch 'e', ch 'S', ch 't'] ++
          [0, 0, 0, 0, ch 'g', ch 'A', ch 'M', ch 'A']) ∧
      (decode_png_file no_memory_zlib 5
        (ifstream.opened (png_signature ++
          (chunk_bytes [ch 't', ch 'e', ch 'S', ch 't']
            [0, 0, 0, 0, ch 'g', ch 'A', ch 'M', ch 'A'] [0x11, 0xD3, 0x81, 0x0F] ++ [])))
        zero_properties).status = .returned false ∧
      (decode_png_file no_memory_zlib 5 (ifstream.opened (png_signature ++ []))
        zero_properties).status = .returned true := by
  refine ⟨by rfl, by decide, by decide, by decide⟩

/-- C7: for every 13-byte payload whose colour type `p9` is 0, 2, 3, 4 or 6 and every
trailer equal to the CRC-32 of `IHDR` and the payload, `parse_ihdr_chunk` returns `true`,
leaves the stream behind the trailer, and the record holds width and height as the
big-endian numbers `p0*2^24 + p1*2^16 + p2*2^8 + p3` and `p4*2^24 + p5*2^16 + p6*2^8 + p7`
(both below `2^32`, whatever the leading byte), and bit depth, colour type, compression,
filter and interlace method `p8 .. p12`. -/
theorem parse_ihdr_chunk_fields (p0 p1 p2 p3 p4 p5 p6 p7 p8 p9 p10 p11 p12 t0 t1 t2 t3 : Byte)
    (rest : List Byte) (ihdr : IHDR_t)
    (hct : p9.val = 0 ∨ p9.val = 2 ∨ p9.val = 3 ∨ p9.val = 4 ∨ p9.val = 6)
    (htrailer : be32 t0 t1 t2 t3 =
      crc32_standard ([ch 'I', ch 'H', ch 'D', ch 'R'] ++
        [p0, p1, p2, p3, p4, p5, p6, p7, p8, p9, p10, p11, p12])) :
    parse_ihdr_chunk
        (ifstream.opened ([p0, p1, p2, p3, p4, p5, p6, p7, p8, p9, p10, p11, p12] ++
          [t0, t1, t2, t3] ++ rest)) 13 ihdr =
      (.returned true, ifstream.opened rest,
        { width := p0.val * 2 ^ 24 + p1.val * 2 ^ 16 + p2.val * 2 ^ 8 + p3.val,
          height := p4.val * 2 ^ 24 + p5.val * 2 ^ 16 + p6.val * 2 ^ 8 + p7.val,
          channels := ihdr_channels p9, bit_depth := p8, color_type := p9,
          compression_method := p10, filter_method := p11, interlace_method := p12 }) ∧
      p0.val * 2 ^ 24 + p1.val * 2 ^ 16 + p2.val * 2 ^ 8 + p3.val < 2 ^ 32 ∧
      p4.val * 2 ^ 24 + p5.val * 2 ^ 16 + p6.val * 2 ^ 8 + p7.val < 2 ^ 32 := by
  have hch : ihdr_channels p9 ≠ 0 := by
    unfold ihdr_channels
    rcases hct with h | h | h | h | h <;> rw [h] <;> decide
  rw [parse_ihdr_chunk_framed, if_neg hch, decide_eq_true htrailer, be32_eq, be32_eq]
  refine ⟨rfl, ?_, ?_⟩
  · rw [← be32_eq]; exact be32_lt _ _ _ _
  · rw [← be32_eq]; exact be32_lt _ _ _ _

/-- Witness of C7: width `0x80000001`, height `0xFFFFFFFF`, bit depth 16, colour type 6,
interlaced; the checksum of the chunk is `0x4A4235BF`. -/
theorem parse_ihdr_chunk_fields_witness :
    ((6 : Byte).val = 0 ∨ (6 : Byte).val = 2 ∨ (6 : Byte).val = 3 ∨ (6 : Byte).val = 4 ∨
        (6 : Byte).val = 6) ∧
      be32 0x4A 0x42 0x35 0xBF =
        crc32_standard ([ch 'I', ch 'H', ch 'D', ch 'R'] ++
          [0x80, 0, 0, 1, 0xFF, 0xFF, 0xFF, 0xFF, 16, 6, 0, 0, 1]) ∧
      parse_ihdr_chunk
          (ifstream.opened ([0x80, 0, 0, 1, 0xFF, 0xFF, 0xFF, 0xFF, 16, 6, 0, 0, 1] ++
            [0x4A, 0x42, 0x35, 0xBF] ++ []))
          13 zero_properties.ihdr =
        (.returned true, ifstream.opened [],
          { width := 2147483649, height := 4294967295, channels := 4, bit_depth := 16,
            color_type := 6, compression_method := 0, filter_method := 0,
            interlace_method := 1 }) :=
  ⟨by decide, by decide,
    (parse_ihdr_chunk_fields 0x80 0 0 1 0xFF 0xFF 0xFF 0xFF 16 6 0 0 1 0x4A 0x42 0x35 0xBF []
      zero_properties.ihdr (by decide) (by decide)).1⟩

/-- C8: after `parse_ihdr_chunk` has read a complete 13-byte header the channel count in
the record depends on the colour-type byte `p9` only: 1 for colour type 0, 3 for 2, 1 for 3,
2 for 4, 4 for 6.  For every other colour type the reader fails, whatever the other payload
bytes and the trailer are: it stops at the assertion on the channel count and reports no
success. -/
theorem parse_ihdr_chunk_channels
    (p0 p1 p2 p3 p4 p5 p6 p7 p8 p9 p10 p11 p12 t0 t1 t2 t3 : Byte) (rest : List Byte)
    (ihdr : IHDR_t) :
    (p9.val = 0 →
      (parse_ihdr_chunk
        (ifstream.opened ([p0, p1, p2, p3, p4, p5, p6, p7, p8, p9, p10, p11, p12] ++
          [t0, t1, t2, t3] ++ rest)) 13 ihdr).2.2.channels = 1) ∧
    (p9.val = 2 →
      (parse_ihdr_chunk
        (ifstream.opened ([p0, p1, p2, p3, p4, p5, p6, p7, p8, p9, p10, p11, p12] ++
          [t0, t1, t2, t3] ++ rest)) 13 ihdr).2.2.channels = 3) ∧
    (p9.val = 3 →
      (parse_ihdr_chunk
        (ifstream.opened ([p0, p1, p2, p3, p4, p5, p6, p7, p8, p9, p10, p11, p12] ++
          [t0, t1, t2, t3] ++ rest)) 13 ihdr).2.2.channels = 1) ∧
    (p9.val = 4 →
      (parse_ihdr_chunk
        (ifstream.opened ([p0, p1, p2, p3, p4, p5, p6, p7, p8, p9, p10, p11, p12] ++
          [t0, t1, t2, t3] ++ rest)) 13 ihdr).2.2.channels = 2) ∧
    (p9.val = 6 →
      (parse_ihdr_chunk
        (ifstream.opened ([p0, p1, p2, p3, p4, p5, p6, p7, p8, p9, p10, p11, p12] ++
          [t0, t1, t2, t3] ++ rest)) 13 ihdr).2.2.channels = 4) ∧
    (p9.val ≠ 0 → p9.val ≠ 2 → p9.val ≠ 3 → p9.val ≠ 4 → p9.val ≠ 6 →
      (parse_ihdr_chunk
        (ifstream.opened ([p0, p1, p2, p3, p4, p5, p6, p7, p8, p9, p10, p11, p12] ++
          [t0, t1, t2, t3] ++ rest)) 13 ihdr).1 = .assert_failed) := by
  rw [parse_ihdr_chunk_framed]
  refine ⟨?_, ?_, ?_, ?_, ?_, ?_⟩
  · intro h; show ihdr_channels p9 = 1; unfold ihdr_channels; rw [h]
  · intro h; show ihdr_channels p9 = 3; unfold ihdr_channels; rw [h]
  · intro h; show ihdr_channels p9 = 1; unfold ihdr_channels; rw [h]
  · intro h; show ihdr_channels p9 = 2; unfold ihdr_channels; rw [h]
  · intro h; show ihdr_channels p9 = 4; unfold ihdr_channels; rw [h]
  · intro h0 h2 h3 h4 h6
    have hz : ihdr_channels p9 = 0 := by
      unfold ihdr_channels
      split <;> first | rfl | contradiction
    show (if ihdr_channels p9 = 0 then Status.assert_failed else _) = _
    rw [if_pos hz]

/-- Witness of C8: colour type 2 gives three channels; colour type 5 stops the reader even
though the trailer `0x0DA06B67` is the checksum of the chunk. -/
theorem parse_ihdr_chunk_channels_witness :
    (parse_ihdr_chunk
        (ifstream.opened ([0, 0, 0, 1, 0, 0, 0, 1, 8, 2, 0, 0, 0] ++
          [0x90, 0x77, 0x53, 0xDE] ++ [])) 13 zero_properties.ihdr).2.2.channels = 3 ∧
      (parse_ihdr_chunk
        (ifstream.opened ([0, 0, 0, 1, 0, 0, 0, 1, 8, 5, 0, 0, 0] ++
          [0x0D, 0xA0, 0x6B, 0x67] ++ [])) 13 zero_properties.ihdr).1 = .assert_failed :=
  ⟨(parse_ihdr_chunk_channels 0 0 0 1 0 0 0 1 8 2 0 0 0 0x90 0x77 0x53 0xDE []
      zero_properties.ihdr).2.1 (by decide),
    (parse_ihdr_chunk_channels 0 0 0 1 0 0 0 1 8 5 0 0 0 0x0D 0xA0 0x6B 0x67 []
      zero_properties.ihdr).2.2.2.2.2 (by decide) (by decide) (by decide) (by decide)
      (by decide)⟩

/-- C9: with a declared length other than 13 `parse_ihdr_chunk` fails at its first
statement, the assertion on the length: no byte has been read from the stream and no field
of the record has been written. -/
theorem parse_ihdr_chunk_wrong_length (stream : ifstream) (chunk_length : Nat)
    (ihdr : IHDR_t) (h : chunk_length ≠ 13) :
    parse_ihdr_chunk stream chunk_length ihdr = (.assert_failed, stream, ihdr) := by
  unfold parse_ihdr_chunk
  rw [if_pos h]

/-- Witness of C9: declared length 12 in front of the 1x1 header. -/
theorem parse_ihdr_chunk_wrong_length_witness :
    (12 : Nat) ≠ 13 ∧
      parse_ihdr_chunk
          (ifstream.opened [0, 0, 0, 1, 0, 0, 0, 1, 8, 2, 0, 0, 0, 0x90, 0x77, 0x53, 0xDE])
          12 zero_properties.ihdr =
        (.assert_failed,
          ifstream.opened [0, 0, 0, 1, 0, 0, 0, 1, 8, 2, 0, 0, 0, 0x90, 0x77, 0x53, 0xDE],
          zero_properties.ihdr) :=
  ⟨by decide, parse_ihdr_chunk_wrong_length _ 12 _ (by decide)⟩

/-- C10: on a `bKGD` chunk whose trailer is the CRC-32 of type and payload,
`parse_bkgd_chunk` with payload length 1 returns `true` with `is_indexed = true` and
`index` the payload byte; with payload length 6 it returns `true` with `is_indexed = false`
(and red, green, blue the first three payload bytes); with any other declared length it
fails, at the assertion on the length, with stream and record untouched. -/
theorem parse_bkgd_chunk_by_length (b0 b1 b2 b3 b4 b5 t0 t1 t2 t3 : Byte) (rest : List Byte)
    (bkgd_color : bKGD_t) :
    (be32 t0 t1 t2 t3 = crc32_standard ([ch 'b', ch 'K', ch 'G', ch 'D'] ++ [b0]) →
      parse_bkgd_chunk (ifstream.opened ([b0] ++ [t0, t1, t2, t3] ++ rest)) 1 bkgd_color =
        (.returned true, ifstream.opened rest,
          { bkgd_color with index := b0, is_indexed := true })) ∧
    (be32 t0 t1 t2 t3 =
        crc32_standard ([ch 'b', ch 'K', ch 'G', ch 'D'] ++ [b0, b1, b2, b3, b4, b5]) →
      parse_bkgd_chunk
          (ifstream.opened ([b0, b1, b2, b3, b4, b5] ++ [t0, t1, t2, t3] ++ rest)) 6
          bkgd_color =
        (.returned true, ifstream.opened rest,
          { bkgd_color with red := b0, green := b1, blue := b2, is_indexed := false })) ∧
    (∀ (stream : ifstream) (chunk_length : Nat), chunk_length ≠ 1 → chunk_length ≠ 6 →
      parse_bkgd_chunk stream chunk_length bkgd_color =
        (.assert_failed, stream, bkgd_color)) := by
  refine ⟨?_, ?_, ?_⟩
  · intro h
    rw [parse_bkgd_chunk_framed [b0] t0 t1 t2 t3 rest 1 rfl (Or.inl rfl), if_pos h]
    rfl
  · intro h
    rw [parse_bkgd_chunk_framed [b0, b1, b2, b3, b4, b5] t0 t1 t2 t3 rest 6 rfl (Or.inr rfl),
      if_pos h]
    rfl
  · intro stream chunk_length h1 h6
    exact parse_bkgd_chunk_assert stream chunk_length h1 h6 bkgd_color

/-- Witness of C10: palette index 7 (checksum `0x166188EB`), the six-byte colour
`00 FF 00 80 00 40` (checksum `0xA4CE26E3`), and the declared length 2. -/
theorem parse_bkgd_chunk_by_length_witness :
    parse_bkgd_chunk (ifstream.opened ([7] ++ [0x16, 0x61, 0x88, 0xEB] ++ [])) 1
        zero_properties.bkgd =
      (.returned true, ifstream.opened [],
        { zero_properties.bkgd with index := 7, is_indexed := true }) ∧
    parse_bkgd_chunk
        (ifstream.opened ([0, 0xFF, 0, 0x80, 0, 0x40] ++ [0xA4, 0xCE, 0x26, 0xE3] ++ [])) 6
        { zero_properties.bkgd with is_indexed := true } =
      (.returned true, ifstream.opened [],
        { red := 0, green := 0xFF, blue := 0, index := 0, is_indexed := false }) ∧
    parse_bkgd_chunk (ifstream.opened [7, 8, 0, 0, 0, 0]) 2 zero_properties.bkgd =
      (.assert_failed, ifstream.opened [7, 8, 0, 0, 0, 0], zero_properties.bkgd) :=
  ⟨(parse_bkgd_chunk_by_length 7 0 0 0 0 0 0x16 0x61 0x88 0xEB [] zero_properties.bkgd).1
      (by decide),
    (parse_bkgd_chunk_by_length 0 0xFF 0 0x80 0 0x40 0xA4 0xCE 0x26 0xE3 []
      { zero_properties.bkgd with is_indexed := true }).2.1 (by decide),
    (parse_bkgd_chunk_by_length 0 0 0 0 0 0 0 0 0 0 [] zero_properties.bkgd).2.2
      (ifstream.opened [7, 8, 0, 0, 0, 0]) 2 (by decide) (by decide)⟩

/-! ## Every branch on a complete frame with the correct trailer -/

theorem be32_u32_be (n : Nat) (h : n < 2 ^ 32) :
    be32 (Fin.ofNat (n / 2 ^ 24)) (Fin.ofNat (n / 2 ^ 16)) (Fin.ofNat (n / 2 ^ 8))
      (Fin.ofNat n) = n := by
  rw [be32_eq]
  have v0 : (Fin.ofNat (n / 2 ^ 24) : Byte).val = n / 2 ^ 24 % 256 := rfl
  have v1 : (Fin.ofNat (n / 2 ^ 16) : Byte).val = n / 2 ^ 16 % 256 := rfl
  have v2 : (Fin.ofNat (n / 2 ^ 8) : Byte).val = n / 2 ^ 8 % 256 := rfl
  have v3 : (Fin.ofNat n : Byte).val = n % 256 := rfl
  rw [v0, v1, v2, v3]
  omega

theorem be32_at_defined (buffer : List Byte) (i0 i1 i2 i3 : Nat) (h0 : i0 < buffer.length)
    (h1 : i1 < buffer.length) (h2 : i2 < buffer.length) (h3 : i3 < buffer.length) :
    be32_at buffer i0 i1 i2 i3 =
      some (be32 (buffer.getD i0 0) (buffer.getD i1 0) (buffer.getD i2 0)
        (buffer.getD i3 0)) := by
  unfold be32_at
  rw [List.getElem?_eq_getElem h0, List.getElem?_eq_getElem h1, List.getElem?_eq_getElem h2,
    List.getElem?_eq_getElem h3, List.getD_eq_getElem _ _ h0, List.getD_eq_getElem _ _ h1,
    List.getD_eq_getElem _ _ h2, List.getD_eq_getElem _ _ h3]

theorem be32_at_payload (p q : List Byte) (i0 i1 i2 i3 : Nat) (h0 : i0 < p.length)
    (h1 : i1 < p.length) (h2 : i2 < p.length) (h3 : i3 < p.length) :
    be32_at (p ++ q) i0 i1 i2 i3 =
      some (be32 (p.getD i0 0) (p.getD i1 0) (p.getD i2 0) (p.getD i3 0)) := by
  rw [be32_at_defined (p ++ q) i0 i1 i2 i3 (by simp; omega) (by simp; omega) (by simp; omega)
    (by simp; omega), List.getD_append _ _ _ _ h0, List.getD_append _ _ _ _ h1,
    List.getD_append _ _ _ _ h2, List.getD_append _ _ _ _ h3]

/-- The reader of `cHRM` on a complete frame. -/
theorem parse_chrm_chunk_framed (p : List Byte) (t0 t1 t2 t3 : Byte) (rest : List Byte)
    (h : p.length = 32) (chrm : cHRM_t) :
    parse_chrm_chunk (ifstream.opened (p ++ [t0, t1, t2, t3] ++ rest)) 32 chrm =
      if be32 t0 t1 t2 t3 = crc32_standard ([ch 'c', ch 'H', ch 'R', ch 'M'] ++ p) then
        (.returned true, ifstream.opened rest,
          { red_x := be32 (p.getD 0 0) (p.getD 1 0) (p.getD 2 0) (p.getD 3 0),
            red_y := be32 (p.getD 4 0) (p.getD 5 0) (p.getD 6 0) (p.getD 7 0),
            green_x := be32 (p.getD 8 0) (p.getD 9 0) (p.getD 10 0) (p.getD 11 0),
            green_y := be32 (p.getD 12 0) (p.getD 13 0) (p.getD 14 0) (p.getD 15 0),
            blue_x := be32 (p.getD 16 0) (p.getD 17 0) (p.getD 18 0) (p.getD 19 0),
            blue_y := be32 (p.getD 20 0) (p.getD 21 0) (p.getD 22 0) (p.getD 23 0),
            white_x := be32 (p.getD 24 0) (p.getD 25 0) (p.getD 26 0) (p.getD 27 0),
            white_y := be32 (p.getD 28 0) (p.getD 29 0) (p.getD 30 0) (p.getD 31 0) })
      else (.returned false, ifstream.opened rest, chrm) := by
  by_cases hc : be32 t0 t1 t2 t3 = crc32_standard ([ch 'c', ch 'H', ch 'R', ch 'M'] ++ p)
  · rw [if_pos hc]
    unfold parse_chrm_chunk
    rw [if_neg (by simp), u32_add_eq 32 4 (by norm_num),
      read_opened (p ++ [t0, t1, t2, t3]) rest (32 + 4) (by simp [h])]
    simp only
    rw [vector_filled_full _ _ (by simp [h]),
      crc_value_at_frame p t0 t1 t2 t3 32 h (by norm_num)]
    simp only
    rw [take_frame p _ 32 h, crc32_chain_u32, if_neg (not_not_intro hc.symm),
      be32_at_payload p _ 0 1 2 3 (by omega) (by omega) (by omega) (by omega),
      be32_at_payload p _ 4 5 6 7 (by omega) (by omega) (by omega) (by omega),
      be32_at_payload p _ 8 9 10 11 (by omega) (by omega) (by omega) (by omega),
      be32_at_payload p _ 12 13 14 15 (by omega) (by omega) (by omega) (by omega),
      be32_at_payload p _ 16 17 18 19 (by omega) (by omega) (by omega) (by omega),
      be32_at_payload p _ 20 21 22 23 (by omega) (by omega) (by omega) (by omega),
      be32_at_payload p _ 24 25 26 27 (by omega) (by omega) (by omega) (by omega),
      be32_at_payload p _ 28 29 30 31 (by omega) (by omega) (by omega) (by omega)]
  · rw [if_neg hc]
    exact parse_chrm_chunk_mismatch p t0 t1 t2 t3 rest h chrm hc

/-- On a complete frame with the correct trailer the branch of every kind but `IEND` ends
with a reader that returned `true`, the stream standing right behind the trailer; the
compressed payload has grown by the payload of the chunk if it is a data chunk, and is
unchanged otherwise. -/
theorem run_branch_match (z : Zlib) (zfuel : Nat) (k : ChunkKind) (p : List Byte)
    (t0 t1 t2 t3 : Byte) (rest : List Byte) (properties : png_properties_t)
    (output_file : Option (List Byte)) (hlegal : passes_assertions k p)
    (hlen : p.length + 4 < 2 ^ 32) (hk : k ≠ .IEND)
    (hcrc : be32 t0 t1 t2 t3 = crc32_standard (k.tag ++ p)) :
    ∃ properties', run_branch z zfuel k (ifstream.opened (p ++ [t0, t1, t2, t3] ++ rest))
        p.length properties output_file =
      (.returned true, ifstream.opened rest, properties', output_file) ∧
      properties'.compressed_data =
        properties.compressed_data ++ (if k = .IDAT then p else []) := by
  by_cases hp : k ≠ .IHDR ∧ k ≠ .PLTE ∧ k ≠ .IDAT ∧ k ≠ .IEND ∧ k ≠ .bKGD ∧ k ≠ .cHRM ∧
      k ≠ .pHYs
  · rw [run_branch_plain z zfuel k _ _ _ _ hp,
      framed_check_spec k.tag p t0 t1 t2 t3 rest p.length rfl hlen, decide_eq_true hcrc,
      if_neg hp.2.2.1]
    exact ⟨properties, rfl, (List.append_nil _).symm⟩
  · cases k <;> simp only [ne_eq, not_true_eq_false, reduceCtorEq, not_false_eq_true,
      and_true, true_and, and_self, and_false, false_and] at hp hk
    · -- IHDR
      simp only [ChunkKind.tag] at hcrc
      obtain ⟨h13, hch⟩ := hlegal
      obtain ⟨p0, p1, p2, p3, p4, p5, p6, p7, p8, p9, p10, p11, p12, rfl⟩ :=
        list_length_13 p h13
      have hch2 : ihdr_channels p9 ≠ 0 := hch
      rw [run_branch_ihdr, h13, parse_ihdr_chunk_framed, if_neg hch2, decide_eq_true hcrc,
        if_neg (by decide : ¬ ChunkKind.IHDR = ChunkKind.IDAT)]
      exact ⟨_, rfl, (List.append_nil _).symm⟩
    · -- PLTE
      simp only [ChunkKind.tag] at hcrc
      obtain ⟨palette', hpl⟩ := parse_plte_chunk_framed p t0 t1 t2 t3 rest p.length rfl hlegal
        hlen properties.palette
      rw [run_branch_plte, hpl, decide_eq_true hcrc, if_neg (by decide : ¬ ChunkKind.PLTE = ChunkKind.IDAT)]
      exact ⟨_, rfl, (List.append_nil _).symm⟩
    · -- IDAT
      simp only [ChunkKind.tag] at hcrc
      rw [run_branch_idat, parse_idat_chunk_framed p t0 t1 t2 t3 rest p.length rfl hlegal hlen,
        decide_eq_true hcrc, if_pos rfl]
      exact ⟨_, rfl, rfl⟩
    · -- bKGD
      simp only [ChunkKind.tag] at hcrc
      have hne : ¬ ChunkKind.bKGD = ChunkKind.IDAT := by decide
      rw [run_branch_bkgd, parse_bkgd_chunk_framed p t0 t1 t2 t3 rest p.length rfl hlegal,
        if_pos hcrc, if_neg hne]
      by_cases h1 : p.length = 1
      · rw [if_pos h1]
        exact ⟨_, rfl, (List.append_nil _).symm⟩
      · rw [if_neg h1]
        exact ⟨_, rfl, (List.append_nil _).symm⟩
    · -- cHRM
      simp only [ChunkKind.tag] at hcrc
      have h32 : p.length = 32 := hlegal
      rw [run_branch_chrm, h32, parse_chrm_chunk_framed p t0 t1 t2 t3 rest h32, if_pos hcrc,
        if_neg (by decide : ¬ ChunkKind.cHRM = ChunkKind.IDAT)]
      exact ⟨_, rfl, (List.append_nil _).symm⟩
    · -- pHYs
      simp only [ChunkKind.tag] at hcrc
      have h9 : p.length = 9 := hlegal
      obtain ⟨p0, p1, p2, p3, p4, p5, p6, p7, p8, rfl⟩ := list_length_9 p h9
      rw [run_branch_phys, h9, parse_phys_chunk_framed, decide_eq_true hcrc, if_neg (by decide : ¬ ChunkKind.pHYs = ChunkKind.IDAT)]
      exact ⟨_, rfl, (List.append_nil _).symm⟩

/-- The branch of `IEND` on a frame with the correct trailer: the reader returns `true`, the
accumulated payload is decompressed and the result written to the output file. -/
theorem run_branch_iend_match (z : Zlib) (zfuel : Nat) (t0 t1 t2 t3 : Byte)
    (rest : List Byte) (properties : png_properties_t) (output_file : Option (List Byte))
    (hcrc : be32 t0 t1 t2 t3 = crc32_standard [ch 'I', ch 'E', ch 'N', ch 'D']) :
    run_branch z zfuel .IEND (ifstream.opened ([t0, t1, t2, t3] ++ rest)) 0 properties
        output_file =
      match decompress_idat_data z zfuel properties.compressed_data with
      | none => (.out_of_fuel, ifstream.opened rest, properties, output_file)
      | some decompressed_data =>
        (.returned true, ifstream.opened rest, properties, some decompressed_data) := by
  rw [run_branch_iend, parse_iend_chunk_framed, decide_eq_true hcrc, if_pos rfl]

/-- The frame of a chunk with the correct trailer. -/
theorem chunk_bytes_frame (c : Chunk) (rest : List Byte) :
    ∃ t0 t1 t2 t3 : Byte,
      c.bytes ++ rest =
        u32_be c.payload.length ++ (c.kind.tag ++ (c.payload ++ [t0, t1, t2, t3] ++ rest)) ∧
      be32 t0 t1 t2 t3 = crc32_standard (c.kind.tag ++ c.payload) := by
  refine ⟨Fin.ofNat (crc32_standard (c.kind.tag ++ c.payload) / 2 ^ 24),
    Fin.ofNat (crc32_standard (c.kind.tag ++ c.payload) / 2 ^ 16),
    Fin.ofNat (crc32_standard (c.kind.tag ++ c.payload) / 2 ^ 8),
    Fin.ofNat (crc32_standard (c.kind.tag ++ c.payload)), ?_, ?_⟩
  · simp [Chunk.bytes, chunk_bytes, u32_be]
  · exact be32_u32_be _ (crc32_standard_lt _)

/-! ## The driver on a sequence of chunks -/

/-- With fewer than four bytes left where a chunk length is expected the loop ends and the
function returns `true`. -/
theorem decode_loop_end (z : Zlib) (zfuel fuel : Nat) (tail : List Byte)
    (properties : png_properties_t) (output_file : Option (List Byte))
    (h : tail.length < 4) :
    decode_loop z zfuel (fuel + 1) (ifstream.opened tail) properties output_file =
      ⟨.returned true, ⟨[], true, true⟩, properties, output_file⟩ := by
  have hr : (ifstream.opened tail).read 4 = (tail, ⟨[], true, true⟩) := by
    simp [ifstream.read, ifstream.opened, Nat.not_le.mpr h]
  rw [decode_loop, hr]
  rfl

/-- The loop on a sequence of well-formed chunks with correct trailers: it arrives behind
the last chunk with the compressed payload grown by the payloads of the data chunks, in
order.  Where the sequence holds an `IEND` chunk the decompression it triggers has to come
to an end within the fuel. -/
theorem decode_loop_chunks (z : Zlib) (zfuel : Nat) (cs : List Chunk)
    (hwf : ∀ c ∈ cs, c.well_formed)
    (hz : (∀ c ∈ cs, c.kind ≠ .IEND) ∨ ∀ d, decompress_idat_data z zfuel d ≠ none)
    (fuel : Nat) (rest : List Byte) (properties : png_properties_t)
    (output_file : Option (List Byte)) :
    ∃ properties' output_file',
      decode_loop z zfuel (fuel + cs.length) (ifstream.opened (chunks_bytes cs ++ rest))
          properties output_file =
        decode_loop z zfuel fuel (ifstream.opened rest) properties' output_file' ∧
      properties'.compressed_data = properties.compressed_data ++ idat_payloads cs ∧
      ((∀ c ∈ cs, c.kind ≠ .IEND) → output_file' = output_file) := by
  induction cs generalizing properties output_file with
  | nil =>
    refine ⟨properties, output_file, rfl, ?_, fun _ => rfl⟩
    simp [idat_payloads]
  | cons c cs ih =>
    have hwfc : c.well_formed := hwf c (List.mem_cons_self _ _)
    have hwfs : ∀ c' ∈ cs, c'.well_formed := fun c' h => hwf c' (List.mem_cons_of_mem _ h)
    have hzs : (∀ c' ∈ cs, c'.kind ≠ .IEND) ∨ ∀ d, decompress_idat_data z zfuel d ≠ none := by
      rcases hz with h | h
      · exact Or.inl (fun c' hc' => h c' (List.mem_cons_of_mem _ hc'))
      · exact Or.inr h
    obtain ⟨t0, t1, t2, t3, hbytes, hcrc⟩ := chunk_bytes_frame c (chunks_bytes cs ++ rest)
    have hshape : chunks_bytes (c :: cs) ++ rest = c.bytes ++ (chunks_bytes cs ++ rest) := by
      simp [chunks_bytes]
    have hfuel : fuel + (c :: cs).length = (fuel + cs.length) + 1 := by
      simp [Nat.add_assoc]
    rw [hshape, hbytes, hfuel,
      decode_loop_chunk z zfuel (fuel + cs.length) properties output_file c.kind
        c.payload.length (by have := hwfc.2; omega)]
    by_cases hk : c.kind = .IEND
    · obtain ⟨k, p⟩ := c
      simp only at hk hcrc hwfc ⊢
      subst hk
      have hp : p = [] := List.length_eq_zero.mp hwfc.1
      subst hp
      have hdec : ∀ d, decompress_idat_data z zfuel d ≠ none := by
        rcases hz with h | h
        · exact absurd rfl (h ⟨.IEND, []⟩ (List.mem_cons_self _ _))
        · exact h
      have hcrc2 : be32 t0 t1 t2 t3 = crc32_standard [ch 'I', ch 'E', ch 'N', ch 'D'] := by
        simpa [ChunkKind.tag] using hcrc
      rw [List.nil_append, List.length_nil, run_branch_iend_match z zfuel t0 t1 t2 t3 _ _ _ hcrc2]
      cases hd : decompress_idat_data z zfuel properties.compressed_data with
      | none => exact absurd hd (hdec _)
      | some d =>
        simp only
        rw [if_pos trivial]
        obtain ⟨properties', output_file', heq, hcd, _⟩ := ih hwfs hzs properties (some d)
        refine ⟨properties', output_file', heq, ?_, ?_⟩
        · rw [hcd]; simp [idat_payloads]
        · intro hno
          exact absurd rfl (hno ⟨.IEND, []⟩ (List.mem_cons_self _ _))
    · obtain ⟨properties₁, hrun, hcd₁⟩ := run_branch_match z zfuel c.kind c.payload t0 t1 t2 t3
        (chunks_bytes cs ++ rest) properties output_file hwfc.1 hwfc.2 hk hcrc
      rw [hrun]
      simp only
      rw [if_pos trivial]
      obtain ⟨properties', output_file', heq, hcd, hout⟩ := ih hwfs hzs properties₁ output_file
      refine ⟨properties', output_file', heq, ?_, ?_⟩
      · rw [hcd, hcd₁]; simp [idat_payloads]
      · intro hno
        exact hout (fun c' hc' => hno c' (List.mem_cons_of_mem _ hc'))

/-! ## The field `decompressed_data` is never written -/

theorem run_branch_decompressed_data (z : Zlib) (zfuel : Nat) (k : ChunkKind)
    (stream : ifstream) (n : Nat) (properties : png_properties_t)
    (output_file : Option (List Byte)) :
    (run_branch z zfuel k stream n properties output_file).2.2.1.decompressed_data =
      properties.decompressed_data := by
  cases k
  case IEND =>
    rw [run_branch_iend]
    split
    · split <;> rfl
    · rfl
  all_goals rfl

theorem decode_loop_decompressed_data (z : Zlib) (zfuel fuel : Nat) (stream : ifstream)
    (properties : png_properties_t) (output_file : Option (List Byte)) :
    (decode_loop z zfuel fuel stream properties output_file).properties.decompressed_data =
      properties.decompressed_data := by
  induction fuel generalizing stream properties output_file with
  | zero => rfl
  | succ fuel ih =>
    rw [decode_loop]
    simp only
    split
    · rfl
    · split
      · rfl
      · split
        · rfl
        · exact ih _ _ _
        · rename_i kind _
          rename_i chunk_length _ _ _
          have hb := run_branch_decompressed_data z zfuel kind
            ((stream.read 4).2.read 4).2 chunk_length properties output_file
          split
          · rw [ih]; exact hb
          · exact hb

theorem decode_png_file_decompressed_data (z : Zlib) (fuel : Nat) (stream : ifstream)
    (properties : png_properties_t) :
    (decode_png_file z fuel stream properties).properties.decompressed_data =
      properties.decompressed_data := by
  unfold decode_png_file
  simp only
  split
  · rfl
  · exact decode_loop_decompressed_data _ _ _ _ _ _

/-! ## The inflate loop against the streaming contract -/

/-- The inflate loop under the streaming contract, as long as the whole output has at most
`2^32` bytes: from a state with `r` still to come it ends with `Z_STREAM_END` and all of the
output, whatever the buffer size it starts from. -/
theorem inflate_loop_delivers (z : Zlib) (R : z.State → List Byte → Prop)
    (hR : ∀ (s : z.State) (r : List Byte) (n : Nat), R s r →
      (r.length ≤ n → (z.inflate s n).1 = .Z_STREAM_END ∧ (z.inflate s n).2.2 = r) ∧
      (n < r.length → n = 0 →
        (z.inflate s n).1 = .Z_BUF_ERROR ∧ (z.inflate s n).2.2 = [] ∧
          R (z.inflate s n).2.1 r) ∧
      (n < r.length → 0 < n →
        (z.inflate s n).1 = .Z_OK ∧ (z.inflate s n).2.2 = r.take n ∧
          R (z.inflate s n).2.1 (r.drop n)))
    (fuel : Nat) (s : z.State) (size : Nat) (out r : List Byte) (hs : R s r)
    (hsize : 0 < size) (hout : out.length ≤ size) (hdiff : size - out.length < 2 ^ 32)
    (htotal : out.length + r.length ≤ 2 ^ 32)
    (hfuel : 2 * r.length + (if out.length = size then 1 else 0) < fuel) :
    inflate_loop z fuel s size out = some (.Z_STREAM_END, out ++ r) := by
  induction fuel generalizing s size out r with
  | zero => omega
  | succ fuel ih =>
    rw [inflate_loop, Nat.mod_eq_of_lt hdiff]
    obtain ⟨hend, hbuf, hok⟩ := hR s r (size - out.length) hs
    cases hi : z.inflate s (size - out.length) with
    | mk ret rest1 =>
      cases rest1 with
      | mk s' stored =>
        rw [hi] at hend hbuf hok
        simp only at hend hbuf hok ⊢
        by_cases h1 : r.length ≤ size - out.length
        · obtain ⟨hret, hst⟩ := hend h1
          subst hret hst
          simp
        · have hlt : size - out.length < r.length := Nat.lt_of_not_le h1
          by_cases h0 : size - out.length = 0
          · obtain ⟨hret, hst, hs'⟩ := hbuf hlt h0
            subst hret hst
            have hfull : out.length = size := by omega
            simp only [if_true, ne_eq, reduceCtorEq, not_false_eq_true, and_self,
              List.append_nil]
            apply ih s' (size * 2) out r hs' (by omega) (by omega) (by omega) htotal
            rw [if_neg (by omega)]
            rw [if_pos hfull] at hfuel
            omega
          · obtain ⟨hret, hst, hs'⟩ := hok hlt (Nat.pos_of_ne_zero h0)
            subst hret hst
            simp only [reduceCtorEq, if_false, ne_eq, not_false_eq_true, and_self, if_true]
            have hlen : (out ++ List.take (size - out.length) r).length = size := by
              rw [List.length_append, List.length_take, Nat.min_eq_left (Nat.le_of_lt hlt)]
              omega
            have hdrop : (List.drop (size - out.length) r).length =
                r.length - (size - out.length) := List.length_drop _ _
            have := ih s' size (out ++ List.take (size - out.length) r)
              (List.drop (size - out.length) r) hs' hsize (by omega) (by omega)
              (by rw [hlen, hdrop]; omega)
              (by rw [hlen, hdrop, if_pos rfl]; split at hfuel <;> omega)
            rw [this, List.append_assoc, List.take_append_drop]

/-- The round trip of `decompress_idat_data` under the streaming contract, for a compressed
input of fewer than `2^32` bytes and an output of at most `2^32` bytes. -/
theorem decompress_idat_data_round_trip (z : Zlib) (c b : List Byte) (hz : z.inflates c b)
    (hc : c.length < 2 ^ 32) (hb : b.length ≤ 2 ^ 32) (fuel : Nat)
    (hfuel : 2 * b.length + 2 ≤ fuel) :
    decompress_idat_data z fuel c = some b := by
  obtain ⟨R, hinit, hs, hR⟩ := hz
  unfold decompress_idat_data
  rw [Nat.mod_eq_of_lt hc]
  simp only
  rw [List.take_length]
  have hne : ¬ (z.inflateInit c).1 ≠ ZRet.Z_OK := not_not_intro hinit
  rw [if_neg hne,
    inflate_loop_delivers z R hR fuel (z.inflateInit c).2 (1024 * 1024) [] b hs (by norm_num)
      (by simp) (by simp) (by simpa using hb) (by simp; omega)]
  simp

/-- An inflater built from a decoder meets the streaming contract on every input the decoder
accepts. -/
theorem of_decoder_inflates (decode : List Byte → Option (List Byte)) (c b : List Byte)
    (h : decode c = some b) : (Zlib.of_decoder decode).inflates c b := by
  refine ⟨fun s r => s = some r, rfl, h, ?_⟩
  intro s r n hs
  subst hs
  refine ⟨?_, ?_, ?_⟩
  · intro hle
    simp [Zlib.of_decoder, hle]
  · intro hlt h0
    subst h0
    have : ¬ r.length ≤ 0 := Nat.not_le.mpr hlt
    simp [Zlib.of_decoder, this]
  · intro hlt h0
    have h1 : ¬ r.length ≤ n := Nat.not_le.mpr hlt
    have h2 : ¬ n = 0 := Nat.pos_iff_ne_zero.mp h0
    simp [Zlib.of_decoder, h1, h2]

/-- Once the free space `size - total_out` is a multiple of `2^32` while the output written
is one too, the 32-bit `avail_out` is zero in every call: the loop doubles the buffer for
ever. -/
theorem inflate_loop_stuck (z : Zlib) (R : z.State → List Byte → Prop)
    (hR : ∀ (s : z.State) (r : List Byte) (n : Nat), R s r →
      (r.length ≤ n → (z.inflate s n).1 = .Z_STREAM_END ∧ (z.inflate s n).2.2 = r) ∧
      (n < r.length → n = 0 →
        (z.inflate s n).1 = .Z_BUF_ERROR ∧ (z.inflate s n).2.2 = [] ∧
          R (z.inflate s n).2.1 r) ∧
      (n < r.length → 0 < n →
        (z.inflate s n).1 = .Z_OK ∧ (z.inflate s n).2.2 = r.take n ∧
          R (z.inflate s n).2.1 (r.drop n)))
    (fuel : Nat) (s : z.State) (size : Nat) (out r : List Byte) (hs : R s r)
    (hr : 0 < r.length) (hout : out.length ≤ size)
    (h1 : (size - out.length) % 2 ^ 32 = 0) (h2 : out.length % 2 ^ 32 = 0) :
    inflate_loop z fuel s size out = none := by
  induction fuel generalizing s size with
  | zero => rfl
  | succ fuel ih =>
    rw [inflate_loop, h1]
    obtain ⟨_, hbuf, _⟩ := hR s r 0 hs
    obtain ⟨hret, hst, hs'⟩ := hbuf hr rfl
    cases hi : z.inflate s 0 with
    | mk ret rest1 =>
      cases rest1 with
      | mk s' stored =>
        rw [hi] at hret hst hs'
        simp only at hret hst hs' ⊢
        subst hret hst
        simp only [if_true, ne_eq, reduceCtorEq, not_false_eq_true, and_self,
          List.append_nil]
        exact ih s' (size * 2) hs' (by omega) (by omega)

/-- When the output has more than `2^32` bytes the loop never sees `Z_STREAM_END`: the buffer
grows through the powers of two up to `2^32`, is filled, and from then on the loop is
stuck. -/
theorem inflate_loop_never_ends (z : Zlib) (R : z.State → List Byte → Prop)
    (hR : ∀ (s : z.State) (r : List Byte) (n : Nat), R s r →
      (r.length ≤ n → (z.inflate s n).1 = .Z_STREAM_END ∧ (z.inflate s n).2.2 = r) ∧
      (n < r.length → n = 0 →
        (z.inflate s n).1 = .Z_BUF_ERROR ∧ (z.inflate s n).2.2 = [] ∧
          R (z.inflate s n).2.1 r) ∧
      (n < r.length → 0 < n →
        (z.inflate s n).1 = .Z_OK ∧ (z.inflate s n).2.2 = r.take n ∧
          R (z.inflate s n).2.1 (r.drop n)))
    (fuel : Nat) (s : z.State) (size : Nat) (out r : List Byte) (hs : R s r)
    (k : Nat) (hk : size = 2 ^ k) (hk32 : k ≤ 32) (hout : out.length ≤ size)
    (hdiff : size - out.length < 2 ^ 32) (htotal : 2 ^ 32 < out.length + r.length) :
    inflate_loop z fuel s size out = none := by
  induction fuel generalizing s size out r k with
  | zero => rfl
  | succ fuel ih =>
    have hsize32 : size ≤ 2 ^ 32 := by
      rw [hk]; exact Nat.pow_le_pow_right (by norm_num) hk32
    rw [inflate_loop, Nat.mod_eq_of_lt hdiff]
    obtain ⟨_, hbuf, hok⟩ := hR s r (size - out.length) hs
    have hlt : size - out.length < r.length := by omega
    cases hi : z.inflate s (size - out.length) with
    | mk ret rest1 =>
      cases rest1 with
      | mk s' stored =>
        rw [hi] at hbuf hok
        simp only at hbuf hok ⊢
        by_cases h0 : size - out.length = 0
        · obtain ⟨hret, hst, hs'⟩ := hbuf hlt h0
          subst hret hst
          have hfull : out.length = size := by omega
          simp only [if_true, ne_eq, reduceCtorEq, not_false_eq_true, and_self,
            List.append_nil]
          by_cases hk31 : k < 32
          · have h31 : size ≤ 2 ^ 31 := by
              rw [hk]; exact Nat.pow_le_pow_right (by norm_num) (by omega)
            exact ih s' (size * 2) out r hs' (k + 1) (by rw [hk, Nat.pow_succ]) (by omega)
              (by omega) (by omega) htotal
          · have hk' : k = 32 := by omega
            subst hk'
            exact inflate_loop_stuck z R hR fuel s' (size * 2) out r hs' (by omega) (by omega)
              (by omega) (by omega)
        · obtain ⟨hret, hst, hs'⟩ := hok hlt (Nat.pos_of_ne_zero h0)
          subst hret hst
          simp only [reduceCtorEq, if_false, ne_eq, not_false_eq_true, and_self, if_true]
          have hlen : (out ++ List.take (size - out.length) r).length = size := by
            rw [List.length_append, List.length_take, Nat.min_eq_left (Nat.le_of_lt hlt)]
            omega
          have hdrop : (List.drop (size - out.length) r).length =
              r.length - (size - out.length) := List.length_drop _ _
          exact ih s' size (out ++ List.take (size - out.length) r)
            (List.drop (size - out.length) r) hs' k hk hk32 (by omega) (by omega)
            (by rw [hlen, hdrop]; omega)

/-- On an output of more than `2^32` bytes `decompress_idat_data` does not return, however
much fuel it is given. -/
theorem decompress_idat_data_never_ends (z : Zlib) (c b : List Byte) (hz : z.inflates c b)
    (hc : c.length < 2 ^ 32) (hb : 2 ^ 32 < b.length) (fuel : Nat) :
    decompress_idat_data z fuel c = none := by
  obtain ⟨R, hinit, hs, hR⟩ := hz
  unfold decompress_idat_data
  rw [Nat.mod_eq_of_lt hc]
  simp only
  rw [List.take_length]
  have hne : ¬ (z.inflateInit c).1 ≠ ZRet.Z_OK := not_not_intro hinit
  rw [if_neg hne,
    inflate_loop_never_ends z R hR fuel (z.inflateInit c).2 (1024 * 1024) [] b hs 20
      (by norm_num) (by norm_num) (by simp) (by simp) (by simpa using hb)]

/-! ## The claims on chunk sequences, the terminal chunk and the decompression -/

/-- The driver on the signature, a sequence of well-formed chunks with correct trailers and
fewer than four further bytes. -/
theorem decode_png_file_chunks (z : Zlib) (fuel : Nat) (cs : List Chunk) (tail : List Byte)
    (properties : png_properties_t) (hwf : ∀ c ∈ cs, c.well_formed)
    (hz : (∀ c ∈ cs, c.kind ≠ .IEND) ∨ ∀ d, decompress_idat_data z fuel d ≠ none)
    (htail : tail.length < 4) (hfuel : cs.length < fuel) :
    ∃ properties' output_file',
      decode_png_file z fuel (ifstream.opened (png_signature ++ (chunks_bytes cs ++ tail)))
          properties =
        ⟨.returned true, ⟨[], true, true⟩, properties', output_file'⟩ ∧
      properties'.compressed_data = properties.compressed_data ++ idat_payloads cs ∧
      ((∀ c ∈ cs, c.kind ≠ .IEND) → output_file' = none) := by
  obtain ⟨m, hm⟩ : ∃ m, fuel = (m + 1) + cs.length := ⟨fuel - cs.length - 1, by omega⟩
  obtain ⟨properties', output_file', heq, hcd, hout⟩ :=
    decode_loop_chunks z fuel cs hwf hz (m + 1) tail properties none
  refine ⟨properties', output_file', ?_, hcd, hout⟩
  rw [← hm] at heq
  rw [decode_png_file_signature, heq,
    decode_loop_end z fuel m tail properties' output_file' htail]

/-- The loop on a sequence of well-formed chunks with correct trailers, terminal chunks
included: it arrives behind the last chunk with the compressed payload grown by the payloads
of the data chunks, in order.  At each `IEND` chunk of the sequence the driver decompresses
the payload accumulated up to there; that decompression has to come to an end within the
fuel. -/
theorem decode_loop_chunks_terminal (z : Zlib) (zfuel : Nat) (cs : List Chunk)
    (hwf : ∀ c ∈ cs, c.well_formed) (fuel : Nat) (rest : List Byte)
    (properties : png_properties_t) (output_file : Option (List Byte))
    (hz : ∀ pre c post, cs = pre ++ c :: post → c.kind = .IEND →
      decompress_idat_data z zfuel (properties.compressed_data ++ idat_payloads pre) ≠ none) :
    ∃ properties' output_file',
      decode_loop z zfuel (fuel + cs.length) (ifstream.opened (chunks_bytes cs ++ rest))
          properties output_file =
        decode_loop z zfuel fuel (ifstream.opened rest) properties' output_file' ∧
      properties'.compressed_data = properties.compressed_data ++ idat_payloads cs := by
  induction cs generalizing properties output_file with
  | nil =>
    refine ⟨properties, output_file, rfl, ?_⟩
    simp [idat_payloads]
  | cons c cs ih =>
    have hwfc : c.well_formed := hwf c (List.mem_cons_self _ _)
    have hwfs : ∀ c' ∈ cs, c'.well_formed := fun c' h => hwf c' (List.mem_cons_of_mem _ h)
    obtain ⟨t0, t1, t2, t3, hbytes, hcrc⟩ := chunk_bytes_frame c (chunks_bytes cs ++ rest)
    have hshape : chunks_bytes (c :: cs) ++ rest = c.bytes ++ (chunks_bytes cs ++ rest) := by
      simp [chunks_bytes]
    have hfuel : fuel + (c :: cs).length = (fuel + cs.length) + 1 := by
      simp [Nat.add_assoc]
    have hzs : ∀ (properties₁ : png_properties_t),
        properties₁.compressed_data =
          properties.compressed_data ++ (if c.kind = .IDAT then c.payload else []) →
        ∀ pre c' post, cs = pre ++ c' :: post → c'.kind = .IEND →
          decompress_idat_data z zfuel (properties₁.compressed_data ++ idat_payloads pre) ≠
            none := by
      intro properties₁ h₁ pre c' post hsplit hk'
      have := hz (c :: pre) c' post (by rw [hsplit]; rfl) hk'
      rw [h₁, List.append_assoc]
      exact this
    rw [hshape, hbytes, hfuel,
      decode_loop_chunk z zfuel (fuel + cs.length) properties output_file c.kind
        c.payload.length (by have := hwfc.2; omega)]
    by_cases hk : c.kind = .IEND
    · have hdec : decompress_idat_data z zfuel properties.compressed_data ≠ none := by
        have := hz [] c cs rfl hk
        rw [show idat_payloads [] = [] from rfl, List.append_nil] at this
        exact this
      have hnot : ¬ c.kind = .IDAT := by rw [hk]; decide
      obtain ⟨k, p⟩ := c
      simp only at hk hcrc hwfc hzs hnot ⊢
      subst hk
      have hp : p = [] := List.length_eq_zero.mp hwfc.1
      subst hp
      have hcrc2 : be32 t0 t1 t2 t3 = crc32_standard [ch 'I', ch 'E', ch 'N', ch 'D'] := by
        simpa [ChunkKind.tag] using hcrc
      rw [List.nil_append, List.length_nil, run_branch_iend_match z zfuel t0 t1 t2 t3 _ _ _ hcrc2]
      cases hd : decompress_idat_data z zfuel properties.compressed_data with
      | none => exact absurd hd hdec
      | some d =>
        simp only
        rw [if_pos trivial]
        obtain ⟨properties', output_file', heq, hcd⟩ :=
          ih hwfs properties (some d) (hzs properties (by simp))
        refine ⟨properties', output_file', heq, ?_⟩
        rw [hcd]; simp [idat_payloads]
    · obtain ⟨properties₁, hrun, hcd₁⟩ := run_branch_match z zfuel c.kind c.payload t0 t1 t2 t3
        (chunks_bytes cs ++ rest) properties output_file hwfc.1 hwfc.2 hk hcrc
      rw [hrun]
      simp only
      rw [if_pos trivial]
      obtain ⟨properties', output_file', heq, hcd⟩ :=
        ih hwfs properties₁ output_file (hzs properties₁ hcd₁)
      refine ⟨properties', output_file', heq, ?_⟩
      rw [hcd, hcd₁]; simp [idat_payloads]

/-- The driver on the signature, a sequence of well-formed chunks with correct trailers,
terminal chunks included, and fewer than four further bytes. -/
theorem decode_png_file_chunks_terminal (z : Zlib) (fuel : Nat) (cs : List Chunk)
    (tail : List Byte) (properties : png_properties_t) (hwf : ∀ c ∈ cs, c.well_formed)
    (hz : ∀ pre c post, cs = pre ++ c :: post → c.kind = .IEND →
      decompress_idat_data z fuel (properties.compressed_data ++ idat_payloads pre) ≠ none)
    (htail : tail.length < 4) (hfuel : cs.length < fuel) :
    ∃ properties' output_file',
      decode_png_file z fuel (ifstream.opened (png_signature ++ (chunks_bytes cs ++ tail)))
          properties =
        ⟨.returned true, ⟨[], true, true⟩, properties', output_file'⟩ ∧
      properties'.compressed_data = properties.compressed_data ++ idat_payloads cs := by
  obtain ⟨m, hm⟩ : ∃ m, fuel = (m + 1) + cs.length := ⟨fuel - cs.length - 1, by omega⟩
  obtain ⟨properties', output_file', heq, hcd⟩ :=
    decode_loop_chunks_terminal z fuel cs hwf (m + 1) tail properties none hz
  refine ⟨properties', output_file', ?_, hcd⟩
  rw [← hm] at heq
  rw [decode_png_file_signature, heq,
    decode_loop_end z fuel m tail properties' output_file' htail]

/-- C11: on the signature followed by any sequence of well-formed chunks with correct
trailers (data chunks with non-empty payloads, in any interleaving with chunks of the other
kinds, terminal chunks included) and then the end of the input, `decode_png_file` returns
`true` and the compressed payload is its initial content followed by the payloads of the
data chunks in stream order.  Each call of `parse_idat_chunk` that returns `true` on a
complete frame has appended exactly the `length` payload bytes, none of the four trailer
bytes, and left the stream behind the trailer.  The one condition on the inflater is about
the payloads that are in fact decompressed: at each terminal chunk of the sequence, the
decompression of the payload accumulated up to that chunk comes to an end within the
fuel. -/
theorem compressed_payload_accumulates (z : Zlib) (fuel : Nat) (cs : List Chunk)
    (tail : List Byte) (properties : png_properties_t) (hwf : ∀ c ∈ cs, c.well_formed)
    (hz : ∀ pre c post, cs = pre ++ c :: post → c.kind = .IEND →
      decompress_idat_data z fuel (properties.compressed_data ++ idat_payloads pre) ≠ none)
    (htail : tail.length < 4) (hfuel : cs.length < fuel) :
    (decode_png_file z fuel (ifstream.opened (png_signature ++ (chunks_bytes cs ++ tail)))
        properties).status = .returned true ∧
      (decode_png_file z fuel (ifstream.opened (png_signature ++ (chunks_bytes cs ++ tail)))
        properties).properties.compressed_data =
          properties.compressed_data ++ idat_payloads cs ∧
      (∀ (p : List Byte) (t0 t1 t2 t3 : Byte) (rest compressed_data : List Byte),
        0 < p.length → p.length + 4 < 2 ^ 32 →
        (parse_idat_chunk (ifstream.opened (p ++ [t0, t1, t2, t3] ++ rest)) p.length
          compressed_data).1 = .returned true →
        parse_idat_chunk (ifstream.opened (p ++ [t0, t1, t2, t3] ++ rest)) p.length
            compressed_data =
          (.returned true, ifstream.opened rest, compressed_data ++ p)) := by
  obtain ⟨properties', output_file', heq, hcd⟩ :=
    decode_png_file_chunks_terminal z fuel cs tail properties hwf hz htail hfuel
  rw [heq]
  refine ⟨rfl, hcd, ?_⟩
  intro p t0 t1 t2 t3 rest compressed_data hpos hlen hacc
  rw [parse_idat_chunk_framed p t0 t1 t2 t3 rest p.length rfl hpos hlen] at hacc ⊢
  have hd : decide (be32 t0 t1 t2 t3 =
      crc32_standard ([ch 'I', ch 'D', ch 'A', ch 'T'] ++ p)) = true := by
    simpa using hacc
  rw [hd]

/-- Witness of C11: the header of the 1x1 image, the zlib stream of the byte `0xFF` split
over two data chunks with a `gAMA` chunk between them, the terminal chunk, and one stray
byte, decoded with the inflater for stored blocks.  The compressed payload is the whole
stream, and the decompression at the terminal chunk returns. -/
theorem compressed_payload_accumulates_witness :
    decompress_idat_data stored_inflater 6 zlib_of_ff = some [0xFF] ∧
      (decode_png_file stored_inflater 6
        (ifstream.opened (png_signature ++
          (chunks_bytes [⟨.IHDR, [0, 0, 0, 1, 0, 0, 0, 1, 8, 2, 0, 0, 0]⟩,
            ⟨.IDAT, [0x78, 0x01, 0x01, 0x01, 0x00]⟩, ⟨.gAMA, [0, 0, 0xB1, 0x8F]⟩,
            ⟨.IDAT, [0xFE, 0xFF, 0xFF, 0x01, 0x00, 0x01, 0x00]⟩, ⟨.IEND, []⟩] ++ [0])))
        zero_properties).status = .returned true ∧
      (decode_png_file stored_inflater 6
        (ifstream.opened (png_signature ++
          (chunks_bytes [⟨.IHDR, [0, 0, 0, 1, 0, 0, 0, 1, 8, 2, 0, 0, 0]⟩,
            ⟨.IDAT, [0x78, 0x01, 0x01, 0x01, 0x00]⟩, ⟨.gAMA, [0, 0, 0xB1, 0x8F]⟩,
            ⟨.IDAT, [0xFE, 0xFF, 0xFF, 0x01, 0x00, 0x01, 0x00]⟩, ⟨.IEND, []⟩] ++ [0])))
        zero_properties).properties.compressed_data = zlib_of_ff := by
  have h := compressed_payload_accumulates stored_inflater 6
    [⟨.IHDR, [0, 0, 0, 1, 0, 0, 0, 1, 8, 2, 0, 0, 0]⟩,
      ⟨.IDAT, [0x78, 0x01, 0x01, 0x01, 0x00]⟩, ⟨.gAMA, [0, 0, 0xB1, 0x8F]⟩,
      ⟨.IDAT, [0xFE, 0xFF, 0xFF, 0x01, 0x00, 0x01, 0x00]⟩, ⟨.IEND, []⟩] [0] zero_properties
    (by
      intro c hc
      simp only [List.mem_cons, List.mem_singleton, List.not_mem_nil, or_false] at hc
      rcases hc with rfl | rfl | rfl | rfl | rfl
      · exact ⟨⟨rfl, by decide⟩, by decide⟩
      · exact ⟨show 0 < ([0x78, 0x01, 0x01, 0x01, 0x00] : List Byte).length by decide,
          by decide⟩
      · exact ⟨trivial, by decide⟩
      · exact ⟨show 0 < ([0xFE, 0xFF, 0xFF, 0x01, 0x00, 0x01, 0x00] : List Byte).length
          by decide, by decide⟩
      · exact ⟨show ([] : List Byte).length = 0 from rfl, by decide⟩)
    (by
      intro pre c post hsplit hk
      rcases pre with _ | ⟨a0, _ | ⟨a1, _ | ⟨a2, _ | ⟨a3, _ | ⟨a4, _ | ⟨a5, pre⟩⟩⟩⟩⟩⟩ <;>
        simp only [List.nil_append, List.cons_append, List.cons.injEq] at hsplit
      · obtain ⟨rfl, _⟩ := hsplit
        exact absurd hk (by decide)
      · obtain ⟨_, rfl, _⟩ := hsplit
        exact absurd hk (by decide)
      · obtain ⟨_, _, rfl, _⟩ := hsplit
        exact absurd hk (by decide)
      · obtain ⟨_, _, _, rfl, _⟩ := hsplit
        exact absurd hk (by decide)
      · obtain ⟨rfl, rfl, rfl, rfl, _, _⟩ := hsplit
        decide
      · obtain ⟨_, _, _, _, _, h⟩ := hsplit
        exact absurd h (by simp)
      · obtain ⟨_, _, _, _, _, h⟩ := hsplit
        exact absurd h (by simp))
    (by decide) (by decide)
  exact ⟨by decide, h.1, h.2.1⟩

/-- C12 (as stated, refuted): with declared length 0 and the trailer `35 AF 06 1E`, the
CRC-32 of `IDAT`, `parse_idat_chunk` does not return `true`: it stops at its assertion
`chunk_length > 0`. -/
theorem parse_idat_chunk_zero_length_counterexample :
    be32 0x35 0xAF 0x06 0x1E = crc32_standard [ch 'I', ch 'D', ch 'A', ch 'T'] ∧
      (parse_idat_chunk (ifstream.opened [0x35, 0xAF, 0x06, 0x1E]) 0 []).1 =
        .assert_failed := by
  constructor
  · decide
  · decide

/-- C12 (amended): with declared length 0 `parse_idat_chunk` fails at its first statement,
the assertion `chunk_length > 0`, whatever the stream holds: nothing is read and the
compressed payload is left unchanged; the chunk is not accepted. -/
theorem parse_idat_chunk_zero_length (stream : ifstream) (compressed_data : List Byte) :
    parse_idat_chunk stream 0 compressed_data = (.assert_failed, stream, compressed_data) := by
  unfold parse_idat_chunk
  rw [if_pos (by decide)]

/-- C13 (defect): the branch of `IEND` has no `break`, so the loop goes on behind a valid
terminal chunk.  The scenario of the spec decodes to `true`; the same stream followed by a
`gAMA` chunk with a wrong trailer decodes to `false`, and followed by one more data chunk it
decodes with a longer compressed payload. -/
theorem decode_png_file_reads_behind_iend :
    (decode_png_file stored_inflater 10
        (ifstream.opened (png_signature ++ chunks_bytes scenario_chunks))
        zero_properties).status = .returned true ∧
      (decode_png_file stored_inflater 10
        (ifstream.opened (png_signature ++ (chunks_bytes scenario_chunks ++
          chunk_bytes ChunkKind.gAMA.tag [0, 0, 0xB1, 0x8F] [0, 0, 0, 0])))
        zero_properties).status = .returned false ∧
      (decode_png_file stored_inflater 10
        (ifstream.opened (png_signature ++ chunks_bytes scenario_chunks))
        zero_properties).properties.compressed_data = zlib_of_ff ∧
      (decode_png_file stored_inflater 10
        (ifstream.opened (png_signature ++ (chunks_bytes scenario_chunks ++
          Chunk.bytes ⟨.IDAT, [0xA0]⟩)))
        zero_properties).properties.compressed_data = zlib_of_ff ++ [0xA0] := by
  refine ⟨by decide, by decide, by decide, by decide⟩

/-- C14 (defect): `decode_png_file` never assigns the field `decompressed_data` of the
properties: after every run it holds what it held before.  On the signature, the data chunk
with the zlib stream of `0xFF` and a valid terminal chunk the function returns `true`, the
decompression of the accumulated payload is `[0xFF]` and has been written to the output
file, and the field is still empty. -/
theorem decode_png_file_leaves_decompressed_data :
    (∀ (z : Zlib) (fuel : Nat) (stream : ifstream) (properties : png_properties_t),
      (decode_png_file z fuel stream properties).properties.decompressed_data =
        properties.decompressed_data) ∧
      (decode_png_file stored_inflater 10
        (ifstream.opened (png_signature ++ chunks_bytes [⟨.IDAT, zlib_of_ff⟩, ⟨.IEND, []⟩]))
        zero_properties).status = .returned true ∧
      decompress_idat_data stored_inflater 10
        (decode_png_file stored_inflater 10
          (ifstream.opened (png_signature ++ chunks_bytes [⟨.IDAT, zlib_of_ff⟩, ⟨.IEND, []⟩]))
          zero_properties).properties.compressed_data = some [0xFF] ∧
      (decode_png_file stored_inflater 10
        (ifstream.opened (png_signature ++ chunks_bytes [⟨.IDAT, zlib_of_ff⟩, ⟨.IEND, []⟩]))
        zero_properties).output_file = some [0xFF] ∧
      (decode_png_file stored_inflater 10
        (ifstream.opened (png_signature ++ chunks_bytes [⟨.IDAT, zlib_of_ff⟩, ⟨.IEND, []⟩]))
        zero_properties).properties.decompressed_data = [] := by
  refine ⟨decode_png_file_decompressed_data, by decide, by decide, by decide, by decide⟩

/-- C15 (defect, the one of C14): on the concrete scenario of the spec `decode_png_file`
returns `true` and the channel count in the properties is 3, but the decompressed buffer of
the properties is not `[0xFF]`: it is still empty, the byte `0xFF` has gone to the output
file only. -/
theorem decode_png_file_scenario :
    (decode_png_file stored_inflater 10
        (ifstream.opened (png_signature ++ chunks_bytes scenario_chunks))
        zero_properties).status = .returned true ∧
      (decode_png_file stored_inflater 10
        (ifstream.opened (png_signature ++ chunks_bytes scenario_chunks))
        zero_properties).properties.ihdr.channels = 3 ∧
      (decode_png_file stored_inflater 10
        (ifstream.opened (png_signature ++ chunks_bytes scenario_chunks))
        zero_properties).properties.decompressed_data = [] ∧
      (decode_png_file stored_inflater 10
        (ifstream.opened (png_signature ++ chunks_bytes scenario_chunks))
        zero_properties).output_file = some [0xFF] ∧
      zlib_stored_decode zlib_of_ff = some [0xFF] := by
  refine ⟨by decide, by decide, by decide, by decide, by decide⟩

/-- C16: on the signature, any sequence of well-formed chunks with correct trailers, none of
them a terminal chunk, and then fewer than four further bytes, `decode_png_file` returns
`true`: the short read of the chunk length ends the loop, with the stream at its end and no
decompression done. -/
theorem decode_png_file_end_of_input (z : Zlib) (fuel : Nat) (cs : List Chunk)
    (tail : List Byte) (properties : png_properties_t) (hwf : ∀ c ∈ cs, c.well_formed)
    (hno : ∀ c ∈ cs, c.kind ≠ .IEND) (htail : tail.length < 4) (hfuel : cs.length < fuel) :
    (decode_png_file z fuel (ifstream.opened (png_signature ++ (chunks_bytes cs ++ tail)))
        properties).status = .returned true ∧
      (decode_png_file z fuel (ifstream.opened (png_signature ++ (chunks_bytes cs ++ tail)))
        properties).stream = ⟨[], true, true⟩ ∧
      (decode_png_file z fuel (ifstream.opened (png_signature ++ (chunks_bytes cs ++ tail)))
        properties).output_file = none := by
  obtain ⟨properties', output_file', heq, _, hout⟩ :=
    decode_png_file_chunks z fuel cs tail properties hwf (Or.inl hno) htail hfuel
  rw [heq]
  exact ⟨rfl, rfl, hout hno⟩

/-- Witness of C16: the signature alone, and the header chunk followed by three stray
bytes. -/
theorem decode_png_file_end_of_input_witness :
    (decode_png_file no_memory_zlib 1 (ifstream.opened (png_signature ++ ([] ++ [])))
        zero_properties).status = .returned true ∧
      (decode_png_file no_memory_zlib 2
        (ifstream.opened (png_signature ++
          (chunks_bytes [⟨.IHDR, [0, 0, 0, 1, 0, 0, 0, 1, 8, 2, 0, 0, 0]⟩] ++ [0, 0, 0])))
        zero_properties).status = .returned true :=
  ⟨(decode_png_file_end_of_input no_memory_zlib 1 [] [] zero_properties
      (fun _ h => absurd h (List.not_mem_nil _)) (fun _ h => absurd h (List.not_mem_nil _))
      (by decide) (by decide)).1,
    (decode_png_file_end_of_input no_memory_zlib 2
      [⟨.IHDR, [0, 0, 0, 1, 0, 0, 0, 1, 8, 2, 0, 0, 0]⟩] [0, 0, 0] zero_properties
      (by
        intro c hc
        simp only [List.mem_singleton] at hc
        subst hc
        exact ⟨⟨rfl, by decide⟩, by decide⟩)
      (by decide) (by decide) (by decide)).1⟩

/-- C17 (defect): the readers never look at how many bytes `read` delivered; a short read
leaves the zero-filled tail of the buffer in place.  The data chunk with payload `A0` has
the checksum `0xFEEEDE00`; on the stream that ends one byte early, with only four of the
five bytes behind the type present, `decode_png_file` returns `true` and keeps the payload,
as if the chunk had been read completely. -/
theorem decode_png_file_accepts_truncated_chunk :
    be32 0xFE 0xEE 0xDE 0x00 = crc32_standard (ChunkKind.IDAT.tag ++ [0xA0]) ∧
      (decode_png_file no_memory_zlib 5
        (ifstream.opened (png_signature ++
          (u32_be 1 ++ (ChunkKind.IDAT.tag ++ [0xA0, 0xFE, 0xEE, 0xDE]))))
        zero_properties).status = .returned true ∧
      (decode_png_file no_memory_zlib 5
        (ifstream.opened (png_signature ++
          (u32_be 1 ++ (ChunkKind.IDAT.tag ++ [0xA0, 0xFE, 0xEE, 0xDE]))))
        zero_properties).properties.compressed_data = [0xA0] := by
  refine ⟨by decide, by decide, by decide⟩

/-- C18 (as stated, refuted): on the signature followed by a header chunk of declared
length 12 `decode_png_file` does not return `false`: the run ends in the failed assertion
of `parse_ihdr_chunk`. -/
theorem decode_png_file_wrong_length_counterexample :
    (decode_png_file no_memory_zlib 5
      (ifstream.opened (png_signature ++
        (u32_be 12 ++ (ChunkKind.IHDR.tag ++
          [0, 0, 0, 1, 0, 0, 0, 1, 8, 2, 0, 0, 0x2A, 0x2A, 0x2A, 0x2A]))))
      zero_properties).status = .assert_failed := by
  decide

/-- The branch of a fixed-shape kind called with a declared length its reader asserts
against. -/
theorem run_branch_wrong_length (z : Zlib) (zfuel : Nat) (k : ChunkKind) (n : Nat)
    (stream : ifstream) (properties : png_properties_t) (output_file : Option (List Byte))
    (hk : (k = .IHDR ∧ n ≠ 13) ∨ (k = .pHYs ∧ n ≠ 9) ∨ (k = .cHRM ∧ n ≠ 32) ∨
      (k = .IEND ∧ n ≠ 0) ∨ (k = .bKGD ∧ n ≠ 1 ∧ n ≠ 6)) :
    run_branch z zfuel k stream n properties output_file =
      (.assert_failed, stream, properties, output_file) := by
  rcases hk with ⟨rfl, h⟩ | ⟨rfl, h⟩ | ⟨rfl, h⟩ | ⟨rfl, h⟩ | ⟨rfl, h1, h6⟩
  · have hr : parse_ihdr_chunk stream n properties.ihdr =
        (.assert_failed, stream, properties.ihdr) := by
      unfold parse_ihdr_chunk; rw [if_pos h]
    rw [run_branch_ihdr, hr]
  · have hr : parse_phys_chunk stream n properties.phys =
        (.assert_failed, stream, properties.phys) := by
      unfold parse_phys_chunk; rw [if_pos h]
    rw [run_branch_phys, hr]
  · have hr : parse_chrm_chunk stream n properties.chrm =
        (.assert_failed, stream, properties.chrm) := by
      unfold parse_chrm_chunk; rw [if_pos h]
    rw [run_branch_chrm, hr]
  · have hr : parse_iend_chunk stream n = (.assert_failed, stream) := by
      unfold parse_iend_chunk; rw [if_pos h]
    rw [run_branch_iend, hr, if_neg (by simp)]
  · rw [run_branch_bkgd, parse_bkgd_chunk_assert stream n h1 h6]

/-- C18 (amended): on a stream with a valid signature whose first chunk is a fixed-shape
chunk with a wrong declared length (`IHDR` other than 13, `pHYs` other than 9, `cHRM` other
than 32, `IEND` other than 0, `bKGD` other than 1 and 6) `decode_png_file` does not return:
the run ends in the failed length assertion of the reader, with nothing read behind the
type field and the properties untouched. -/
theorem decode_png_file_wrong_length (z : Zlib) (fuel : Nat) (properties : png_properties_t)
    (k : ChunkKind) (n : Nat) (body : List Byte) (hn : n < 2 ^ 32)
    (hk : (k = .IHDR ∧ n ≠ 13) ∨ (k = .pHYs ∧ n ≠ 9) ∨ (k = .cHRM ∧ n ≠ 32) ∨
      (k = .IEND ∧ n ≠ 0) ∨ (k = .bKGD ∧ n ≠ 1 ∧ n ≠ 6)) :
    decode_png_file z (fuel + 1)
        (ifstream.opened (png_signature ++ (u32_be n ++ (k.tag ++ body)))) properties =
      ⟨.assert_failed, ifstream.opened body, properties, none⟩ := by
  rw [decode_png_file_signature, decode_loop_chunk z (fuel + 1) fuel properties none k n hn,
    run_branch_wrong_length z (fuel + 1) k n _ properties none hk]
  simp only
  rw [if_neg (by simp)]

/-- Witness of C18: a `pHYs` chunk of declared length 8. -/
theorem decode_png_file_wrong_length_witness :
    (8 : Nat) < 2 ^ 32 ∧ (8 : Nat) ≠ 9 ∧
      decode_png_file no_memory_zlib (0 + 1)
          (ifstream.opened (png_signature ++
            (u32_be 8 ++ (ChunkKind.pHYs.tag ++ [0, 0, 0x0B, 0x13, 0, 0, 0x0B, 0x13]))))
          zero_properties =
        ⟨.assert_failed, ifstream.opened [0, 0, 0x0B, 0x13, 0, 0, 0x0B, 0x13],
          zero_properties, none⟩ :=
  ⟨by norm_num, by decide,
    decode_png_file_wrong_length no_memory_zlib 0 zero_properties .pHYs 8
      [0, 0, 0x0B, 0x13, 0, 0, 0x0B, 0x13] (by norm_num)
      (Or.inr (Or.inl ⟨rfl, by decide⟩))⟩

/-- C19 (defect): under the streaming contract of zlib, for a compressed input `c` of fewer
than `2^32` bytes, `decompress_idat_data` returns exactly the original bytes `b` as long as
`b` has at most `2^32` bytes (the buffer of 1 MiB is doubled as often as needed); for a
longer `b` it never returns: the free space is stored in the 32-bit field `avail_out`, which
is zero in every call once `2^32` bytes have been written. -/
theorem decompress_idat_data_round_trip_limit (z : Zlib) (c b : List Byte)
    (hz : z.inflates c b) (hc : c.length < 2 ^ 32) :
    (b.length ≤ 2 ^ 32 → ∀ fuel, 2 * b.length + 2 ≤ fuel →
        decompress_idat_data z fuel c = some b) ∧
      (2 ^ 32 < b.length → ∀ fuel, decompress_idat_data z fuel c = none) :=
  ⟨fun hb fuel hfuel => decompress_idat_data_round_trip z c b hz hc hb fuel hfuel,
    fun hb fuel => decompress_idat_data_never_ends z c b hz hc hb fuel⟩

/-- Witness of C19: the stored zlib stream of the byte `0xFF`, and an inflater that
delivers `2^32 + 1` zero bytes. -/
theorem decompress_idat_data_round_trip_limit_witness :
    stored_inflater.inflates zlib_of_ff [0xFF] ∧
      decompress_idat_data stored_inflater 4 zlib_of_ff = some [0xFF] ∧
      (Zlib.of_decoder (fun _ => some (List.replicate (2 ^ 32 + 1) 0))).inflates []
        (List.replicate (2 ^ 32 + 1) 0) ∧
      ∀ fuel, decompress_idat_data
        (Zlib.of_decoder (fun _ => some (List.replicate (2 ^ 32 + 1) 0))) fuel [] = none :=
  ⟨of_decoder_inflates zlib_stored_decode zlib_of_ff [0xFF] (by decide),
    (decompress_idat_data_round_trip_limit stored_inflater zlib_of_ff [0xFF]
      (of_decoder_inflates zlib_stored_decode zlib_of_ff [0xFF] (by decide)) (by decide)).1
      (by decide) 4 (by decide),
    of_decoder_inflates _ [] _ rfl,
    (decompress_idat_data_round_trip_limit
      (Zlib.of_decoder (fun _ => some (List.replicate (2 ^ 32 + 1) 0))) []
      (List.replicate (2 ^ 32 + 1) 0) (of_decoder_inflates _ [] _ rfl) (by decide)).2
      (by rw [List.length_replicate]; omega)⟩

/-- On an input its decoder rejects the inflater built from a decoder reports
`Z_DATA_ERROR` in every call, which does not end the loop. -/
theorem inflate_loop_corrupt (decode : List Byte → Option (List Byte)) (fuel size : Nat)
    (out : List Byte) :
    inflate_loop (Zlib.of_decoder decode) fuel none size out = none := by
  induction fuel generalizing size out with
  | zero => rfl
  | succ fuel ih =>
    rw [inflate_loop]
    exact ih _ _

/-- The decompression of a payload the decoder rejects never comes to an end. -/
theorem decompress_idat_data_corrupt (decode : List Byte → Option (List Byte)) (fuel : Nat)
    (c : List Byte) (hc : c.length < 2 ^ 32) (h : decode c = none) :
    decompress_idat_data (Zlib.of_decoder decode) fuel c = none := by
  unfold decompress_idat_data
  rw [Nat.mod_eq_of_lt hc]
  simp only
  rw [List.take_length]
  have h1 : ¬ ((Zlib.of_decoder decode).inflateInit c).1 ≠ ZRet.Z_OK := not_not_intro rfl
  have h2 : inflate_loop (Zlib.of_decoder decode) fuel
      ((Zlib.of_decoder decode).inflateInit c).2 (1024 * 1024) [] = none := by
    have h3 : ((Zlib.of_decoder decode).inflateInit c).2 = none := h
    rw [h3]
    exact inflate_loop_corrupt decode fuel _ _
  rw [if_neg h1, h2]

/-- The loop on a valid terminal chunk when the decompression does not come to an end. -/
theorem decode_loop_iend_never_ends (z : Zlib) (zfuel fuel : Nat) (rest : List Byte)
    (properties : png_properties_t) (output_file : Option (List Byte))
    (hdec : decompress_idat_data z zfuel properties.compressed_data = none) :
    (decode_loop z zfuel (fuel + 1)
      (ifstream.opened ((⟨.IEND, []⟩ : Chunk).bytes ++ rest)) properties output_file).status =
      .out_of_fuel := by
  obtain ⟨t0, t1, t2, t3, hbytes, hcrc⟩ := chunk_bytes_frame ⟨.IEND, []⟩ rest
  have hcrc2 : be32 t0 t1 t2 t3 = crc32_standard [ch 'I', ch 'E', ch 'N', ch 'D'] := by
    simpa [ChunkKind.tag] using hcrc
  have hb : (⟨.IEND, []⟩ : Chunk).bytes ++ rest =
      u32_be 0 ++ (ChunkKind.IEND.tag ++ ([t0, t1, t2, t3] ++ rest)) := hbytes
  rw [hb, decode_loop_chunk z zfuel fuel properties output_file .IEND 0 (by norm_num),
    run_branch_iend_match z zfuel t0 t1 t2 t3 rest properties output_file hcrc2, hdec]
  simp only
  rw [if_neg (by simp)]

/-- C20 (defect): `decode_png_file` does not look at the result of `decompress_idat_data`.
With an inflater whose initialisation fails the decompression at the terminal chunk signals
failure (the empty result) and `decode_png_file` still returns `true`, an empty output file
written.  With a payload that is no zlib stream the inflater reports `Z_DATA_ERROR` in every
call and the run never returns, `false` or otherwise. -/
theorem decode_png_file_ignores_decompression_failure :
    (no_memory_zlib.inflateInit zlib_of_ff).1 = .Z_MEM_ERROR ∧
      decompress_idat_data no_memory_zlib 10 zlib_of_ff = some [] ∧
      (decode_png_file no_memory_zlib 10
        (ifstream.opened (png_signature ++ chunks_bytes scenario_chunks))
        zero_properties).status = .returned true ∧
      (decode_png_file no_memory_zlib 10
        (ifstream.opened (png_signature ++ chunks_bytes scenario_chunks))
        zero_properties).output_file = some [] ∧
      zlib_stored_decode [0x00, 0x00] = none ∧
      ∀ fuel, (decode_png_file stored_inflater fuel
        (ifstream.opened (png_signature ++
          (chunks_bytes [⟨.IDAT, [0x00, 0x00]⟩] ++ ((⟨.IEND, []⟩ : Chunk).bytes ++ []))))
        zero_properties).status = .out_of_fuel := by
  refine ⟨rfl, by decide, by decide, by decide, by decide, ?_⟩
  intro fuel
  rw [decode_png_file_signature]
  have hwf : ∀ c ∈ [(⟨.IDAT, [0x00, 0x00]⟩ : Chunk)], c.well_formed := by
    intro c hc
    simp only [List.mem_singleton] at hc
    subst hc
    exact ⟨show 0 < ([0x00, 0x00] : List Byte).length by decide, by decide⟩
  have hno : ∀ c ∈ [(⟨.IDAT, [0x00, 0x00]⟩ : Chunk)], c.kind ≠ .IEND := by decide
  rcases fuel with _ | fuel
  · rfl
  · obtain ⟨properties', output_file', heq, hcd, _⟩ :=
      decode_loop_chunks stored_inflater (fuel + 1) [⟨.IDAT, [0x00, 0x00]⟩] hwf (Or.inl hno)
        fuel ((⟨.IEND, []⟩ : Chunk).bytes ++ []) zero_properties none
    have hcd' : properties'.compressed_data = [0x00, 0x00] := hcd
    rw [show fuel + 1 = fuel + [(⟨.IDAT, [0x00, 0x00]⟩ : Chunk)].length from rfl]
    rw [show fuel + 1 = fuel + [(⟨.IDAT, [0x00, 0x00]⟩ : Chunk)].length from rfl] at heq
    rw [heq]
    rcases fuel with _ | fuel
    · rfl
    · have hdec : decompress_idat_data stored_inflater (fuel + 1 + 1)
          properties'.compressed_data = none := by
        rw [hcd']
        exact decompress_idat_data_corrupt zlib_stored_decode _ _ (by decide) (by decide)
      exact decode_loop_iend_never_ends stored_inflater _ fuel [] properties' output_file' hdec

/-! ## The claims on the inflate loop, the typed readers and the frame -/

/-! ## The inflate loop under an inflater that never reports the end -/

/-- One iteration of the inflate loop in which `inflate` reports neither `Z_STREAM_END` nor
`Z_MEM_ERROR` is followed by the next iteration. -/
theorem inflate_loop_continues (z : Zlib) (fuel : Nat) (st : z.State) (size : Nat)
    (out : List Byte)
    (h1 : (z.inflate st ((size - out.length) % 2 ^ 32)).1 ≠ .Z_STREAM_END)
    (h2 : (z.inflate st ((size - out.length) % 2 ^ 32)).1 ≠ .Z_MEM_ERROR) :
    inflate_loop z (fuel + 1) st size out =
      inflate_loop z fuel (z.inflate st ((size - out.length) % 2 ^ 32)).2.1
        (if (z.inflate st ((size - out.length) % 2 ^ 32)).1 = .Z_BUF_ERROR then size * 2
          else size)
        (out ++ (z.inflate st ((size - out.length) % 2 ^ 32)).2.2) := by
  rw [inflate_loop]
  simp only
  rw [if_pos ⟨h1, h2⟩]

/-- An iteration in which `inflate` reports `Z_MEM_ERROR` ends the loop. -/
theorem inflate_loop_mem_error (z : Zlib) (fuel : Nat) (st : z.State) (size : Nat)
    (out : List Byte)
    (h : (z.inflate st ((size - out.length) % 2 ^ 32)).1 = .Z_MEM_ERROR) :
    inflate_loop z (fuel + 1) st size out =
      some (.Z_MEM_ERROR, out ++ (z.inflate st ((size - out.length) % 2 ^ 32)).2.2) := by
  rw [inflate_loop]
  simp only
  rw [h, if_neg (by simp)]

theorem inflate_loop_never_stops (z : Zlib) (I : z.State → Prop)
    (hstep : ∀ s n, I s →
      (z.inflate s n).1 ≠ .Z_STREAM_END ∧ (z.inflate s n).1 ≠ .Z_MEM_ERROR ∧
        I (z.inflate s n).2.1)
    (fuel : Nat) (st : z.State) (size : Nat) (out : List Byte) (hI : I st) :
    inflate_loop z fuel st size out = none := by
  induction fuel generalizing st size out with
  | zero => rfl
  | succ fuel ih =>
    obtain ⟨h1, h2, h3⟩ := hstep st ((size - out.length) % 2 ^ 32) hI
    rw [inflate_loop_continues z fuel st size out h1 h2]
    exact ih _ _ _ h3

/-- C21 (defect): the loop of `decompress_idat_data` ends only on `Z_STREAM_END` and
`Z_MEM_ERROR`.  When the inflater, once initialised on the input, answers every call with
another code (`Z_DATA_ERROR` on a corrupt stream, which zlib repeats on every later call;
`Z_BUF_ERROR` on an empty or truncated input, where no progress is possible), the function
calls it again and again and never returns, whatever the number of iterations granted. -/
theorem decompress_idat_data_never_returns (z : Zlib) (c : List Byte) (I : z.State → Prop)
    (hinit : (z.inflateInit (c.take (c.length % 2 ^ 32))).1 = .Z_OK)
    (hI : I (z.inflateInit (c.take (c.length % 2 ^ 32))).2)
    (hstep : ∀ s n, I s →
      (z.inflate s n).1 ≠ .Z_STREAM_END ∧ (z.inflate s n).1 ≠ .Z_MEM_ERROR ∧
        I (z.inflate s n).2.1) :
    ∀ fuel, decompress_idat_data z fuel c = none := by
  intro fuel
  unfold decompress_idat_data
  simp only
  rw [if_neg (not_not_intro hinit),
    inflate_loop_never_stops z I hstep fuel _ (1024 * 1024) [] hI]

/-- Witness of C21: the two bytes `00 00` are no zlib stream (the header check fails); the
inflater reports a data error on every call. -/
theorem decompress_idat_data_never_returns_witness :
    (stored_inflater.inflateInit
        (([0x00, 0x00] : List Byte).take (([0x00, 0x00] : List Byte).length % 2 ^ 32))).1 =
        .Z_OK ∧
      decompress_idat_data stored_inflater 1000000 [0x00, 0x00] = none :=
  ⟨rfl,
    decompress_idat_data_never_returns stored_inflater [0x00, 0x00] (fun s => s = none)
      rfl rfl
      (fun s n hs => by
        subst hs
        exact ⟨fun h => ZRet.noConfusion h, fun h => ZRet.noConfusion h, rfl⟩)
      1000000⟩

/-- C22: for every 9-byte payload and every trailer equal to the CRC-32 of `pHYs` and the
payload, `parse_phys_chunk` returns `true`, leaves the stream behind the trailer, and the
record holds the big-endian numbers `p0*2^24 + p1*2^16 + p2*2^8 + p3` and
`p4*2^24 + p5*2^16 + p6*2^8 + p7` (both below `2^32`) and the unit byte `p8` as it is,
whatever its value; with a declared length other than 9 the reader fails at the assertion
on the length, stream and record untouched. -/
theorem parse_phys_chunk_fields (p0 p1 p2 p3 p4 p5 p6 p7 p8 t0 t1 t2 t3 : Byte)
    (rest : List Byte) (phys : pHYs_t)
    (htrailer : be32 t0 t1 t2 t3 =
      crc32_standard ([ch 'p', ch 'H', ch 'Y', ch 's'] ++
        [p0, p1, p2, p3, p4, p5, p6, p7, p8])) :
    parse_phys_chunk
        (ifstream.opened ([p0, p1, p2, p3, p4, p5, p6, p7, p8] ++ [t0, t1, t2, t3] ++ rest))
        9 phys =
      (.returned true, ifstream.opened rest,
        { pixels_per_unit_x := p0.val * 2 ^ 24 + p1.val * 2 ^ 16 + p2.val * 2 ^ 8 + p3.val,
          pixels_per_unit_y := p4.val * 2 ^ 24 + p5.val * 2 ^ 16 + p6.val * 2 ^ 8 + p7.val,
          unit_specifier := p8 }) ∧
      p0.val * 2 ^ 24 + p1.val * 2 ^ 16 + p2.val * 2 ^ 8 + p3.val < 2 ^ 32 ∧
      p4.val * 2 ^ 24 + p5.val * 2 ^ 16 + p6.val * 2 ^ 8 + p7.val < 2 ^ 32 ∧
      (∀ (stream : ifstream) (chunk_length : Nat), chunk_length ≠ 9 →
        parse_phys_chunk stream chunk_length phys = (.assert_failed, stream, phys)) := by
  rw [parse_phys_chunk_framed, decide_eq_true htrailer, be32_eq, be32_eq]
  refine ⟨rfl, ?_, ?_, ?_⟩
  · rw [← be32_eq]; exact be32_lt _ _ _ _
  · rw [← be32_eq]; exact be32_lt _ _ _ _
  · intro stream chunk_length h
    unfold parse_phys_chunk
    rw [if_pos h]

/-- Witness of C22: `0x80000001` by 72 pixels per unit with the unit byte 7 (checksum
`0x96AFA576`), and the declared length 8. -/
theorem parse_phys_chunk_fields_witness :
    be32 0x96 0xAF 0xA5 0x76 =
        crc32_standard ([ch 'p', ch 'H', ch 'Y', ch 's'] ++
          [0x80, 0, 0, 1, 0, 0, 0, 0x48, 7]) ∧
      parse_phys_chunk
          (ifstream.opened ([0x80, 0, 0, 1, 0, 0, 0, 0x48, 7] ++ [0x96, 0xAF, 0xA5, 0x76] ++ []))
          9 zero_properties.phys =
        (.returned true, ifstream.opened [],
          { pixels_per_unit_x := 2147483649, pixels_per_unit_y := 72, unit_specifier := 7 }) ∧
      parse_phys_chunk (ifstream.opened [1, 2, 3]) 8 zero_properties.phys =
        (.assert_failed, ifstream.opened [1, 2, 3], zero_properties.phys) :=
  ⟨by decide,
    (parse_phys_chunk_fields 0x80 0 0 1 0 0 0 0x48 7 0x96 0xAF 0xA5 0x76 []
      zero_properties.phys (by decide)).1,
    (parse_phys_chunk_fields 0x80 0 0 1 0 0 0 0x48 7 0x96 0xAF 0xA5 0x76 []
      zero_properties.phys (by decide)).2.2.2 (ifstream.opened [1, 2, 3]) 8 (by decide)⟩

/-- C23: with a declared length other than 0 `parse_iend_chunk` fails at its first
statement, the assertion on the length, whatever the stream holds: it reports no success
and has read nothing. -/
theorem parse_iend_chunk_wrong_length (stream : ifstream) (chunk_length : Nat)
    (h : chunk_length ≠ 0) :
    parse_iend_chunk stream chunk_length = (.assert_failed, stream) ∧
      (parse_iend_chunk stream chunk_length).1 ≠ .returned true := by
  have e : parse_iend_chunk stream chunk_length = (.assert_failed, stream) := by
    unfold parse_iend_chunk
    rw [if_pos h]
  rw [e]
  exact ⟨rfl, fun h => Status.noConfusion h⟩

/-- Witness of C23: declared length 4 in front of four bytes and the checksum of `IEND`. -/
theorem parse_iend_chunk_wrong_length_witness :
    (4 : Nat) ≠ 0 ∧
      parse_iend_chunk (ifstream.opened [0, 0, 0, 0, 0xAE, 0x42, 0x60, 0x82]) 4 =
        (.assert_failed, ifstream.opened [0, 0, 0, 0, 0xAE, 0x42, 0x60, 0x82]) :=
  ⟨by decide, (parse_iend_chunk_wrong_length _ 4 (by decide)).1⟩

/-- C24 (defect): on a 32-byte payload whose trailer is the CRC-32 of `cHRM` and the payload,
`parse_chrm_chunk` returns `true`, but it takes the red point from payload bytes 0..7, the
green point from bytes 8..15, the blue point from bytes 16..23 and the white point from
bytes 24..31, whereas the chunk carries the white point first (bytes 0..7), then red, green
and blue. -/
theorem parse_chrm_chunk_order (p : List Byte) (t0 t1 t2 t3 : Byte) (rest : List Byte)
    (chrm : cHRM_t) (hlen : p.length = 32)
    (htrailer : be32 t0 t1 t2 t3 = crc32_standard ([ch 'c', ch 'H', ch 'R', ch 'M'] ++ p)) :
    parse_chrm_chunk (ifstream.opened (p ++ [t0, t1, t2, t3] ++ rest)) 32 chrm =
      (.returned true, ifstream.opened rest,
        { red_x := be32 (p.getD 0 0) (p.getD 1 0) (p.getD 2 0) (p.getD 3 0),
          red_y := be32 (p.getD 4 0) (p.getD 5 0) (p.getD 6 0) (p.getD 7 0),
          green_x := be32 (p.getD 8 0) (p.getD 9 0) (p.getD 10 0) (p.getD 11 0),
          green_y := be32 (p.getD 12 0) (p.getD 13 0) (p.getD 14 0) (p.getD 15 0),
          blue_x := be32 (p.getD 16 0) (p.getD 17 0) (p.getD 18 0) (p.getD 19 0),
          blue_y := be32 (p.getD 20 0) (p.getD 21 0) (p.getD 22 0) (p.getD 23 0),
          white_x := be32 (p.getD 24 0) (p.getD 25 0) (p.getD 26 0) (p.getD 27 0),
          white_y := be32 (p.getD 28 0) (p.getD 29 0) (p.getD 30 0) (p.getD 31 0) }) := by
  rw [parse_chrm_chunk_framed p t0 t1 t2 t3 rest hlen chrm, if_pos htrailer]

/-- Witness of C24: the `cHRM` chunk of sRGB, white point (31270, 32900), red (64000, 33000),
green (30000, 60000), blue (15000, 6000), checksum `0x9CBA513C`.  The record holds the white
point of the chunk as red, red as green, green as blue, and blue as the white point. -/
theorem parse_chrm_chunk_order_witness :
    be32 0x9C 0xBA 0x51 0x3C =
        crc32_standard ([ch 'c', ch 'H', ch 'R', ch 'M'] ++
          [0x00, 0x00, 0x7A, 0x26, 0x00, 0x00, 0x80, 0x84, 0x00, 0x00, 0xFA, 0x00,
           0x00, 0x00, 0x80, 0xE8, 0x00, 0x00, 0x75, 0x30, 0x00, 0x00, 0xEA, 0x60,
           0x00, 0x00, 0x3A, 0x98, 0x00, 0x00, 0x17, 0x70]) ∧
      parse_chrm_chunk
          (ifstream.opened
            ([0x00, 0x00, 0x7A, 0x26, 0x00, 0x00, 0x80, 0x84, 0x00, 0x00, 0xFA, 0x00,
              0x00, 0x00, 0x80, 0xE8, 0x00, 0x00, 0x75, 0x30, 0x00, 0x00, 0xEA, 0x60,
              0x00, 0x00, 0x3A, 0x98, 0x00, 0x00, 0x17, 0x70] ++
              [0x9C, 0xBA, 0x51, 0x3C] ++ []))
          32 zero_properties.chrm =
        (.returned true, ifstream.opened [],
          { red_x := 31270, red_y := 32900, green_x := 64000, green_y := 33000,
            blue_x := 30000, blue_y := 60000, white_x := 15000, white_y := 6000 }) :=
  ⟨by decide,
    parse_chrm_chunk_order
      [0x00, 0x00, 0x7A, 0x26, 0x00, 0x00, 0x80, 0x84, 0x00, 0x00, 0xFA, 0x00,
       0x00, 0x00, 0x80, 0xE8, 0x00, 0x00, 0x75, 0x30, 0x00, 0x00, 0xEA, 0x60,
       0x00, 0x00, 0x3A, 0x98, 0x00, 0x00, 0x17, 0x70]
      0x9C 0xBA 0x51 0x3C [] zero_properties.chrm rfl (by decide)⟩

/-! ## The palette loop -/

/-- On a buffer that holds the whole declared payload of `3 * m` bytes the palette loop,
started at entry `k`, appends the entries `k .. m - 1` in order. -/
theorem plte_loop_entries (buffer : List Byte) (m : Nat) (hm : 3 * m < 2 ^ 32)
    (hb : 3 * m ≤ buffer.length) (fuel k : Nat) (hk : k ≤ m) (hfuel : m - k < fuel)
    (palette : List RGB_t) :
    plte_loop buffer (3 * m) fuel (3 * k) palette =
      .ok (palette ++ (List.range (m - k)).map (fun j =>
        (⟨buffer.getD (3 * (k + j)) 0, buffer.getD (3 * (k + j) + 1) 0,
          buffer.getD (3 * (k + j) + 2) 0⟩ : RGB_t))) := by
  induction fuel generalizing k palette with
  | zero => omega
  | succ fuel ih =>
    unfold plte_loop
    by_cases hlt : k < m
    · rw [if_pos (by omega)]
      have h0 : 3 * k < buffer.length := by omega
      have h1 : 3 * k + 1 < buffer.length := by omega
      have h2 : 3 * k + 2 < buffer.length := by omega
      rw [u32_add_eq (3 * k) 1 (by omega), u32_add_eq (3 * k) 2 (by omega),
        List.getElem?_eq_getElem h0, List.getElem?_eq_getElem h1, List.getElem?_eq_getElem h2]
      simp only
      rw [u32_add_eq (3 * k) 3 (by omega), show 3 * k + 3 = 3 * (k + 1) by omega,
        ih (k + 1) (by omega) (by omega)]
      have hmk : m - k = (m - (k + 1)) + 1 := by omega
      rw [hmk, List.range_succ_eq_map, List.map_cons, List.map_map, List.append_assoc,
        List.singleton_append]
      simp only [Nat.add_zero]
      rw [List.getD_eq_getElem _ _ h0, List.getD_eq_getElem _ _ h1,
        List.getD_eq_getElem _ _ h2]
      have hf : ((fun j => (⟨buffer.getD (3 * (k + j)) 0, buffer.getD (3 * (k + j) + 1) 0,
          buffer.getD (3 * (k + j) + 2) 0⟩ : RGB_t)) ∘ Nat.succ) =
          (fun j => (⟨buffer.getD (3 * (k + 1 + j)) 0, buffer.getD (3 * (k + 1 + j) + 1) 0,
          buffer.getD (3 * (k + 1 + j) + 2) 0⟩ : RGB_t)) := by
        funext j
        show (⟨buffer.getD (3 * (k + (j + 1))) 0, buffer.getD (3 * (k + (j + 1)) + 1) 0,
          buffer.getD (3 * (k + (j + 1)) + 2) 0⟩ : RGB_t) = _
        rw [show k + (j + 1) = k + 1 + j by omega]
      rw [hf]
    · have hkm : k = m := by omega
      subst hkm
      rw [if_neg (by omega), Nat.sub_self]
      simp

/-- The palette loop stops as undefined when it reaches an index outside the buffer. -/
theorem plte_loop_out_of_bounds (buffer : List Byte) (n fuel i : Nat) (hi : i < n)
    (hb : buffer.length ≤ i) (palette : List RGB_t) :
    plte_loop buffer n (fuel + 1) i palette = .error (.undefined, palette) := by
  unfold plte_loop
  rw [if_pos hi, List.getElem?_eq_none hb]

/-- The reader of `PLTE` on a complete frame with the correct trailer. -/
theorem parse_plte_chunk_entries (p : List Byte) (t0 t1 t2 t3 : Byte) (rest : List Byte)
    (n : Nat) (h : p.length = 3 * n) (hn : 3 * n + 4 < 2 ^ 32) (palette : List RGB_t)
    (htrailer : be32 t0 t1 t2 t3 = crc32_standard ([ch 'P', ch 'L', ch 'T', ch 'E'] ++ p)) :
    parse_plte_chunk (ifstream.opened (p ++ [t0, t1, t2, t3] ++ rest)) (3 * n) palette =
      (.returned true, ifstream.opened rest,
        palette ++ (List.range n).map (fun i =>
          (⟨p.getD (3 * i) 0, p.getD (3 * i + 1) 0, p.getD (3 * i + 2) 0⟩ : RGB_t))) := by
  unfold parse_plte_chunk
  rw [if_neg (by omega), u32_add_eq (3 * n) 4 hn,
    read_opened (p ++ [t0, t1, t2, t3]) rest (3 * n + 4) (by simp [h])]
  simp only
  rw [vector_filled_full _ _ (by simp [h])]
  have hloop := plte_loop_entries (p ++ [t0, t1, t2, t3]) n (by omega) (by simp [h])
    (3 * n + 1) 0 (Nat.zero_le _) (by omega) palette
  rw [Nat.mul_zero, Nat.sub_zero] at hloop
  rw [hloop]
  simp only
  rw [crc_value_at_frame p t0 t1 t2 t3 (3 * n) h hn]
  simp only
  rw [take_frame p _ (3 * n) h, crc32_chain_u32, if_neg (not_not_intro htrailer.symm)]
  have hmap : (List.range n).map (fun j =>
      (⟨(p ++ [t0, t1, t2, t3]).getD (3 * (0 + j)) 0,
        (p ++ [t0, t1, t2, t3]).getD (3 * (0 + j) + 1) 0,
        (p ++ [t0, t1, t2, t3]).getD (3 * (0 + j) + 2) 0⟩ : RGB_t)) =
      (List.range n).map (fun i =>
        (⟨p.getD (3 * i) 0, p.getD (3 * i + 1) 0, p.getD (3 * i + 2) 0⟩ : RGB_t)) := by
    apply List.map_congr_left
    intro j hj
    have hjn : j < n := List.mem_range.mp hj
    rw [Nat.zero_add, List.getD_append _ _ _ _ (by omega), List.getD_append _ _ _ _ (by omega),
      List.getD_append _ _ _ _ (by omega)]
  rw [hmap]

/-- The reader of `PLTE` with the declared length `2^32 - 1`, a multiple of 3: the buffer
size `chunk_length + 4` wraps to 3, three bytes are read, and the second round of the
palette loop indexes the buffer at 3, past its end. -/
theorem parse_plte_chunk_wrapped (a b c : Byte) (rest : List Byte) (palette : List RGB_t) :
    parse_plte_chunk (ifstream.opened (a :: b :: c :: rest)) 4294967295 palette =
      (.undefined, ifstream.opened rest, palette ++ [⟨a, b, c⟩]) := by
  unfold parse_plte_chunk
  have hu : u32_add 4294967295 4 = 3 := by decide
  have hr : (ifstream.opened (a :: b :: c :: rest)).read 3 = ([a, b, c], ifstream.opened rest) := by
    simp [ifstream.read, ifstream.opened]
  have hv : vector_filled 3 [a, b, c] = [a, b, c] := rfl
  have hl : plte_loop [a, b, c] 4294967295 (4294967295 + 1) 0 palette =
      .error (.undefined, palette ++ [⟨a, b, c⟩]) := by
    rw [plte_loop, if_pos (by decide)]
    have h1 : u32_add 0 1 = 1 := by decide
    have h2 : u32_add 0 2 = 2 := by decide
    have h3 : u32_add 0 3 = 3 := by decide
    rw [h1, h2, h3]
    simp only [List.getElem?_cons_zero, List.getElem?_cons_succ]
    exact plte_loop_out_of_bounds [a, b, c] 4294967295 4294967294 3 (by decide) (by simp) _
  rw [if_neg (by decide), hu, hr]
  simp only
  rw [hv, hl]


/-- Counterexample to C25 as stated: a payload of `2^32 - 1 = 3 * 1431655765` zero bytes with
the correct trailer.  The buffer size `chunk_length + 4` wraps to 3, and the second round of
the palette loop indexes the buffer past its end: the reader does not return `true`. -/
theorem parse_plte_chunk_palette_counterexample :
    (List.replicate 4294967295 (0 : Byte)).length = 3 * 1431655765 ∧
      (parse_plte_chunk
        (ifstream.opened
          (List.replicate 4294967295 0 ++
            u32_be (crc32_standard (ChunkKind.PLTE.tag ++ List.replicate 4294967295 0))))
        4294967295 []).1 = .undefined := by
  refine ⟨by rw [List.length_replicate], ?_⟩
  have e : List.replicate 4294967295 (0 : Byte) =
      0 :: 0 :: 0 :: List.replicate 4294967292 0 := by
    rw [show (4294967295 : Nat) = 4294967292 + 1 + 1 + 1 from rfl, List.replicate_succ,
      List.replicate_succ, List.replicate_succ]
  rw [e, List.cons_append, List.cons_append, List.cons_append, parse_plte_chunk_wrapped]

/-- C25 (amended): for every payload `p` of length `3 * n` with `3 * n + 4 < 2^32` whose
trailer is the CRC-32 of `PLTE` and `p`, `parse_plte_chunk` returns `true`, leaves the stream
behind the trailer, and the palette afterwards is the palette before the call followed by
the `n` entries (red `p[3i]`, green `p[3i+1]`, blue `p[3i+2]`), `i = 0 .. n-1`, in wire
order. -/
theorem parse_plte_chunk_palette (p : List Byte) (t0 t1 t2 t3 : Byte) (rest : List Byte)
    (n : Nat) (palette : List RGB_t) (h : p.length = 3 * n) (hn : 3 * n + 4 < 2 ^ 32)
    (htrailer : be32 t0 t1 t2 t3 = crc32_standard ([ch 'P', ch 'L', ch 'T', ch 'E'] ++ p)) :
    parse_plte_chunk (ifstream.opened (p ++ [t0, t1, t2, t3] ++ rest)) p.length palette =
      (.returned true, ifstream.opened rest,
        palette ++ (List.range n).map (fun i =>
          (⟨p.getD (3 * i) 0, p.getD (3 * i + 1) 0, p.getD (3 * i + 2) 0⟩ : RGB_t))) := by
  rw [h]
  exact parse_plte_chunk_entries p t0 t1 t2 t3 rest n h hn palette htrailer

/-- Witness of C25: the palette red, green, blue (checksum `0x2D4ACD8A`) read into a
palette that holds one entry already. -/
theorem parse_plte_chunk_palette_witness :
    be32 0x2D 0x4A 0xCD 0x8A =
        crc32_standard ([ch 'P', ch 'L', ch 'T', ch 'E'] ++ [255, 0, 0, 0, 255, 0, 0, 0, 255]) ∧
      parse_plte_chunk
          (ifstream.opened ([255, 0, 0, 0, 255, 0, 0, 0, 255] ++ [0x2D, 0x4A, 0xCD, 0x8A] ++ [7]))
          9 [⟨1, 2, 3⟩] =
        (.returned true, ifstream.opened [7],
          [⟨1, 2, 3⟩, ⟨255, 0, 0⟩, ⟨0, 255, 0⟩, ⟨0, 0, 255⟩]) :=
  ⟨by decide,
    parse_plte_chunk_palette [255, 0, 0, 0, 255, 0, 0, 0, 255] 0x2D 0x4A 0xCD 0x8A [7] 3
      [⟨1, 2, 3⟩] rfl (by norm_num) (by decide)⟩

/-- C26 (defect): `parse_idat_chunk` appends the payload to the compressed data before it
compares the checksums.  On a complete data chunk whose trailer is not the CRC-32 of `IDAT`
and the payload it returns `false` with the rejected payload appended, so the buffer has
changed; `decode_png_file` then returns `false` and the properties of the caller hold the
rejected bytes. -/
theorem parse_idat_chunk_appends_rejected (z : Zlib) (fuel : Nat) (p : List Byte)
    (t0 t1 t2 t3 : Byte) (rest compressed_data : List Byte) (properties : png_properties_t)
    (hpos : 0 < p.length) (hlen : p.length + 4 < 2 ^ 32)
    (hcrc : be32 t0 t1 t2 t3 ≠ crc32_standard ([ch 'I', ch 'D', ch 'A', ch 'T'] ++ p)) :
    parse_idat_chunk (ifstream.opened (p ++ [t0, t1, t2, t3] ++ rest)) p.length
        compressed_data =
      (.returned false, ifstream.opened rest, compressed_data ++ p) ∧
    compressed_data ++ p ≠ compressed_data ∧
    decode_png_file z (fuel + 1)
        (ifstream.opened (png_signature ++
          (u32_be p.length ++ (ChunkKind.IDAT.tag ++ (p ++ [t0, t1, t2, t3] ++ rest)))))
        properties =
      ⟨.returned false, ifstream.opened rest,
        { properties with compressed_data := properties.compressed_data ++ p }, none⟩ := by
  have hr : ∀ cd, parse_idat_chunk (ifstream.opened (p ++ [t0, t1, t2, t3] ++ rest)) p.length
      cd = (.returned false, ifstream.opened rest, cd ++ p) := by
    intro cd
    rw [parse_idat_chunk_framed p t0 t1 t2 t3 rest p.length rfl hpos hlen, decide_eq_false hcrc]
  refine ⟨hr _, ?_, ?_⟩
  · intro h
    have hl := congrArg List.length h
    rw [List.length_append] at hl
    omega
  · rw [decode_png_file_signature, decode_loop_chunk z (fuel + 1) fuel properties none .IDAT
      p.length (by omega), run_branch_idat, hr]
    rfl

/-- Witness of C26: the data chunk with the payload `A0` and the trailer `00 00 00 00` (the
checksum of the chunk is `0xFEEEDE00`). -/
theorem parse_idat_chunk_appends_rejected_witness :
    parse_idat_chunk (ifstream.opened ([0xA0] ++ [0, 0, 0, 0] ++ [])) 1 [0x11, 0x22] =
        (.returned false, ifstream.opened [], [0x11, 0x22, 0xA0]) ∧
      decode_png_file no_memory_zlib 1
          (ifstream.opened (png_signature ++
            (u32_be 1 ++ (ChunkKind.IDAT.tag ++ ([0xA0] ++ [0, 0, 0, 0] ++ [])))))
          zero_properties =
        ⟨.returned false, ifstream.opened [],
          { zero_properties with compressed_data := [0xA0] }, none⟩ :=
  ⟨(parse_idat_chunk_appends_rejected no_memory_zlib 0 [0xA0] 0 0 0 0 [] [0x11, 0x22]
      zero_properties (by decide) (by norm_num) (by decide)).1,
    (parse_idat_chunk_appends_rejected no_memory_zlib 0 [0xA0] 0 0 0 0 [] [0x11, 0x22]
      zero_properties (by decide) (by norm_num) (by decide)).2.2⟩

/-! ## What the palette loop looks at -/

/-- The buffer of a vector-based reader after its `read` of `m` bytes: position `i < m` holds
the `i`-th byte of the stream when the stream is good and has it, and zero otherwise. -/
theorem framed_buffer_get (s : ifstream) (m i : Nat) :
    (vector_filled m (s.read m).1)[i]? =
      if i < m then some (if s.eofbit || s.failbit then 0 else s.data.getD i 0) else none := by
  unfold ifstream.read vector_filled
  by_cases hflag : (s.eofbit || s.failbit) = true
  · rw [if_pos hflag, if_pos hflag]
    simp [List.getElem?_replicate]
  · rw [if_neg hflag, if_neg hflag]
    by_cases hm : m ≤ s.data.length
    · rw [if_pos hm]
      show (s.data.take m ++ List.replicate (m - (s.data.take m).length) 0)[i]? = _
      by_cases hi : i < m
      · rw [if_pos hi, List.getElem?_append_left (by simp; omega), List.getElem?_take_of_lt hi,
          List.getD_eq_getElem _ _ (by omega), List.getElem?_eq_getElem (by omega)]
      · rw [if_neg hi]
        apply List.getElem?_eq_none
        simp
        omega
    · rw [if_neg hm]
      show (s.data ++ List.replicate (m - s.data.length) 0)[i]? = _
      by_cases hi : i < m
      · rw [if_pos hi]
        by_cases hd : i < s.data.length
        · rw [List.getElem?_append_left hd, List.getD_eq_getElem _ _ hd,
            List.getElem?_eq_getElem hd]
        · rw [List.getElem?_append_right (by omega), List.getElem?_replicate,
            if_pos (by omega), List.getD_eq_default _ _ (by omega)]
      · rw [if_neg hi]
        apply List.getElem?_eq_none
        simp
        omega

/-- The buffer of a vector-based reader has the size it was constructed with: `read` never
stores more than the requested number of bytes. -/
theorem framed_buffer_length (s : ifstream) (m : Nat) :
    (vector_filled m (s.read m).1).length = m := by
  unfold ifstream.read vector_filled
  by_cases hflag : (s.eofbit || s.failbit) = true
  · rw [if_pos hflag]
    simp
  · rw [if_neg hflag]
    by_cases hm : m ≤ s.data.length
    · rw [if_pos hm]
      show (s.data.take m ++ List.replicate (m - (s.data.take m).length) 0).length = m
      rw [List.length_append, List.length_replicate, List.length_take]
      omega
    · rw [if_neg hm]
      show (s.data ++ List.replicate (m - s.data.length) 0).length = m
      rw [List.length_append, List.length_replicate]
      omega

/-- Two buffers that agree below the declared length give the same run of the palette
loop. -/
theorem plte_loop_congr (b1 b2 : List Byte) (L : Nat) (hL : L < 2 ^ 32) (h3 : L % 3 = 0)
    (hb : ∀ i, i < L → b1[i]? = b2[i]?) (fuel i : Nat) (hi : i % 3 = 0)
    (palette : List RGB_t) :
    plte_loop b1 L fuel i palette = plte_loop b2 L fuel i palette := by
  induction fuel generalizing i palette with
  | zero => rfl
  | succ fuel ih =>
    rw [plte_loop, plte_loop]
    by_cases hlt : i < L
    · rw [if_pos hlt, if_pos hlt, u32_add_eq i 1 (by omega), u32_add_eq i 2 (by omega),
        u32_add_eq i 3 (by omega), hb i hlt, hb (i + 1) (by omega), hb (i + 2) (by omega)]
      cases b2[i]? <;> cases b2[i + 1]? <;> cases b2[i + 2]? <;> simp only
      exact ih (i + 3) (by omega) _
    · rw [if_neg hlt, if_neg hlt]

/-- The palette `parse_plte_chunk` leaves behind is the result of the palette loop, whatever
the comparison of the checksums says. -/
theorem parse_plte_chunk_result_palette (s : ifstream) (L : Nat) (palette : List RGB_t) :
    (parse_plte_chunk s L palette).2.2 =
      if L % 3 ≠ 0 then palette else
        match plte_loop (vector_filled (u32_add L 4) (s.read (u32_add L 4)).1) L (L + 1) 0
            palette with
        | .error e => e.2
        | .ok palette' => palette' := by
  unfold parse_plte_chunk
  by_cases h3 : L % 3 ≠ 0
  · rw [if_pos h3, if_pos h3]
  · rw [if_neg h3, if_neg h3]
    generalize s.read (u32_add L 4) = r
    obtain ⟨got, s'⟩ := r
    simp only
    cases plte_loop (vector_filled (u32_add L 4) got) L (L + 1) 0 palette with
    | error e => rfl
    | ok palette' =>
      simp only
      split
      · rfl
      · split <;> rfl

/-- On a buffer that ends before the declared length the palette loop reaches an index
outside the buffer. -/
theorem plte_loop_undefined (buffer : List Byte) (L : Nat) (hL : L < 2 ^ 32) (h3 : L % 3 = 0)
    (hb : buffer.length < L) (fuel i : Nat) (hi3 : i % 3 = 0) (hi : i < L)
    (hfuel : L < i + 3 * fuel) (palette : List RGB_t) :
    ∃ palette', plte_loop buffer L fuel i palette = .error (.undefined, palette') := by
  induction fuel generalizing i palette with
  | zero => omega
  | succ fuel ih =>
    rw [plte_loop, if_pos hi, u32_add_eq i 1 (by omega), u32_add_eq i 2 (by omega),
      u32_add_eq i 3 (by omega)]
    by_cases h2 : i + 2 < buffer.length
    · rw [List.getElem?_eq_getElem (by omega : i < buffer.length),
        List.getElem?_eq_getElem (by omega : i + 1 < buffer.length),
        List.getElem?_eq_getElem h2]
      simp only
      exact ih (i + 3) (by omega) (by omega) (by omega) _
    · have hn : buffer[i + 2]? = none := List.getElem?_eq_none (by omega)
      rw [hn]
      cases buffer[i]? <;> cases buffer[i + 1]? <;> exact ⟨_, rfl⟩

/-- The reader of `PLTE` with a declared length that is a multiple of 3 and whose frame fits
the 32-bit buffer size: it returns, and the palette has grown by the entries built from the
first `L` positions of the buffer, which hold the bytes of the stream (zero where the stream
delivered none). -/
theorem parse_plte_chunk_fits (s : ifstream) (L : Nat) (palette : List RGB_t)
    (h3 : L % 3 = 0) (hfit : L + 4 < 2 ^ 32) :
    (∃ b, (parse_plte_chunk s L palette).1 = .returned b) ∧
      (parse_plte_chunk s L palette).2.2 =
        palette ++ (List.range (L / 3)).map (fun i =>
          (⟨if s.eofbit || s.failbit then 0 else s.data.getD (3 * i) 0,
            if s.eofbit || s.failbit then 0 else s.data.getD (3 * i + 1) 0,
            if s.eofbit || s.failbit then 0 else s.data.getD (3 * i + 2) 0⟩ : RGB_t)) := by
  have hlen := framed_buffer_length s (u32_add L 4)
  have hget := framed_buffer_get s (u32_add L 4)
  have hu : u32_add L 4 = L + 4 := u32_add_eq L 4 hfit
  have hLm : L = 3 * (L / 3) := by omega
  have hloop := plte_loop_entries (vector_filled (u32_add L 4) (s.read (u32_add L 4)).1)
    (L / 3) (by omega) (by rw [hlen, hu]; omega) (L + 1) 0 (Nat.zero_le _) (by omega) palette
  rw [← hLm, Nat.mul_zero, Nat.sub_zero] at hloop
  have hmap : (List.range (L / 3)).map (fun j =>
      (⟨(vector_filled (u32_add L 4) (s.read (u32_add L 4)).1).getD (3 * (0 + j)) 0,
        (vector_filled (u32_add L 4) (s.read (u32_add L 4)).1).getD (3 * (0 + j) + 1) 0,
        (vector_filled (u32_add L 4) (s.read (u32_add L 4)).1).getD (3 * (0 + j) + 2) 0⟩
          : RGB_t)) =
      (List.range (L / 3)).map (fun i =>
        (⟨if s.eofbit || s.failbit then 0 else s.data.getD (3 * i) 0,
          if s.eofbit || s.failbit then 0 else s.data.getD (3 * i + 1) 0,
          if s.eofbit || s.failbit then 0 else s.data.getD (3 * i + 2) 0⟩ : RGB_t)) := by
    apply List.map_congr_left
    intro j hj
    have hjn : j < L / 3 := List.mem_range.mp hj
    have g : ∀ k, k < L →
        (vector_filled (u32_add L 4) (s.read (u32_add L 4)).1).getD k 0 =
          if s.eofbit || s.failbit then 0 else s.data.getD k 0 := by
      intro k hk
      rw [List.getD_eq_getElem?_getD, hget k, if_pos (by omega)]
      rfl
    rw [Nat.zero_add, g _ (by omega), g _ (by omega), g _ (by omega)]
  rw [hmap] at hloop
  have hcrc : ∃ v, crc_value_at (vector_filled (u32_add L 4) (s.read (u32_add L 4)).1) L =
      some v := by
    unfold crc_value_at
    rw [u32_add_eq L 1 (by omega), u32_add_eq L 2 (by omega), u32_add_eq L 3 (by omega),
      be32_at_defined _ _ _ _ _ (by omega) (by omega) (by omega) (by omega)]
    exact ⟨_, rfl⟩
  obtain ⟨v, hv⟩ := hcrc
  unfold parse_plte_chunk
  rw [if_neg (not_not_intro h3)]
  generalize s.read (u32_add L 4) = r at hloop hv ⊢
  obtain ⟨got, s2⟩ := r
  simp only at hloop hv ⊢
  rw [hloop]
  simp only
  rw [hv]
  simp only
  split
  · exact ⟨⟨_, rfl⟩, rfl⟩
  · exact ⟨⟨_, rfl⟩, rfl⟩

/-- The reader of `PLTE` with a declared length that is a multiple of 3 and whose frame does
not fit the 32-bit buffer size (`2^32 - 4` and `2^32 - 1`): the buffer has at most three
elements and the palette loop indexes it outside of them. -/
theorem parse_plte_chunk_wrapped_undefined (s : ifstream) (L : Nat) (palette : List RGB_t)
    (hL : L < 2 ^ 32) (h3 : L % 3 = 0) (hwrap : 2 ^ 32 ≤ L + 4) :
    (parse_plte_chunk s L palette).1 = .undefined := by
  have hlen := framed_buffer_length s (u32_add L 4)
  have hu : u32_add L 4 = L + 4 - 2 ^ 32 := by
    unfold u32_add
    omega
  obtain ⟨palette', hloop⟩ := plte_loop_undefined
    (vector_filled (u32_add L 4) (s.read (u32_add L 4)).1) L hL h3 (by rw [hlen, hu]; omega)
    (L + 1) 0 rfl (by omega) (by omega) palette
  unfold parse_plte_chunk
  rw [if_neg (not_not_intro h3)]
  generalize s.read (u32_add L 4) = r at hloop ⊢
  obtain ⟨got, s2⟩ := r
  simp only at hloop ⊢
  rw [hloop]

/-- C27: for every declared length `L` the palette entries `parse_plte_chunk` builds in a
run that returns come from the first `L` bytes of the stream only.  With `L` a multiple of 3
and a frame that fits the buffer size (`L + 4 < 2^32`) the run returns, and the palette
afterwards is the palette before followed by the `L / 3` entries made of the bytes at the
positions `3i`, `3i + 1`, `3i + 2 < L` (zero where the stream delivered no byte); hence two
streams in the same state that agree on their first `L` bytes give the same palette,
whatever follows these bytes (trailer, later chunks, or nothing), and the run on the one
returns when the run on the other does.  With `L` not a multiple of 3 the reader stops at
its assertion and builds no entry.  The two multiples of 3 whose frame does not fit,
`2^32 - 4` and `2^32 - 1`, give no run that returns: the loop indexes the wrapped buffer
outside its elements. -/
theorem parse_plte_chunk_payload_only (s1 s2 : ifstream) (L : Nat) (palette : List RGB_t)
    (hL : L < 2 ^ 32) (heof : s1.eofbit = s2.eofbit) (hfail : s1.failbit = s2.failbit)
    (hdata : s1.data.take L = s2.data.take L) :
    (∀ b, (parse_plte_chunk s1 L palette).1 = .returned b →
      (∃ b2, (parse_plte_chunk s2 L palette).1 = .returned b2) ∧
        (parse_plte_chunk s1 L palette).2.2 = (parse_plte_chunk s2 L palette).2.2 ∧
        (parse_plte_chunk s1 L palette).2.2 =
          palette ++ (List.range (L / 3)).map (fun i =>
            (⟨if s1.eofbit || s1.failbit then 0 else (s1.data.take L).getD (3 * i) 0,
              if s1.eofbit || s1.failbit then 0 else (s1.data.take L).getD (3 * i + 1) 0,
              if s1.eofbit || s1.failbit then 0 else (s1.data.take L).getD (3 * i + 2) 0⟩
                : RGB_t))) ∧
      (L % 3 = 0 → L + 4 < 2 ^ 32 → ∃ b, (parse_plte_chunk s1 L palette).1 = .returned b) ∧
      (L % 3 = 0 → 2 ^ 32 ≤ L + 4 → (parse_plte_chunk s1 L palette).1 = .undefined) ∧
      (L % 3 ≠ 0 → parse_plte_chunk s1 L palette = (.assert_failed, s1, palette)) := by
  have hassert : L % 3 ≠ 0 → parse_plte_chunk s1 L palette = (.assert_failed, s1, palette) := by
    intro h3
    unfold parse_plte_chunk
    rw [if_pos h3]
  have htake : ∀ (s : ifstream) (k : Nat), k < L →
      (s.data.take L).getD k 0 = s.data.getD k 0 := by
    intro s k hk
    rw [List.getD_eq_getElem?_getD, List.getD_eq_getElem?_getD, List.getElem?_take_of_lt hk]
  have hentries : ∀ s : ifstream,
      (List.range (L / 3)).map (fun i =>
        (⟨if s.eofbit || s.failbit then 0 else s.data.getD (3 * i) 0,
          if s.eofbit || s.failbit then 0 else s.data.getD (3 * i + 1) 0,
          if s.eofbit || s.failbit then 0 else s.data.getD (3 * i + 2) 0⟩ : RGB_t)) =
      (List.range (L / 3)).map (fun i =>
        (⟨if s.eofbit || s.failbit then 0 else (s.data.take L).getD (3 * i) 0,
          if s.eofbit || s.failbit then 0 else (s.data.take L).getD (3 * i + 1) 0,
          if s.eofbit || s.failbit then 0 else (s.data.take L).getD (3 * i + 2) 0⟩
            : RGB_t)) := by
    intro s
    apply List.map_congr_left
    intro i hi
    have hin : i < L / 3 := List.mem_range.mp hi
    rw [htake s _ (by omega), htake s _ (by omega), htake s _ (by omega)]
  refine ⟨?_, ?_, ?_, hassert⟩
  · intro b hb
    have h3 : L % 3 = 0 := by
      by_contra h
      rw [hassert h] at hb
      exact Status.noConfusion hb
    have hfit : L + 4 < 2 ^ 32 := by
      by_contra h
      rw [parse_plte_chunk_wrapped_undefined s1 L palette hL h3 (by omega)] at hb
      exact Status.noConfusion hb
    have e1 := (parse_plte_chunk_fits s1 L palette h3 hfit).2
    have e2 := (parse_plte_chunk_fits s2 L palette h3 hfit).2
    rw [hentries s1] at e1
    rw [hentries s2, ← heof, ← hfail, ← hdata] at e2
    exact ⟨(parse_plte_chunk_fits s2 L palette h3 hfit).1, e1.trans e2.symm, e1⟩
  · intro h3 hfit
    exact (parse_plte_chunk_fits s1 L palette h3 hfit).1
  · intro h3 hwrap
    exact parse_plte_chunk_wrapped_undefined s1 L palette hL h3 hwrap

/-- Witness of C27: one palette entry followed by a trailer and more bytes, against the same
entry at the end of the stream; and the declared length 4. -/
theorem parse_plte_chunk_payload_only_witness :
    (parse_plte_chunk (ifstream.opened [10, 20, 30, 0xDE, 0xAD, 0xBE, 0xEF, 1, 2]) 3
        [⟨1, 2, 3⟩]).1 = .returned false ∧
      (parse_plte_chunk (ifstream.opened [10, 20, 30, 0xDE, 0xAD, 0xBE, 0xEF, 1, 2]) 3
        [⟨1, 2, 3⟩]).2.2 =
        (parse_plte_chunk (ifstream.opened [10, 20, 30]) 3 [⟨1, 2, 3⟩]).2.2 ∧
      (parse_plte_chunk (ifstream.opened [10, 20, 30, 0xDE, 0xAD, 0xBE, 0xEF, 1, 2]) 3
        [⟨1, 2, 3⟩]).2.2 = [⟨1, 2, 3⟩, ⟨10, 20, 30⟩] ∧
      parse_plte_chunk (ifstream.opened [10, 20, 30, 40, 0xDE, 0xAD, 0xBE, 0xEF]) 4 [] =
        (.assert_failed, ifstream.opened [10, 20, 30, 40, 0xDE, 0xAD, 0xBE, 0xEF], []) :=
  ⟨by decide,
    ((parse_plte_chunk_payload_only
      (ifstream.opened [10, 20, 30, 0xDE, 0xAD, 0xBE, 0xEF, 1, 2])
      (ifstream.opened [10, 20, 30]) 3 [⟨1, 2, 3⟩] (by norm_num) rfl rfl (by decide)).1 false
      (by decide)).2.1,
    ((parse_plte_chunk_payload_only
      (ifstream.opened [10, 20, 30, 0xDE, 0xAD, 0xBE, 0xEF, 1, 2])
      (ifstream.opened [10, 20, 30]) 3 [⟨1, 2, 3⟩] (by norm_num) rfl rfl (by decide)).1 false
      (by decide)).2.2,
    (parse_plte_chunk_payload_only
      (ifstream.opened [10, 20, 30, 40, 0xDE, 0xAD, 0xBE, 0xEF])
      (ifstream.opened [10, 20, 30, 40]) 4 [] (by norm_num) rfl rfl (by decide)).2.2.2
      (by decide)⟩

/-! ## The stream after a reader -/

theorem framed_check_stream (tag : List Byte) (s : ifstream) (n : Nat) :
    (framed_check tag s n).2 = (s.read (u32_add n 4)).2 := by
  unfold framed_check
  generalize s.read (u32_add n 4) = r
  obtain ⟨got, s'⟩ := r
  simp only
  split
  · rfl
  · split <;> rfl

theorem parse_ihdr_chunk_stream (s : ifstream) (ihdr : IHDR_t) :
    (parse_ihdr_chunk s 13 ihdr).2.1 = (s.read (u32_add 13 4)).2 := by
  unfold parse_ihdr_chunk
  rw [if_neg (by simp)]
  generalize s.read (u32_add 13 4) = r
  obtain ⟨got, s'⟩ := r
  simp only
  split
  · split
    · rfl
    · split
      · rfl
      · split <;> rfl
  · rfl

theorem parse_plte_chunk_stream (s : ifstream) (n : Nat) (h : n % 3 = 0)
    (palette : List RGB_t) :
    (parse_plte_chunk s n palette).2.1 = (s.read (u32_add n 4)).2 := by
  unfold parse_plte_chunk
  rw [if_neg (not_not_intro h)]
  generalize s.read (u32_add n 4) = r
  obtain ⟨got, s'⟩ := r
  simp only
  split
  · rfl
  · split
    · rfl
    · split <;> rfl

theorem parse_idat_chunk_stream (s : ifstream) (n : Nat) (h : 0 < n)
    (compressed_data : List Byte) :
    (parse_idat_chunk s n compressed_data).2.1 = (s.read (u32_add n 4)).2 := by
  unfold parse_idat_chunk
  rw [if_neg (not_not_intro h)]
  generalize s.read (u32_add n 4) = r
  obtain ⟨got, s'⟩ := r
  simp only
  split
  · rfl
  · split
    · rfl
    · split <;> rfl

theorem parse_iend_chunk_stream (s : ifstream) :
    (parse_iend_chunk s 0).2 = (s.read (u32_add 0 4)).2 := by
  unfold parse_iend_chunk
  rw [if_neg (by simp)]
  generalize s.read (u32_add 0 4) = r
  obtain ⟨got, s'⟩ := r
  simp only
  split
  · rfl
  · split <;> rfl

theorem parse_bkgd_chunk_stream (s : ifstream) (n : Nat) (h : n = 1 ∨ n = 6)
    (bkgd_color : bKGD_t) :
    (parse_bkgd_chunk s n bkgd_color).2.1 = (s.read (u32_add n 4)).2 := by
  unfold parse_bkgd_chunk
  rw [if_neg (not_not_intro h)]
  generalize s.read (u32_add n 4) = r
  obtain ⟨got, s'⟩ := r
  simp only
  split
  · rfl
  · split
    · rfl
    · split
      · split <;> rfl
      · split
        · split <;> rfl
        · rfl

theorem parse_chrm_chunk_stream (s : ifstream) (chrm : cHRM_t) :
    (parse_chrm_chunk s 32 chrm).2.1 = (s.read (u32_add 32 4)).2 := by
  unfold parse_chrm_chunk
  rw [if_neg (by simp)]
  generalize s.read (u32_add 32 4) = r
  obtain ⟨got, s'⟩ := r
  simp only
  split
  · rfl
  · split
    · rfl
    · split <;> rfl

theorem parse_phys_chunk_stream (s : ifstream) (phys : pHYs_t) :
    (parse_phys_chunk s 9 phys).2.1 = (s.read (u32_add 9 4)).2 := by
  unfold parse_phys_chunk
  rw [if_neg (by simp)]
  generalize s.read (u32_add 9 4) = r
  obtain ⟨got, s'⟩ := r
  simp only
  split
  · split
    · rfl
    · split <;> rfl
  · rfl

/-- One framed read of `L + 4` bytes on a stream that holds them. -/
theorem read_frame (data : List Byte) (L : Nat) (hL : L + 4 < 2 ^ 32)
    (hdata : L + 4 ≤ data.length) :
    ((ifstream.opened data).read (u32_add L 4)).2 = ifstream.opened (data.drop (L + 4)) := by
  rw [u32_add_eq L 4 hL]
  unfold ifstream.read ifstream.opened
  simp [hdata]

/-- A vector-based reader called with a declared length of `2^32 - 4`: the buffer size
`chunk_length + 4` wraps to 0, nothing is read, and the trailer index is outside the
buffer. -/
theorem framed_check_wrapped_zero (tag data : List Byte) :
    framed_check tag (ifstream.opened data) 4294967292 = (.undefined, ifstream.opened data) := by
  unfold framed_check
  have hu : u32_add 4294967292 4 = 0 := by decide
  have hr : (ifstream.opened data).read 0 = ([], ifstream.opened data) := by
    simp [ifstream.read, ifstream.opened]
  rw [hu, hr]
  rfl

/-- Counterexample to C28 as stated: `parse_cicp_chunk` has no assertion on the length; with
the declared length `2^32 - 4` on a stream of `2^32` bytes it reads nothing, so the stream
has not advanced by `length + 4` bytes. -/
theorem reader_advances_frame_counterexample :
    (4294967292 : Nat) + 4 ≤ (List.replicate 4294967296 (0 : Byte)).length ∧
      parse_cicp_chunk (ifstream.opened (List.replicate 4294967296 0)) 4294967292 =
        (.undefined, ifstream.opened (List.replicate 4294967296 0)) := by
  have hf : parse_cicp_chunk = framed_check ChunkKind.cICP.tag :=
    discard_readers_framed_check (ChunkKind.cICP.tag, parse_cicp_chunk)
      (by simp [discard_readers])
  refine ⟨?_, ?_⟩
  · rw [List.length_replicate]
  · rw [hf, framed_check_wrapped_zero]

/-- C28 (amended): for every declared length `L` with `L + 4 < 2^32` and every stream that
holds at least `L + 4` bytes, each reader whose assertion on the length `L` passes leaves the
stream `L + 4` bytes further (payload and trailer), whatever the outcome of the
verification: the fifteen verify-only readers for every `L`, and the readers of `IHDR`
(`L = 13`), `PLTE` (`L` a multiple of 3), `IDAT` (`L > 0`), `IEND` (`L = 0`), `bKGD`
(`L = 1` or `6`), `cHRM` (`L = 32`) and `pHYs` (`L = 9`). -/
theorem reader_advances_frame (L : Nat) (data : List Byte) (hL : L + 4 < 2 ^ 32)
    (hdata : L + 4 ≤ data.length) :
    (∀ r ∈ discard_readers,
      (r.2 (ifstream.opened data) L).2 = ifstream.opened (data.drop (L + 4))) ∧
    (L = 13 → ∀ ihdr, (parse_ihdr_chunk (ifstream.opened data) L ihdr).2.1 =
      ifstream.opened (data.drop (L + 4))) ∧
    (L % 3 = 0 → ∀ palette, (parse_plte_chunk (ifstream.opened data) L palette).2.1 =
      ifstream.opened (data.drop (L + 4))) ∧
    (0 < L → ∀ compressed_data,
      (parse_idat_chunk (ifstream.opened data) L compressed_data).2.1 =
        ifstream.opened (data.drop (L + 4))) ∧
    (L = 0 → (parse_iend_chunk (ifstream.opened data) L).2 =
      ifstream.opened (data.drop (L + 4))) ∧
    (L = 1 ∨ L = 6 → ∀ bkgd_color,
      (parse_bkgd_chunk (ifstream.opened data) L bkgd_color).2.1 =
        ifstream.opened (data.drop (L + 4))) ∧
    (L = 32 → ∀ chrm, (parse_chrm_chunk (ifstream.opened data) L chrm).2.1 =
      ifstream.opened (data.drop (L + 4))) ∧
    (L = 9 → ∀ phys, (parse_phys_chunk (ifstream.opened data) L phys).2.1 =
      ifstream.opened (data.drop (L + 4))) := by
  have hread := read_frame data L hL hdata
  refine ⟨?_, ?_, ?_, ?_, ?_, ?_, ?_, ?_⟩
  · intro r hr
    rw [discard_readers_framed_check r hr, framed_check_stream, hread]
  · intro h ihdr
    subst h
    rw [parse_ihdr_chunk_stream, hread]
  · intro h palette
    rw [parse_plte_chunk_stream _ _ h, hread]
  · intro h compressed_data
    rw [parse_idat_chunk_stream _ _ h, hread]
  · intro h
    subst h
    rw [parse_iend_chunk_stream, hread]
  · intro h bkgd_color
    rw [parse_bkgd_chunk_stream _ _ h, hread]
  · intro h chrm
    subst h
    rw [parse_chrm_chunk_stream, hread]
  · intro h phys
    subst h
    rw [parse_phys_chunk_stream, hread]

/-- Witness of C28: the reader of `gAMA` on a chunk with a wrong trailer and the reader of
`IDAT` on a chunk with the correct one (`0xFEEEDE00`); both stop in front of the byte that
follows the trailer. -/
theorem reader_advances_frame_witness :
    parse_gama_chunk (ifstream.opened [0x00, 0x00, 0xB1, 0x8F, 0, 0, 0, 0, 0x2A]) 4 =
        (.returned false, ifstream.opened [0x2A]) ∧
      (parse_gama_chunk (ifstream.opened [0x00, 0x00, 0xB1, 0x8F, 0, 0, 0, 0, 0x2A]) 4).2 =
        ifstream.opened
          (([0x00, 0x00, 0xB1, 0x8F, 0, 0, 0, 0, 0x2A] : List Byte).drop (4 + 4)) ∧
      (parse_idat_chunk (ifstream.opened [0xA0, 0xFE, 0xEE, 0xDE, 0x00, 0x2A]) 1 []).1 =
        .returned true ∧
      (parse_idat_chunk (ifstream.opened [0xA0, 0xFE, 0xEE, 0xDE, 0x00, 0x2A]) 1 []).2.1 =
        ifstream.opened (([0xA0, 0xFE, 0xEE, 0xDE, 0x00, 0x2A] : List Byte).drop (1 + 4)) :=
  ⟨by decide,
    (reader_advances_frame 4 [0x00, 0x00, 0xB1, 0x8F, 0, 0, 0, 0, 0x2A] (by norm_num)
      (by decide)).1 (ChunkKind.gAMA.tag, parse_gama_chunk) (by simp [discard_readers]),
    by decide,
    (reader_advances_frame 1 [0xA0, 0xFE, 0xEE, 0xDE, 0x00, 0x2A] (by norm_num)
      (by decide)).2.2.2.1 (by decide) []⟩

/-- C29: when the first eight bytes of the stream are not the signature (shorter streams
included), `decode_png_file` stops after its one read of eight bytes: the stream has lost
its first eight bytes (all of them when it held fewer) and nothing else, every field of the
properties is as it was, and no output file has been written. -/
theorem decode_png_file_stops_at_bad_signature (z : Zlib) (fuel : Nat) (bytes : List Byte)
    (properties : png_properties_t) (h : bytes.take 8 ≠ png_signature) :
    (decode_png_file z fuel (ifstream.opened bytes) properties).stream =
        ((ifstream.opened bytes).read 8).2 ∧
      (decode_png_file z fuel (ifstream.opened bytes) properties).stream.data =
        bytes.drop 8 ∧
      (decode_png_file z fuel (ifstream.opened bytes) properties).properties = properties ∧
      (decode_png_file z fuel (ifstream.opened bytes) properties).output_file = none := by
  have hc := signature_check_fails bytes h
  have e : decode_png_file z fuel (ifstream.opened bytes) properties =
      ⟨.returned (int_to_bool EXIT_FAILURE), ((ifstream.opened bytes).read 8).2, properties,
        none⟩ := by
    unfold decode_png_file
    generalize (ifstream.opened bytes).read 8 = r at hc ⊢
    obtain ⟨got, stream⟩ := r
    simp only at hc ⊢
    rw [if_pos hc]
  rw [e]
  refine ⟨rfl, ?_, rfl, rfl⟩
  show ((ifstream.opened bytes).read 8).2.data = bytes.drop 8
  by_cases hl : 8 ≤ bytes.length
  · simp [ifstream.read, ifstream.opened, hl]
  · have hd : bytes.drop 8 = [] := List.drop_eq_nil_of_le (by omega)
    simp [ifstream.read, ifstream.opened, hl, hd]

/-- Witness of C29: a stream that starts like a JPEG file and goes on with a valid terminal
chunk; the chunk is still on the stream afterwards. -/
theorem decode_png_file_stops_at_bad_signature_witness :
    ([0xFF, 0xD8, 0xFF, 0xE0, 0, 0x10, 0x4A, 0x46, 0, 0, 0, 0, 0x49, 0x45, 0x4E, 0x44,
        0xAE, 0x42, 0x60, 0x82] : List Byte).take 8 ≠ png_signature ∧
      (decode_png_file no_memory_zlib 5
        (ifstream.opened [0xFF, 0xD8, 0xFF, 0xE0, 0, 0x10, 0x4A, 0x46, 0, 0, 0, 0, 0x49, 0x45,
          0x4E, 0x44, 0xAE, 0x42, 0x60, 0x82]) zero_properties).stream.data =
        [0, 0, 0, 0, 0x49, 0x45, 0x4E, 0x44, 0xAE, 0x42, 0x60, 0x82] ∧
      (decode_png_file no_memory_zlib 5
        (ifstream.opened [0xFF, 0xD8, 0xFF, 0xE0, 0, 0x10, 0x4A, 0x46, 0, 0, 0, 0, 0x49, 0x45,
          0x4E, 0x44, 0xAE, 0x42, 0x60, 0x82]) zero_properties).properties =
        zero_properties :=
  ⟨by decide,
    (decode_png_file_stops_at_bad_signature no_memory_zlib 5 _ zero_properties (by decide)).2.1,
    (decode_png_file_stops_at_bad_signature no_memory_zlib 5 _ zero_properties
      (by decide)).2.2.1⟩

/-! ## The trailer of the terminal chunk -/

theorem crc32_standard_iend : crc32_standard [ch 'I', ch 'E', ch 'N', ch 'D'] = 0xAE426082 := by
  decide

theorem be32_eq_iend_crc (b0 b1 b2 b3 : Byte) :
    be32 b0 b1 b2 b3 = 0xAE426082 ↔ b0 = 0xAE ∧ b1 = 0x42 ∧ b2 = 0x60 ∧ b3 = 0x82 := by
  rw [be32_eq]
  have h0 := b0.isLt
  have h1 := b1.isLt
  have h2 := b2.isLt
  have h3 := b3.isLt
  constructor
  · intro h
    exact ⟨Fin.ext (by show b0.val = 174; omega), Fin.ext (by show b1.val = 66; omega),
      Fin.ext (by show b2.val = 96; omega), Fin.ext (by show b3.val = 130; omega)⟩
  · rintro ⟨rfl, rfl, rfl, rfl⟩
    rfl

/-- The reader of `IEND` on a stream that ends before the fourth trailer byte: the buffer
keeps a zero in its last position, which is not the last byte of the checksum. -/
theorem parse_iend_chunk_short (data : List Byte) (h : data.length < 4) :
    (parse_iend_chunk (ifstream.opened data) 0).1 = .returned false := by
  have key : ∀ b0 b1 b2 : Byte, be32 b0 b1 b2 0 ≠ 0xAE426082 := by
    intro b0 b1 b2 e
    have := (be32_eq_iend_crc b0 b1 b2 0).mp e
    exact absurd this.2.2.2 (by decide)
  have hc : crc32 0 [ch 'I', ch 'E', ch 'N', ch 'D'] % 2 ^ 32 = 0xAE426082 := by decide
  match data, h with
  | [], _ => decide
  | [a], _ =>
    have e : parse_iend_chunk (ifstream.opened [a]) 0 =
        (if crc32 0 [ch 'I', ch 'E', ch 'N', ch 'D'] % 2 ^ 32 ≠ be32 a 0 0 0 then
          (Status.returned false, (⟨[], true, true⟩ : ifstream))
        else (Status.returned true, ⟨[], true, true⟩)) := rfl
    rw [e, hc, if_pos (fun e => key a 0 0 e.symm)]
  | [a, b], _ =>
    have e : parse_iend_chunk (ifstream.opened [a, b]) 0 =
        (if crc32 0 [ch 'I', ch 'E', ch 'N', ch 'D'] % 2 ^ 32 ≠ be32 a b 0 0 then
          (Status.returned false, (⟨[], true, true⟩ : ifstream))
        else (Status.returned true, ⟨[], true, true⟩)) := rfl
    rw [e, hc, if_pos (fun e => key a b 0 e.symm)]
  | [a, b, c], _ =>
    have e : parse_iend_chunk (ifstream.opened [a, b, c]) 0 =
        (if crc32 0 [ch 'I', ch 'E', ch 'N', ch 'D'] % 2 ^ 32 ≠ be32 a b c 0 then
          (Status.returned false, (⟨[], true, true⟩ : ifstream))
        else (Status.returned true, ⟨[], true, true⟩)) := rfl
    rw [e, hc, if_pos (fun e => key a b c e.symm)]

/-- C30: the CRC-32 of the type `IEND` is `0xAE426082`, on the wire `AE 42 60 82`; on every
stream `parse_iend_chunk` with the declared length 0 returns `true` when the next four
bytes are exactly these, and returns `false` otherwise (also when fewer than four bytes are
left). -/
theorem parse_iend_chunk_trailer (data : List Byte) :
    crc32_standard ChunkKind.IEND.tag = 0xAE426082 ∧
      u32_be 0xAE426082 = [0xAE, 0x42, 0x60, 0x82] ∧
      (parse_iend_chunk (ifstream.opened data) 0).1 =
        .returned (decide (data.take 4 = [0xAE, 0x42, 0x60, 0x82])) ∧
      ((parse_iend_chunk (ifstream.opened data) 0).1 = .returned true ↔
        data.take 4 = [0xAE, 0x42, 0x60, 0x82]) := by
  have main : (parse_iend_chunk (ifstream.opened data) 0).1 =
      .returned (decide (data.take 4 = [0xAE, 0x42, 0x60, 0x82])) := by
    by_cases hl : data.length < 4
    · rw [parse_iend_chunk_short data hl]
      have hne : data.take 4 ≠ [0xAE, 0x42, 0x60, 0x82] := by
        intro e
        have := congrArg List.length e
        simp at this
        omega
      rw [decide_eq_false hne]
    · rcases data with _ | ⟨a, _ | ⟨b, _ | ⟨c, _ | ⟨d, rest⟩⟩⟩⟩
      · exact absurd (by decide) hl
      · exact absurd (by simp) hl
      · exact absurd (by simp) hl
      · exact absurd (by simp) hl
      · have e := parse_iend_chunk_framed a b c d rest
        rw [show [a, b, c, d] ++ rest = a :: b :: c :: d :: rest from rfl] at e
        rw [e, crc32_standard_iend]
        simp [be32_eq_iend_crc]
  refine ⟨crc32_standard_iend, by decide, main, ?_⟩
  rw [main]
  simp

/-! ## The claims on the background colour, the buffer size and the records -/

/-- C31: on a 6-byte `bKGD` payload whose trailer is the CRC-32 of type and payload,
`parse_bkgd_chunk` returns `true` with red, green and blue the payload bytes 0, 1 and 2 and
`is_indexed = false`; the bytes 3, 4 and 5 occur in the checksum only.  Two such chunks that
agree on the bytes 0..2, each with its own correct trailer, give the same red, green and
blue (the same record when the records before the calls are equal). -/
theorem parse_bkgd_chunk_truecolor (b0 b1 b2 b3 b4 b5 c3 c4 c5 t0 t1 t2 t3 u0 u1 u2 u3 : Byte)
    (rest rest2 : List Byte) (bkgd_color bkgd_color2 : bKGD_t)
    (ht : be32 t0 t1 t2 t3 =
      crc32_standard ([ch 'b', ch 'K', ch 'G', ch 'D'] ++ [b0, b1, b2, b3, b4, b5]))
    (hu : be32 u0 u1 u2 u3 =
      crc32_standard ([ch 'b', ch 'K', ch 'G', ch 'D'] ++ [b0, b1, b2, c3, c4, c5])) :
    parse_bkgd_chunk (ifstream.opened ([b0, b1, b2, b3, b4, b5] ++ [t0, t1, t2, t3] ++ rest)) 6
        bkgd_color =
      (.returned true, ifstream.opened rest,
        { red := b0, green := b1, blue := b2, index := bkgd_color.index,
          is_indexed := false }) ∧
    (parse_bkgd_chunk (ifstream.opened ([b0, b1, b2, c3, c4, c5] ++ [u0, u1, u2, u3] ++ rest2))
        6 bkgd_color2).2.2.red =
      (parse_bkgd_chunk (ifstream.opened ([b0, b1, b2, b3, b4, b5] ++ [t0, t1, t2, t3] ++ rest))
        6 bkgd_color).2.2.red ∧
    (parse_bkgd_chunk (ifstream.opened ([b0, b1, b2, c3, c4, c5] ++ [u0, u1, u2, u3] ++ rest2))
        6 bkgd_color2).2.2.green =
      (parse_bkgd_chunk (ifstream.opened ([b0, b1, b2, b3, b4, b5] ++ [t0, t1, t2, t3] ++ rest))
        6 bkgd_color).2.2.green ∧
    (parse_bkgd_chunk (ifstream.opened ([b0, b1, b2, c3, c4, c5] ++ [u0, u1, u2, u3] ++ rest2))
        6 bkgd_color2).2.2.blue =
      (parse_bkgd_chunk (ifstream.opened ([b0, b1, b2, b3, b4, b5] ++ [t0, t1, t2, t3] ++ rest))
        6 bkgd_color).2.2.blue ∧
    (parse_bkgd_chunk (ifstream.opened ([b0, b1, b2, c3, c4, c5] ++ [u0, u1, u2, u3] ++ rest2))
        6 bkgd_color).2.2 =
      (parse_bkgd_chunk (ifstream.opened ([b0, b1, b2, b3, b4, b5] ++ [t0, t1, t2, t3] ++ rest))
        6 bkgd_color).2.2 := by
  rw [parse_bkgd_chunk_framed [b0, b1, b2, b3, b4, b5] t0 t1 t2 t3 rest 6 rfl (Or.inr rfl),
    parse_bkgd_chunk_framed [b0, b1, b2, c3, c4, c5] u0 u1 u2 u3 rest2 6 rfl (Or.inr rfl),
    parse_bkgd_chunk_framed [b0, b1, b2, c3, c4, c5] u0 u1 u2 u3 rest2 6 rfl (Or.inr rfl),
    if_pos ht, if_pos hu, if_pos hu]
  exact ⟨rfl, rfl, rfl, rfl, rfl⟩

/-- Witness of C31: the colours `00 FF 00 80 00 40` (checksum `0xA4CE26E3`) and
`00 FF 00 01 02 03` (checksum `0x99DA25FC`) both decode to red 0, green 255, blue 0. -/
theorem parse_bkgd_chunk_truecolor_witness :
    parse_bkgd_chunk
        (ifstream.opened ([0, 0xFF, 0, 0x80, 0, 0x40] ++ [0xA4, 0xCE, 0x26, 0xE3] ++ [])) 6
        zero_properties.bkgd =
      (.returned true, ifstream.opened [],
        { red := 0, green := 0xFF, blue := 0, index := 0, is_indexed := false }) ∧
    (parse_bkgd_chunk
        (ifstream.opened ([0, 0xFF, 0, 1, 2, 3] ++ [0x99, 0xDA, 0x25, 0xFC] ++ [0x2A])) 6
        zero_properties.bkgd).2.2 =
      (parse_bkgd_chunk
        (ifstream.opened ([0, 0xFF, 0, 0x80, 0, 0x40] ++ [0xA4, 0xCE, 0x26, 0xE3] ++ [])) 6
        zero_properties.bkgd).2.2 :=
  ⟨(parse_bkgd_chunk_truecolor 0 0xFF 0 0x80 0 0x40 1 2 3 0xA4 0xCE 0x26 0xE3 0x99 0xDA 0x25
      0xFC [] [0x2A] zero_properties.bkgd zero_properties.bkgd (by decide) (by decide)).1,
    (parse_bkgd_chunk_truecolor 0 0xFF 0 0x80 0 0x40 1 2 3 0xA4 0xCE 0x26 0xE3 0x99 0xDA 0x25
      0xFC [] [0x2A] zero_properties.bkgd zero_properties.bkgd (by decide)
      (by decide)).2.2.2.2⟩

/-! ## The size of the framed buffer -/

/-- The trailer expression on a buffer that ends at or before the index `chunk_length`. -/
theorem crc_value_at_outside (buffer : List Byte) (chunk_length : Nat)
    (h : buffer.length ≤ chunk_length) : crc_value_at buffer chunk_length = none := by
  unfold crc_value_at be32_at
  rw [List.getElem?_eq_none h]

theorem framed_check_outside (tag : List Byte) (s : ifstream) (chunk_length : Nat)
    (h : u32_add chunk_length 4 ≤ chunk_length) :
    (framed_check tag s chunk_length).1 = .undefined := by
  have hnone := crc_value_at_outside
    (vector_filled (u32_add chunk_length 4) (s.read (u32_add chunk_length 4)).1) chunk_length
    (by rw [framed_buffer_length]; exact h)
  unfold framed_check
  generalize s.read (u32_add chunk_length 4) = r at hnone ⊢
  obtain ⟨got, s2⟩ := r
  simp only at hnone ⊢
  rw [hnone]

theorem parse_idat_chunk_outside (s : ifstream) (chunk_length : Nat)
    (compressed_data : List Byte) (hpos : 0 < chunk_length)
    (h : u32_add chunk_length 4 < 4) :
    (parse_idat_chunk s chunk_length compressed_data).1 = .undefined := by
  have hlen := framed_buffer_length s (u32_add chunk_length 4)
  unfold parse_idat_chunk
  rw [if_neg (not_not_intro hpos)]
  generalize s.read (u32_add chunk_length 4) = r at hlen ⊢
  obtain ⟨got, s2⟩ := r
  simp only at hlen ⊢
  rw [hlen, if_pos h]

/-- C32: the buffer of a vector-based reader called with the declared length
`chunk_length < 2^32` has `(chunk_length + 4) mod 2^32` elements, whatever the stream
delivers.  Up to `chunk_length = 2^32 - 5` this is `chunk_length + 4` and the four trailer
indices `chunk_length .. chunk_length + 3` are inside the buffer, so the trailer expression
has a value.  From `2^32 - 4` on the size wraps to a value in `0 .. 3` and the index
`chunk_length` is outside the buffer: the trailer expression has no value, each of the
fifteen verify-only readers and the reader of `IDAT` reads outside its buffer. -/
theorem framed_buffer_size (s : ifstream) (chunk_length : Nat) (h : chunk_length < 2 ^ 32) :
    (vector_filled (u32_add chunk_length 4) (s.read (u32_add chunk_length 4)).1).length =
        (chunk_length + 4) % 2 ^ 32 ∧
      (chunk_length ≤ 2 ^ 32 - 5 →
        (vector_filled (u32_add chunk_length 4) (s.read (u32_add chunk_length 4)).1).length =
            chunk_length + 4 ∧
          u32_add chunk_length 1 = chunk_length + 1 ∧
          u32_add chunk_length 2 = chunk_length + 2 ∧
          u32_add chunk_length 3 = chunk_length + 3 ∧
          chunk_length + 3 <
            (vector_filled (u32_add chunk_length 4)
              (s.read (u32_add chunk_length 4)).1).length ∧
          (crc_value_at
            (vector_filled (u32_add chunk_length 4) (s.read (u32_add chunk_length 4)).1)
            chunk_length).isSome = true) ∧
      (2 ^ 32 - 4 ≤ chunk_length →
        (vector_filled (u32_add chunk_length 4) (s.read (u32_add chunk_length 4)).1).length =
            chunk_length + 4 - 2 ^ 32 ∧
          (vector_filled (u32_add chunk_length 4) (s.read (u32_add chunk_length 4)).1).length ≤
            3 ∧
          (vector_filled (u32_add chunk_length 4) (s.read (u32_add chunk_length 4)).1).length ≤
            chunk_length ∧
          crc_value_at
              (vector_filled (u32_add chunk_length 4) (s.read (u32_add chunk_length 4)).1)
              chunk_length = none ∧
          (∀ r ∈ discard_readers, (r.2 s chunk_length).1 = .undefined) ∧
          (∀ compressed_data,
            (parse_idat_chunk s chunk_length compressed_data).1 = .undefined)) := by
  rw [framed_buffer_length]
  refine ⟨rfl, ?_, ?_⟩
  · intro hle
    have e4 : u32_add chunk_length 4 = chunk_length + 4 := u32_add_eq _ _ (by omega)
    have e1 : u32_add chunk_length 1 = chunk_length + 1 := u32_add_eq _ _ (by omega)
    have e2 : u32_add chunk_length 2 = chunk_length + 2 := u32_add_eq _ _ (by omega)
    have e3 : u32_add chunk_length 3 = chunk_length + 3 := u32_add_eq _ _ (by omega)
    refine ⟨e4, e1, e2, e3, by omega, ?_⟩
    have hl := framed_buffer_length s (u32_add chunk_length 4)
    unfold crc_value_at
    rw [e1, e2, e3, be32_at_defined _ _ _ _ _ (by omega) (by omega) (by omega) (by omega)]
    rfl
  · intro hge
    have e4 : u32_add chunk_length 4 = chunk_length + 4 - 2 ^ 32 := by
      unfold u32_add
      omega
    have hle : u32_add chunk_length 4 ≤ chunk_length := by omega
    refine ⟨e4, by omega, hle, ?_, ?_, ?_⟩
    · exact crc_value_at_outside _ _ (by rw [framed_buffer_length]; exact hle)
    · intro r hr
      rw [discard_readers_framed_check r hr]
      exact framed_check_outside r.1 s chunk_length hle
    · intro compressed_data
      exact parse_idat_chunk_outside s chunk_length compressed_data (by omega) (by omega)

/-- Witness of C32: the declared length 1 on a stream of two bytes (a buffer of five
elements, the last three zero) and the declared length `2^32 - 2` (a buffer of two
elements). -/
theorem framed_buffer_size_witness :
    (vector_filled (u32_add 1 4) ((ifstream.opened [0xA0, 0xFE]).read (u32_add 1 4)).1).length =
        5 ∧
      (vector_filled (u32_add 4294967294 4)
        ((ifstream.opened [0xA0, 0xFE, 0xEE, 0xDE, 0x00]).read
          (u32_add 4294967294 4)).1).length = 2 ∧
      (parse_gama_chunk (ifstream.opened [0xA0, 0xFE, 0xEE, 0xDE, 0x00]) 4294967294).1 =
        .undefined :=
  ⟨((framed_buffer_size (ifstream.opened [0xA0, 0xFE]) 1 (by norm_num)).2.1 (by norm_num)).1,
    ((framed_buffer_size (ifstream.opened [0xA0, 0xFE, 0xEE, 0xDE, 0x00]) 4294967294
      (by norm_num)).2.2 (by norm_num)).1,
    ((framed_buffer_size (ifstream.opened [0xA0, 0xFE, 0xEE, 0xDE, 0x00]) 4294967294
      (by norm_num)).2.2 (by norm_num)).2.2.2.2.1 (ChunkKind.gAMA.tag, parse_gama_chunk)
      (by simp [discard_readers])⟩

/-! ## Records are written after the verification only -/

/-- A run of `parse_bkgd_chunk` either returns `true` or leaves the record as it was. -/
theorem parse_bkgd_chunk_record (s : ifstream) (n : Nat) (bkgd_color : bKGD_t) :
    (parse_bkgd_chunk s n bkgd_color).1 = .returned true ∨
      (parse_bkgd_chunk s n bkgd_color).2.2 = bkgd_color := by
  unfold parse_bkgd_chunk
  generalize s.read (u32_add n 4) = r
  obtain ⟨got, s2⟩ := r
  simp only
  repeat' split
  all_goals first
    | exact Or.inl rfl
    | exact Or.inr rfl

/-- A run of `parse_chrm_chunk` either returns `true` or leaves the record as it was. -/
theorem parse_chrm_chunk_record (s : ifstream) (n : Nat) (chrm : cHRM_t) :
    (parse_chrm_chunk s n chrm).1 = .returned true ∨
      (parse_chrm_chunk s n chrm).2.2 = chrm := by
  unfold parse_chrm_chunk
  generalize s.read (u32_add n 4) = r
  obtain ⟨got, s2⟩ := r
  simp only
  repeat' split
  all_goals first
    | exact Or.inl rfl
    | exact Or.inr rfl

/-- C33: `parse_bkgd_chunk` and `parse_chrm_chunk` assign the fields of their record behind
the comparison of the checksums only.  Whenever one of them returns `false` (or stops in any
way other than returning `true`) the record passed in is unchanged; in particular on a
complete chunk of a legal length whose trailer is not the CRC-32 of type and payload, where
the reader returns `false` with the stream behind the trailer. -/
theorem records_unchanged_on_mismatch (p q : List Byte) (t0 t1 t2 t3 u0 u1 u2 u3 : Byte)
    (rest : List Byte) (bkgd_color : bKGD_t) (chrm : cHRM_t)
    (hp : p.length = 1 ∨ p.length = 6) (hq : q.length = 32)
    (ht : be32 t0 t1 t2 t3 ≠ crc32_standard ([ch 'b', ch 'K', ch 'G', ch 'D'] ++ p))
    (hu : be32 u0 u1 u2 u3 ≠ crc32_standard ([ch 'c', ch 'H', ch 'R', ch 'M'] ++ q)) :
    parse_bkgd_chunk (ifstream.opened (p ++ [t0, t1, t2, t3] ++ rest)) p.length bkgd_color =
        (.returned false, ifstream.opened rest, bkgd_color) ∧
      parse_chrm_chunk (ifstream.opened (q ++ [u0, u1, u2, u3] ++ rest)) 32 chrm =
        (.returned false, ifstream.opened rest, chrm) ∧
      (∀ (s : ifstream) (n : Nat), (parse_bkgd_chunk s n bkgd_color).1 ≠ .returned true →
        (parse_bkgd_chunk s n bkgd_color).2.2 = bkgd_color) ∧
      (∀ (s : ifstream) (n : Nat), (parse_chrm_chunk s n chrm).1 ≠ .returned true →
        (parse_chrm_chunk s n chrm).2.2 = chrm) := by
  refine ⟨?_, ?_, ?_, ?_⟩
  · rw [parse_bkgd_chunk_framed p t0 t1 t2 t3 rest p.length rfl hp, if_neg ht]
  · exact parse_chrm_chunk_mismatch q u0 u1 u2 u3 rest hq chrm hu
  · intro s n h
    exact (parse_bkgd_chunk_record s n bkgd_color).resolve_left h
  · intro s n h
    exact (parse_chrm_chunk_record s n chrm).resolve_left h

/-- Witness of C33: the colour `00 FF 00 80 00 40` and the chromaticities of sRGB, each with
the trailer `00 00 00 00`, against records that hold other values. -/
theorem records_unchanged_on_mismatch_witness :
    parse_bkgd_chunk (ifstream.opened ([0, 0xFF, 0, 0x80, 0, 0x40] ++ [0, 0, 0, 0] ++ [0x2A]))
        ([0, 0xFF, 0, 0x80, 0, 0x40] : List Byte).length
        { red := 1, green := 2, blue := 3, index := 4, is_indexed := true } =
      (.returned false, ifstream.opened [0x2A],
        { red := 1, green := 2, blue := 3, index := 4, is_indexed := true }) ∧
    parse_chrm_chunk
        (ifstream.opened
          ([0x00, 0x00, 0x7A, 0x26, 0x00, 0x00, 0x80, 0x84, 0x00, 0x00, 0xFA, 0x00,
            0x00, 0x00, 0x80, 0xE8, 0x00, 0x00, 0x75, 0x30, 0x00, 0x00, 0xEA, 0x60,
            0x00, 0x00, 0x3A, 0x98, 0x00, 0x00, 0x17, 0x70] ++ [0, 0, 0, 0] ++ [0x2A]))
        32 ⟨1, 2, 3, 4, 5, 6, 7, 8⟩ =
      (.returned false, ifstream.opened [0x2A], ⟨1, 2, 3, 4, 5, 6, 7, 8⟩) :=
  ⟨(records_unchanged_on_mismatch [0, 0xFF, 0, 0x80, 0, 0x40]
      [0x00, 0x00, 0x7A, 0x26, 0x00, 0x00, 0x80, 0x84, 0x00, 0x00, 0xFA, 0x00,
       0x00, 0x00, 0x80, 0xE8, 0x00, 0x00, 0x75, 0x30, 0x00, 0x00, 0xEA, 0x60,
       0x00, 0x00, 0x3A, 0x98, 0x00, 0x00, 0x17, 0x70]
      0 0 0 0 0 0 0 0 [0x2A] { red := 1, green := 2, blue := 3, index := 4, is_indexed := true }
      ⟨1, 2, 3, 4, 5, 6, 7, 8⟩ (Or.inr rfl) rfl (by decide) (by decide)).1,
    (records_unchanged_on_mismatch [0, 0xFF, 0, 0x80, 0, 0x40]
      [0x00, 0x00, 0x7A, 0x26, 0x00, 0x00, 0x80, 0x84, 0x00, 0x00, 0xFA, 0x00,
       0x00, 0x00, 0x80, 0xE8, 0x00, 0x00, 0x75, 0x30, 0x00, 0x00, 0xEA, 0x60,
       0x00, 0x00, 0x3A, 0x98, 0x00, 0x00, 0x17, 0x70]
      0 0 0 0 0 0 0 0 [0x2A] { red := 1, green := 2, blue := 3, index := 4, is_indexed := true }
      ⟨1, 2, 3, 4, 5, 6, 7, 8⟩ (Or.inr rfl) rfl (by decide) (by decide)).2.1⟩

end EPL
